import Mathlib

/-!
# Versa Director provider: client library and address reconciliation

A shallow embedding of the Go sources `vclient/client.go`,
`vclient/vclResAddresses.go`, `vclient/vclDataAddresses.go`,
`vclient/vclAppliances.go` and, of `internal/provider`, `proResAddresses.go`,
`proDataAddresses.go`, `proDataAppliances.go` and `provider.go`.

Conventions of the embedding

* Go `string` is `String`, the text of a string that is valid UTF-8; where
  other bytes matter, in the wire round trip, a Go string is the list of its
  bytes. Go `int` is `Int`, a Go slice is a `List` (the empty list stands for
  the nil slice, the only empty slice these functions build).
* A Go `error` is the `String` of its message; a returned `error` value is an
  `Option String` (`none` is `nil`), a `(value, error)` pair is an `Except`.
* The operating system, `encoding/json` on bytes and `net/http` are
  parameters of the functions that call them.
* Log output (`log.Printf`, `tflog`) has no effect on results and is left out.
-/

set_option autoImplicit false

namespace vclient

/-! ## Data model (`client.go`, lines 33-70) -/

/-- The anonymous `User` struct nested in `vOauthServerToken`. -/
structure vOauthServerTokenUser where
  Name : String
  IsExternalUser : Bool
  EnableTwoFactor : Bool
  IdleTimeOut : Int
  Roles : List String
  PrimaryRole : String
  deriving DecidableEq, Repr

/-- OAuth2 server response received for a token request. -/
structure vOauthServerToken where
  AccessToken : String
  IssuedAt : String
  ExpiresIn : String
  TokenType : String
  RefreshToken : String
  User : vOauthServerTokenUser
  deriving DecidableEq, Repr

/-- Configuration parameters needed to get the auth token. -/
structure vOauthConfig where
  ServerIP : String
  ServerPort : Int
  UserName : String
  Password : String
  GrantType : String
  ClientID : String
  ClientSecret : String
  Scopes : List String
  deriving DecidableEq, Repr

/-- The `Client` struct; its `HTTPClient` field belongs to `net/http` and is
part of the network parameter of the request functions. -/
structure Client where
  HostURL : String
  Config : vOauthConfig
  Token : vOauthServerToken
  deriving DecidableEq, Repr

/-- Go zero value of the nested user struct. -/
def vOauthServerTokenUser.zero : vOauthServerTokenUser :=
  ⟨"", false, false, 0, [], ""⟩

/-- Go zero value of `vOauthServerToken` (`var tokenData vOauthServerToken`). -/
def vOauthServerToken.zero : vOauthServerToken :=
  ⟨"", "", "", "", "", vOauthServerTokenUser.zero⟩

/-- Go zero value of `vOauthConfig`. -/
def vOauthConfig.zero : vOauthConfig :=
  ⟨"", 0, "", "", "", "", "", []⟩

/-- Go zero value of `Client`. -/
def Client.zero : Client :=
  ⟨"", vOauthConfig.zero, vOauthServerToken.zero⟩

/-! ## Token cache (`client.go`, lines 156-192) -/

def vOauthTokenFile : String := "../../vOauth2Token.json"

/-- What `os.Open` followed by `ioutil.ReadAll` does for one file name:
opening fails, reading fails, or the bytes of the file are returned. -/
inductive FileOutcome where
  | openError (err : String)
  | readError (err : String)
  | data (fileData : List UInt8)
  deriving DecidableEq, Repr

/-- The environment of `vOauthReadToken`: the file system and
`json.Unmarshal` into a zero `vOauthServerToken`. -/
structure TokenEnv where
  readFile : String → FileOutcome
  unmarshalToken : List UInt8 → Except String vOauthServerToken

/-- Lines 158-177 of `vOauthReadToken`: the token decoded from the file, or the
error that makes the function return early. With an empty file name the file
is not opened and `tokenData` keeps its zero value. -/
def loadTokenData (env : TokenEnv) (fileName : String) : Except String vOauthServerToken :=
  if fileName.length > 0 then
    match env.readFile fileName with
    | FileOutcome.openError err => Except.error err
    | FileOutcome.readError err => Except.error err
    | FileOutcome.data fileData =>
      match env.unmarshalToken fileData with
      | Except.error err => Except.error err
      | Except.ok tokenData => Except.ok tokenData
  else
    Except.ok vOauthServerToken.zero

/-- The function `vOauthReadToken(fileName, client)`: returns the error (or nil)
and the client after the call. -/
def vOauthReadToken (env : TokenEnv) (fileName : String) (client : Client) :
    Option String × Client :=
  match loadTokenData env fileName with
  | Except.error err => (some err, client)
  | Except.ok tokenData =>
    /- check validity of token -/
    if tokenData.ExpiresIn ≠ "-1" then
      (some "Token expired, Get new one", client)
    else
      (none, { client with Token := tokenData })

/-! ## Transport gateway (`client.go`, lines 305-442) -/

/-- A JSON document: the value `json.Marshal` serialises into a request body. -/
inductive Json where
  | null
  | bool (b : Bool)
  | num (n : Int)
  | str (s : String)
  | arr (items : List Json)
  | obj (fields : List (String × Json))
  deriving Repr

/-- A request as the gateway hands it to `net/http`: verb, the `apiUrl`
argument, the `urlData` query values, the headers in the order they are set,
and the marshalled body. -/
structure Request where
  Method : String
  URL : String
  Query : List (String × String)
  Header : List (String × String)
  Body : Option Json
  deriving Repr

/-- The part of `http.Response` the gateway reads: status code, status line,
the bytes the body delivers and the error (if any) with which the body ends
after those bytes instead of end-of-file. -/
structure Response where
  StatusCode : Int
  Status : String
  Body : List UInt8
  BodyErr : Option String
  deriving Repr

/-- The network seen from one client: given the requests handed to `net/http`
so far (oldest first) and the next request, `http.NewRequest` followed by
`client.Do` yields an error or a response. -/
abbrev Net := List Request → Request → Except String Response

/-- The three header lines every gateway function sets. -/
def requestHeader (c : Client) : List (String × String) :=
  [("Accept", "application/json"),
   ("Content-Type", "application/json"),
   ("Authorization", "Bearer " ++ c.Token.AccessToken)]

/-- The call `ioutil.ReadAll(io.LimitReader(resp.Body, 0x10000))`: the limit
reader reports end-of-file once 0x10000 bytes were read, so an error of the
body is seen only when the body delivers fewer bytes than the limit. -/
def readLimited (resp : Response) : Except String (List UInt8) :=
  if resp.Body.length ≥ 0x10000 then
    Except.ok (resp.Body.take 0x10000)
  else
    match resp.BodyErr with
    | some err => Except.error err
    | none => Except.ok resp.Body

/-- The method `(c *Client) vHttpHandlePostReq`: the returned body or error, and the
requests handed to the network after the call. -/
def vHttpHandlePostReq (net : Net) (c : Client) (apiUrl : String) (request : Json)
    (urlData : List (String × String)) (hist : List Request) :
    Except String (List UInt8) × List Request :=
  let req : Request := ⟨"POST", apiUrl, urlData, requestHeader c, some request⟩
  match net hist req with
  | Except.error err => (Except.error err, hist ++ [req])
  | Except.ok resp =>
    if resp.StatusCode ≠ 201 then
      (Except.error "http response error", hist ++ [req])
    else
      (readLimited resp, hist ++ [req])

/-- The method `(c *Client) vHttpHandlePutReq`. -/
def vHttpHandlePutReq (net : Net) (c : Client) (apiUrl : String) (request : Json)
    (urlData : List (String × String)) (hist : List Request) :
    Except String (List UInt8) × List Request :=
  let req : Request := ⟨"PUT", apiUrl, urlData, requestHeader c, some request⟩
  match net hist req with
  | Except.error err => (Except.error err, hist ++ [req])
  | Except.ok resp =>
    if resp.StatusCode ≠ 200 ∧ resp.StatusCode ≠ 204 then
      (Except.error "http response error", hist ++ [req])
    else
      (readLimited resp, hist ++ [req])

/-- The method `(c *Client) vHttpHandleDeleteReq`. -/
def vHttpHandleDeleteReq (net : Net) (c : Client) (apiUrl : String) (request : Json)
    (urlData : List (String × String)) (hist : List Request) :
    Except String (List UInt8) × List Request :=
  let req : Request := ⟨"DELETE", apiUrl, urlData, requestHeader c, some request⟩
  match net hist req with
  | Except.error err => (Except.error err, hist ++ [req])
  | Except.ok resp =>
    if resp.StatusCode ≠ 200 ∧ resp.StatusCode ≠ 204 then
      (Except.error "http response error", hist ++ [req])
    else
      (readLimited resp, hist ++ [req])

/-- The method `(c *Client) vHttpHandleGetReq`: a request without body. -/
def vHttpHandleGetReq (net : Net) (c : Client) (apiUrl : String)
    (urlData : List (String × String)) (hist : List Request) :
    Except String (List UInt8) × List Request :=
  let req : Request := ⟨"GET", apiUrl, urlData, requestHeader c, none⟩
  match net hist req with
  | Except.error err => (Except.error err, hist ++ [req])
  | Except.ok resp =>
    if resp.StatusCode ≠ 200 then
      (Except.error "http response error", hist ++ [req])
    else
      (readLimited resp, hist ++ [req])

/-! ## Address objects (`vclResAddresses.go`) -/

def vmsDirectorDevicesURL : String := "api/config/devices/device"
def vmsDirectorOrgServicesURL : String := "config/orgs/org-services"
def vmsDirectorObjectsAddressesURL : String := "objects/addresses"

/-- One address object; both fields are always written to JSON (the tag option
`optional` of `fqdn` is not one `encoding/json` knows). -/
structure DevObjectAddress where
  Name : String
  FQDN : String
  deriving DecidableEq, Repr

/-- The address collection; only `Addresses` has a JSON key (`address`), the
other three fields carry the tag `json:"-"`. -/
structure DevObjectsAddressList where
  DeviceName : String
  OrganizationName : String
  Count : Int
  Addresses : List DevObjectAddress
  deriving DecidableEq, Repr

structure DevOjectsAddressListData where
  AddrList : DevObjectsAddressList
  deriving DecidableEq, Repr

/-- Go zero value of `DevObjectsAddressList` (`var curAddrData DevObjectsAddressList`). -/
def DevObjectsAddressList.zero : DevObjectsAddressList :=
  ⟨"", "", 0, []⟩

/-- What `json.Marshal` writes for a `DevObjectAddress`. -/
def DevObjectAddress.marshal (a : DevObjectAddress) : Json :=
  Json.obj [("name", Json.str a.Name), ("fqdn", Json.str a.FQDN)]

/-- What `json.Marshal` writes for a `DevObjectsAddressList`: one key, `address`;
a nil slice is written as `null`. Marshalling these structs of strings cannot
fail, so the error branch of the callers is never taken. -/
def DevObjectsAddressList.marshal (l : DevObjectsAddressList) : Json :=
  Json.obj [("address",
    match l.Addresses with
    | [] => Json.null
    | a :: rest => Json.arr ((a :: rest).map DevObjectAddress.marshal))]

/-- The function `strconv.Itoa`. -/
def Itoa (n : Int) : String := toString n

/-- The method `(c *Client) CreateDevOrgServiceObjAddresses`: the returned error and the
requests handed to the network after the call. -/
def CreateDevOrgServiceObjAddresses (net : Net) (c : Client)
    (addrListData : DevOjectsAddressListData) (hist : List Request) :
    Option String × List Request :=
  let addrList := addrListData.AddrList
  if addrList.Count ≤ 0 ∨ (addrList.Addresses.length : Int) ≤ 0 then
    (some "Device Orgs Address creation failed as addresses count is 0", hist)
  else
    let httpUrl := "https://" ++ c.Config.ServerIP ++ ":" ++ Itoa c.Config.ServerPort ++ "/" ++
      vmsDirectorDevicesURL ++ "/" ++
      addrList.DeviceName ++ "/" ++
      vmsDirectorOrgServicesURL ++ "/" ++
      addrList.OrganizationName ++ "/" ++
      vmsDirectorObjectsAddressesURL
    let jsonData := addrList.marshal
    match vHttpHandlePostReq net c httpUrl jsonData [] hist with
    | (Except.error err, hist1) => (some err, hist1)
    | (Except.ok _, hist1) => (none, hist1)

/-- Lines 98-112: the loop of `UpdateDevOrgServiceObjAddresses` over the
remaining items. -/
def updateLoop (net : Net) (c : Client) (httpUrl : String) :
    List DevObjectAddress → List Request → Option String × List Request
  | [], hist => (none, hist)
  | val :: rest, hist =>
    let curHttpUrl := httpUrl ++ val.Name
    let curAddrData : DevObjectsAddressList :=
      { DevObjectsAddressList.zero with
        Addresses := DevObjectsAddressList.zero.Addresses ++ [val] }
    let jsonData := curAddrData.marshal
    match vHttpHandlePutReq net c curHttpUrl jsonData [] hist with
    | (Except.error err, hist1) => (some err, hist1)
    | (Except.ok _, hist1) => updateLoop net c httpUrl rest hist1

/-- The method `(c *Client) UpdateDevOrgServiceObjAddresses`. -/
def UpdateDevOrgServiceObjAddresses (net : Net) (c : Client)
    (addrListData : DevOjectsAddressListData) (hist : List Request) :
    Option String × List Request :=
  let addrList := addrListData.AddrList
  if addrList.Count ≤ 0 ∨ (addrList.Addresses.length : Int) ≤ 0 then
    (some "Device Orgs Address update failed as addresses count is 0", hist)
  else
    let httpUrl := "https://" ++ c.Config.ServerIP ++ ":" ++ Itoa c.Config.ServerPort ++ "/" ++
      vmsDirectorDevicesURL ++ "/" ++
      addrList.DeviceName ++ "/" ++
      vmsDirectorOrgServicesURL ++ "/" ++
      addrList.OrganizationName ++ "/" ++
      vmsDirectorObjectsAddressesURL ++ "/" ++
      "address" ++ "/"
    updateLoop net c httpUrl addrList.Addresses hist

/-- Lines 140-155: the loop of `DeleteDevOrgServiceObjAddresses` over the
remaining items. -/
def deleteLoop (net : Net) (c : Client) (httpUrl : String) :
    List DevObjectAddress → List Request → Option String × List Request
  | [], hist => (none, hist)
  | val :: rest, hist =>
    let curHttpUrl := httpUrl ++ val.Name
    let curAddrData : DevObjectsAddressList :=
      { DevObjectsAddressList.zero with
        Addresses := DevObjectsAddressList.zero.Addresses ++ [val] }
    let jsonData := curAddrData.marshal
    match vHttpHandleDeleteReq net c curHttpUrl jsonData [] hist with
    | (Except.error err, hist1) => (some err, hist1)
    | (Except.ok _, hist1) => deleteLoop net c httpUrl rest hist1

/-- The method `(c *Client) DeleteDevOrgServiceObjAddresses`. -/
def DeleteDevOrgServiceObjAddresses (net : Net) (c : Client)
    (addrListData : DevOjectsAddressListData) (hist : List Request) :
    Option String × List Request :=
  let addrList := addrListData.AddrList
  if addrList.Count ≤ 0 ∨ (addrList.Addresses.length : Int) ≤ 0 then
    (some "Device Orgs Address deletion failed as addresses count is 0", hist)
  else
    let httpUrl := "https://" ++ c.Config.ServerIP ++ ":" ++ Itoa c.Config.ServerPort ++ "/" ++
      vmsDirectorDevicesURL ++ "/" ++
      addrList.DeviceName ++ "/" ++
      vmsDirectorOrgServicesURL ++ "/" ++
      addrList.OrganizationName ++ "/" ++
      vmsDirectorObjectsAddressesURL ++ "/" ++
      "address" ++ "/"
    deleteLoop net c httpUrl addrList.Addresses hist

/-! ## Decoding the wire shape (`vclDataAddresses.go`) -/

/-- Case folding of one character of a JSON key, as `encoding/json` does it when
it matches keys to struct fields: ASCII capitals, the Kelvin sign and the long
s fold to their small ASCII letter. -/
def foldChar (ch : Char) : Char :=
  if ch.isUpper then ch.toLower
  else if ch = Char.ofNat 0x212A then 'k'
  else if ch = Char.ofNat 0x17F then 's'
  else ch

/-- Whether the JSON key `key` selects the struct field whose JSON name is the
small-letter ASCII word `name`: equal up to case folding. -/
def keyMatches (name key : String) : Bool :=
  decide (String.mk (key.toList.map foldChar) = name)

/-- The word `encoding/json` uses for the kind of a JSON value in a type error. -/
def Json.kind : Json → String
  | Json.null => "null"
  | Json.bool _ => "bool"
  | Json.num _ => "number"
  | Json.str _ => "string"
  | Json.arr _ => "array"
  | Json.obj _ => "object"

/-- The text of an `UnmarshalTypeError` for the value `v` met at the top of the
document, where the Go type `target` is expected. -/
def typeError (v : Json) (target : String) : String :=
  "json: cannot unmarshal " ++ v.kind ++ " into Go value of type " ++ target

/-- The text of an `UnmarshalTypeError` for the value `v` met below a struct
field, where the Go type `target` is expected: `field` is the name of the
struct being decoded, a dot, and the JSON names of the fields on the way from
the top of the document, joined by dots. -/
def fieldTypeError (v : Json) (field target : String) : String :=
  "json: cannot unmarshal " ++ v.kind ++ " into Go struct field " ++ field ++
    " of type " ++ target

/-- Decoding a JSON value into the Go `string` field `field` holding `old`: a
JSON string replaces it, `null` leaves it, anything else is a type error. -/
def unmarshalString (field : String) (old : String) : Json → Except String String
  | Json.str s => Except.ok s
  | Json.null => Except.ok old
  | v => Except.error (fieldTypeError v field "string")

/-- Decoding the members of a JSON object, in order, into a `DevObjectAddress`
that is an element of the slice under the key `address`: the keys `name` and
`fqdn` (up to case) set the fields, other keys are skipped. -/
def DevObjectAddress.unmarshalFields (a : DevObjectAddress) :
    List (String × Json) → Except String DevObjectAddress
  | [] => Except.ok a
  | (key, v) :: rest =>
    if keyMatches "name" key then
      match unmarshalString "DevObjectAddress.address.name" a.Name v with
      | Except.error err => Except.error err
      | Except.ok s => DevObjectAddress.unmarshalFields { a with Name := s } rest
    else if keyMatches "fqdn" key then
      match unmarshalString "DevObjectAddress.address.fqdn" a.FQDN v with
      | Except.error err => Except.error err
      | Except.ok s => DevObjectAddress.unmarshalFields { a with FQDN := s } rest
    else
      DevObjectAddress.unmarshalFields a rest

/-- Decoding a JSON value into a `DevObjectAddress` holding `a`, an element of
the slice under the key `address`: an object sets fields of `a`, `null` leaves
`a` as it is. -/
def DevObjectAddress.unmarshalInto (a : DevObjectAddress) : Json → Except String DevObjectAddress
  | Json.obj fields => DevObjectAddress.unmarshalFields a fields
  | Json.null => Except.ok a
  | v => Except.error
      (fieldTypeError v "DevObjectsAddressList.address" "vclient.DevObjectAddress")

/-- Decoding the elements of a JSON array into a slice of `DevObjectAddress`
whose backing array holds `backing`: the element at index `i` is decoded into
what the backing array holds there, or into a zero element beyond it. -/
def unmarshalAddresses :
    List DevObjectAddress → List Json → Except String (List DevObjectAddress)
  | _, [] => Except.ok []
  | backing, v :: rest =>
    match DevObjectAddress.unmarshalInto (backing.headD ⟨"", ""⟩) v with
    | Except.error err => Except.error err
    | Except.ok a =>
      match unmarshalAddresses backing.tail rest with
      | Except.error err => Except.error err
      | Except.ok more => Except.ok (a :: more)

/-- Decoding the members of a JSON object, in order, into a
`DevObjectsAddressList`: only the key `address` (up to case) has a field. A
non-empty array is decoded element by element into the slice as it stands,
`spare` being what its backing array holds beyond its length, and the slice is
cut to the length of the array; an empty array gives a new empty slice and
`null` the nil slice. The three fields tagged `json:"-"` are never touched. -/
def DevObjectsAddressList.unmarshalFields (l : DevObjectsAddressList)
    (spare : List DevObjectAddress) :
    List (String × Json) → Except String DevObjectsAddressList
  | [] => Except.ok l
  | (key, v) :: rest =>
    if keyMatches "address" key then
      match v with
      | Json.arr [] =>
        DevObjectsAddressList.unmarshalFields { l with Addresses := [] } [] rest
      | Json.arr (item :: items) =>
        match unmarshalAddresses (l.Addresses ++ spare) (item :: items) with
        | Except.error err => Except.error err
        | Except.ok addrs =>
          DevObjectsAddressList.unmarshalFields { l with Addresses := addrs }
            ((l.Addresses ++ spare).drop addrs.length) rest
      | Json.null => DevObjectsAddressList.unmarshalFields { l with Addresses := [] } [] rest
      | other => Except.error
          (fieldTypeError other "DevObjectsAddressList.address" "[]vclient.DevObjectAddress")
    else
      DevObjectsAddressList.unmarshalFields l spare rest

/-- Decoding a JSON value into a `DevObjectsAddressList` holding `l`, whose
slice has no spare capacity. -/
def DevObjectsAddressList.unmarshalInto (l : DevObjectsAddressList) :
    Json → Except String DevObjectsAddressList
  | Json.obj fields => DevObjectsAddressList.unmarshalFields l [] fields
  | Json.null => Except.ok l
  | v => Except.error (typeError v "vclient.DevObjectsAddressList")

/-- The call `json.Unmarshal(data, &addrListData.AddrList)`: `parse` is the
reading of bytes as a JSON document (an error on bytes that are not one),
followed by the decoding into the struct. -/
def jsonUnmarshalAddressList (parse : List UInt8 → Except String Json) (data : List UInt8)
    (l : DevObjectsAddressList) : Except String DevObjectsAddressList :=
  match parse data with
  | Except.error err => Except.error err
  | Except.ok doc => l.unmarshalInto doc

/-- The method `(c *Client) GetDeviceOrganizationAddresses`: the collection or the
error, and the requests handed to the network after the call. -/
def GetDeviceOrganizationAddresses (parse : List UInt8 → Except String Json) (net : Net)
    (c : Client) (deviceName organizationName : String) (hist : List Request) :
    Except String DevObjectsAddressList × List Request :=
  let httpUrl := "https://" ++ c.Config.ServerIP ++ ":" ++ Itoa c.Config.ServerPort ++ "/" ++
    vmsDirectorDevicesURL ++ "/" ++
    deviceName ++ "/" ++
    vmsDirectorOrgServicesURL ++ "/" ++
    organizationName ++ "/" ++
    vmsDirectorObjectsAddressesURL ++ "/" ++ "address"
  match vHttpHandleGetReq net c httpUrl [] hist with
  | (Except.error err, hist1) => (Except.error err, hist1)
  | (Except.ok data, hist1) =>
    match jsonUnmarshalAddressList parse data DevObjectsAddressList.zero with
    | Except.error err => (Except.error err, hist1)
    | Except.ok addrList => (Except.ok addrList, hist1)

/-! ## Go strings as bytes (`unicode/utf8`, `encoding/json`)

A Go `string` is a sequence of bytes of any kind. A JSON document carries a
string as text, a sequence of Unicode characters, and the structures above hold
that text. The definitions of this section relate the two: what `json.Marshal`
writes for the bytes of a Go string, and the bytes `json.Unmarshal` stores for
a JSON string. -/

/-- The table `acceptRanges` of `unicode/utf8`, lower bound: the lowest second
byte accepted after the first byte `s0` of a sequence of several bytes. -/
def acceptLo (s0 : Nat) : Nat :=
  if s0 = 0xE0 then 0xA0 else if s0 = 0xF0 then 0x90 else 0x80

/-- The table `acceptRanges` of `unicode/utf8`, upper bound. -/
def acceptHi (s0 : Nat) : Nat :=
  if s0 = 0xED then 0x9F else if s0 = 0xF4 then 0x8F else 0xBF

/-- The constant `utf8.RuneError`, the replacement character U+FFFD. -/
def RuneError : Char := Char.ofNat 0xFFFD

/-- The function `utf8.DecodeRuneInString` on the bytes `s`, each given by its
value: the first character of `s` and the number of bytes it takes, or
`RuneError` and 1 where `s` does not start with a UTF-8 encoded character
(`RuneError` and 0 on the empty string). -/
def DecodeRune (s : List Nat) : Char × Nat :=
  match s with
  | [] => (RuneError, 0)
  | s0 :: rest =>
    if s0 < 0x80 then (Char.ofNat s0, 1)
    else if s0 < 0xC2 ∨ 0xF4 < s0 then (RuneError, 1)
    else
      let sz := if s0 < 0xE0 then 2 else if s0 < 0xF0 then 3 else 4
      if rest.length + 1 < sz then (RuneError, 1)
      else
        let s1 := rest.getD 0 0
        if s1 < acceptLo s0 ∨ acceptHi s0 < s1 then (RuneError, 1)
        else if sz ≤ 2 then (Char.ofNat (s0 % 32 * 64 + s1 % 64), 2)
        else
          let s2 := rest.getD 1 0
          if s2 < 0x80 ∨ 0xBF < s2 then (RuneError, 1)
          else if sz ≤ 3 then (Char.ofNat (s0 % 16 * 4096 + s1 % 64 * 64 + s2 % 64), 3)
          else
            let s3 := rest.getD 2 0
            if s3 < 0x80 ∨ 0xBF < s3 then (RuneError, 1)
            else (Char.ofNat (s0 % 8 * 262144 + s1 % 64 * 4096 + s2 % 64 * 64 + s3 % 64), 4)

/-- The loop of `encoding/json` over the bytes of a Go string it writes, with
`fuel` rounds left: each round takes the character `DecodeRune` finds and moves
on by its size, so that a byte which starts no UTF-8 encoded character is
written as U+FFFD. -/
def decodeRunesFuel : Nat → List Nat → List Char
  | 0, _ => []
  | _ + 1, [] => []
  | fuel + 1, s0 :: rest =>
    (DecodeRune (s0 :: rest)).1 ::
      decodeRunesFuel fuel ((s0 :: rest).drop (DecodeRune (s0 :: rest)).2)

/-- The characters `encoding/json` writes for the bytes `s`; every round of the
loop consumes a byte at least, so one round per byte is enough
(`decodeRunesFuel_of_le`). -/
def decodeRunes (s : List Nat) : List Char := decodeRunesFuel s.length s

/-- The function `utf8.EncodeRune`: the bytes of the UTF-8 encoding of a
character, each given by its value. -/
def EncodeRune (c : Char) : List Nat :=
  let n := c.toNat
  if n < 0x80 then [n]
  else if n < 0x800 then [0xC0 + n / 64, 0x80 + n % 64]
  else if n < 0x10000 then [0xE0 + n / 4096, 0x80 + n / 64 % 64, 0x80 + n % 64]
  else [0xF0 + n / 262144, 0x80 + n / 4096 % 64, 0x80 + n / 64 % 64, 0x80 + n % 64]

/-- The UTF-8 encoding of a sequence of characters. -/
def encodeRunes : List Char → List Nat
  | [] => []
  | c :: cs => EncodeRune c ++ encodeRunes cs

/-- The text of the JSON string that `json.Marshal` writes for the Go string
with the bytes `s`. -/
def jsonText (s : List UInt8) : String :=
  String.mk (decodeRunes (s.map UInt8.toNat))

/-- The bytes of the Go string that `json.Unmarshal` stores for the JSON string
with the text `t`: its UTF-8 encoding. -/
def goBytes (t : String) : List UInt8 :=
  (encodeRunes t.toList).map UInt8.ofNat

/-- The bytes `s` are valid UTF-8: the encoding of some text. -/
def validUTF8 (s : List UInt8) : Prop :=
  ∃ t : String, goBytes t = s

/-- The struct `DevObjectAddress` with each Go string held as its bytes. -/
structure DevObjectAddressBytes where
  Name : List UInt8
  FQDN : List UInt8
  deriving DecidableEq, Repr

/-- The address as `json.Marshal` writes it: the text written for each field. -/
def DevObjectAddressBytes.written (a : DevObjectAddressBytes) : DevObjectAddress :=
  ⟨jsonText a.Name, jsonText a.FQDN⟩

/-- The Go value that `json.Unmarshal` stores for a decoded address. -/
def DevObjectAddressBytes.stored (a : DevObjectAddress) : DevObjectAddressBytes :=
  ⟨goBytes a.Name, goBytes a.FQDN⟩

/-- The wire round trip of the addresses of a collection: `json.Marshal` of the
`DevObjectsAddressList` holding them, as create, update and delete call it,
then `json.Unmarshal` of that document into a new `DevObjectsAddressList`, as
the fetch calls it; the result is the decoded addresses or the error. -/
def wireRoundTrip (addresses : List DevObjectAddressBytes) :
    Except String (List DevObjectAddressBytes) :=
  let addrList : DevObjectsAddressList :=
    { DevObjectsAddressList.zero with
      Addresses := addresses.map DevObjectAddressBytes.written }
  match DevObjectsAddressList.zero.unmarshalInto addrList.marshal with
  | Except.error err => Except.error err
  | Except.ok decoded => Except.ok (decoded.Addresses.map DevObjectAddressBytes.stored)

/-! ## Token acquisition and client construction (`client.go`, lines 97-150, 195-226) -/

def vOauthServerTokenPath : String := "auth/token"

/-- What `json.Marshal(oauthParams)` writes for the `map[string]string` of
`vOauthGetToken`: an object of the five entries, keys in sorted order. -/
def oauthParamsJson (config : vOauthConfig) : Json :=
  Json.obj [("client_id", Json.str config.ClientID),
            ("client_secret", Json.str config.ClientSecret),
            ("grant_type", Json.str config.GrantType),
            ("password", Json.str config.Password),
            ("username", Json.str config.UserName)]

/-- The call `ioutil.ReadAll(resp.Body)` without limit: the bytes of the body,
or the error the body ends with. -/
def readAll (resp : Response) : Except String (List UInt8) :=
  match resp.BodyErr with
  | some err => Except.error err
  | none => Except.ok resp.Body

/-- The state after `vOauthGetToken` or `NewClient`: the client, the requests
handed to the network, and the files written (`ioutil.WriteFile`, whose own
failure is only logged). -/
structure TokenState where
  client : Client
  sent : List Request
  written : List (String × List UInt8)

/-- The function `vOauthGetToken(client)`: the returned error (or nil) and the
state after the call. The POST goes through `http.Client.Post`, which sets
only the content type. -/
def vOauthGetToken (env : TokenEnv) (net : Net) (client : Client) (hist : List Request)
    (written : List (String × List UInt8)) : Option String × TokenState :=
  let config := client.Config
  let requestBody := oauthParamsJson config
  let oauthServerUrl := "https://" ++
    config.ServerIP ++ ":" ++
    Itoa config.ServerPort ++ "/" ++
    vOauthServerTokenPath
  let req : Request :=
    ⟨"POST", oauthServerUrl, [], [("Content-Type", "application/json")], some requestBody⟩
  match net hist req with
  | Except.error err => (some err, ⟨client, hist ++ [req], written⟩)
  | Except.ok resp =>
    match readAll resp with
    | Except.error err => (some err, ⟨client, hist ++ [req], written⟩)
    | Except.ok body =>
      match env.unmarshalToken body with
      | Except.error err => (some err, ⟨client, hist ++ [req], written⟩)
      | Except.ok tokenData =>
        (none, ⟨{ client with Token := tokenData }, hist ++ [req],
          written ++ [(vOauthTokenFile, body)]⟩)

/-- Reading an optional sign and decimal digits as a number; `none` when the
text is not of that form. -/
def parseDecimal (s : String) : Option Int :=
  let body : Bool × List Char :=
    match s.toList with
    | '-' :: rest => (true, rest)
    | '+' :: rest => (false, rest)
    | rest => (false, rest)
  if body.2.isEmpty || !(body.2.all Char.isDigit) then none
  else
    let n : Nat := body.2.foldl (fun acc ch => acc * 10 + (ch.toNat - 48)) 0
    some (if body.1 then -(n : Int) else (n : Int))

/-- The value of `strconv.Atoi(s)` with its error dropped, for a 64-bit `int`:
0 for text that is not a number, the nearest bound for a number out of range. -/
def Atoi (s : String) : Int :=
  match parseDecimal s with
  | none => 0
  | some n =>
    if n > 9223372036854775807 then 9223372036854775807
    else if n < -9223372036854775808 then -9223372036854775808
    else n

/-- How a call of `NewClient` ends: it returns a client (with a nil error),
`log.Fatal` ends the process, or a nil argument is dereferenced. -/
inductive NewClientOutcome where
  | returned (c : Client)
  | fatal (msg : String)
  | nilDereference

/-- The function `NewClient`; a nil pointer argument is `none`. Returns how
the call ends, the requests handed to the network and the files written. -/
def NewClient (env : TokenEnv) (net : Net)
    (host username password port oauthClientId oauthClientSecret oauthGrantType : Option String)
    (hist : List Request) (written : List (String × List UInt8)) :
    NewClientOutcome × List Request × List (String × List UInt8) :=
  let c := Client.zero
  match username, password with
  | none, _ => (NewClientOutcome.returned c, hist, written)
  | some _, none => (NewClientOutcome.returned c, hist, written)
  | some username, some password =>
    match host, port, oauthClientId, oauthClientSecret, oauthGrantType with
    | some host, some port, some oauthClientId, some oauthClientSecret, some oauthGrantType =>
      let c : Client :=
        { c with Config :=
          { c.Config with
            ServerIP := host
            ServerPort := Atoi port
            UserName := username
            Password := password
            ClientID := oauthClientId
            ClientSecret := oauthClientSecret
            GrantType := oauthGrantType } }
      match vOauthReadToken env vOauthTokenFile c with
      | (none, c1) => (NewClientOutcome.returned c1, hist, written)
      | (some _, c1) =>
        /- get auth token from server -/
        match vOauthGetToken env net c1 hist written with
        | (some _, st) =>
          (NewClientOutcome.fatal "Authentication token isn't available, aborting",
            st.sent, st.written)
        | (none, st) => (NewClientOutcome.returned st.client, st.sent, st.written)
    | _, _, _, _, _ => (NewClientOutcome.nilDereference, hist, written)

/-- The token request as the specification words it: a POST to
`https://host:port/auth/token` whose JSON body is the object of the five
credentials. -/
def tokenRequest (config : vOauthConfig) : Request :=
  ⟨"POST",
    "https://" ++ config.ServerIP ++ ":" ++ toString config.ServerPort ++ "/auth/token",
    [], [("Content-Type", "application/json")],
    some (Json.obj [("client_id", Json.str config.ClientID),
                    ("client_secret", Json.str config.ClientSecret),
                    ("grant_type", Json.str config.GrantType),
                    ("password", Json.str config.Password),
                    ("username", Json.str config.UserName)])⟩

/-- The client `NewClient` has built when it turns to the token: the zero
client with the seven arguments stored in its configuration. -/
def configuredClient (host username password port oauthClientId oauthClientSecret
    oauthGrantType : String) : Client :=
  { Client.zero with Config :=
    { Client.zero.Config with
      ServerIP := host
      ServerPort := Atoi port
      UserName := username
      Password := password
      ClientID := oauthClientId
      ClientSecret := oauthClientSecret
      GrantType := oauthGrantType } }

/-- A response body of 65544 bytes: 65530 spaces followed by the 14 bytes of
the JSON text of the envelope of the empty list. -/
def paddedEnvelopeBody : List UInt8 :=
  List.replicate 65530 32 ++ [123, 34, 97, 100, 100, 114, 101, 115, 115, 34, 58, 91, 93, 125]

/-! ## Appliances (`vclAppliances.go`, `client.go` lines 245-259) -/

def vmsDirectorAppliancesURL : String := "vnms/appliance/appliance"

/-- The URL that `vHttpClient(host, port, urlPath)` returns next to the HTTP
client: empty for an empty path. -/
def vHttpClient (host : String) (port : Int) (urlPath : String) : String :=
  if urlPath.length > 0 then
    "https://" ++ host ++ ":" ++ Itoa port ++ "/" ++ urlPath
  else
    ""

/-- One element of `VmsDirectorAppliances.Appliances`, with the four fields the
provider reads; the decoded record has many more fields, which no code of the
repository uses. -/
structure VmsDirectorAppliance where
  Name : String
  UUID : String
  ServicesStatus : String
  OverallStatus : String
  deriving DecidableEq, Repr

/-- Appliances data received from director: the reported total and the page. -/
structure VmsDirectorAppliances where
  TotalCount : Int
  Appliances : List VmsDirectorAppliance
  deriving DecidableEq, Repr

/-- The method `(c *Client) GetAllAppliances`; `unmarshal` is
`json.Unmarshal` into a zero `VmsDirectorAppliances`. -/
def GetAllAppliances (unmarshal : List UInt8 → Except String VmsDirectorAppliances)
    (net : Net) (c : Client) (hist : List Request) :
    Except String VmsDirectorAppliances × List Request :=
  let apiUrl := vHttpClient c.Config.ServerIP c.Config.ServerPort vmsDirectorAppliancesURL
  let urlData : List (String × String) := [("limit", Itoa 10), ("offset", Itoa 0)]
  match vHttpHandleGetReq net c apiUrl urlData hist with
  | (Except.error err, hist1) => (Except.error err, hist1)
  | (Except.ok data, hist1) =>
    match unmarshal data with
    | Except.error err => (Except.error err, hist1)
    | Except.ok applianceData => (Except.ok applianceData, hist1)

/-! ## The address requests as the specification words them -/

/-- The collection endpoint
`https://host:port/api/config/devices/device/DEVICE/config/orgs/org-services/ORG/objects/addresses`. -/
def addressesURL (c : Client) (device org : String) : String :=
  "https://" ++ c.Config.ServerIP ++ ":" ++ toString c.Config.ServerPort ++
    "/api/config/devices/device/" ++ device ++
    "/config/orgs/org-services/" ++ org ++ "/objects/addresses"

/-- The per-item endpoint `.../objects/addresses/address/NAME`. -/
def addressItemURL (c : Client) (device org name : String) : String :=
  addressesURL c device org ++ "/address/" ++ name

/-- The wire envelope: an object whose only key, `address`, holds the array of
the items, each an object with the keys `name` and `fqdn`. -/
def envelope (items : List DevObjectAddress) : Json :=
  Json.obj [("address",
    Json.arr (items.map (fun a => Json.obj [("name", Json.str a.Name), ("fqdn", Json.str a.FQDN)])))]

/-- The POST that creates the whole collection `l`. -/
def postRequestFor (c : Client) (l : DevObjectsAddressList) : Request :=
  ⟨"POST", addressesURL c l.DeviceName l.OrganizationName, [], requestHeader c,
    some (envelope l.Addresses)⟩

/-- The PUT for one item of the collection `l`. -/
def putRequestFor (c : Client) (l : DevObjectsAddressList) (item : DevObjectAddress) : Request :=
  ⟨"PUT", addressItemURL c l.DeviceName l.OrganizationName item.Name, [], requestHeader c,
    some (envelope [item])⟩

/-- The DELETE for one item of the collection `l`. -/
def deleteRequestFor (c : Client) (l : DevObjectsAddressList) (item : DevObjectAddress) :
    Request :=
  ⟨"DELETE", addressItemURL c l.DeviceName l.OrganizationName item.Name, [], requestHeader c,
    some (envelope [item])⟩

/-- The outcome of the PUT for `item` when it is the request number `j`
(from 0) of an update of `l` started after the requests `hist`. -/
def putResult (net : Net) (c : Client) (l : DevObjectsAddressList) (hist : List Request)
    (j : Nat) (item : DevObjectAddress) : Except String (List UInt8) :=
  (vHttpHandlePutReq net c (addressItemURL c l.DeviceName l.OrganizationName item.Name)
    (envelope [item]) [] (hist ++ (l.Addresses.take j).map (putRequestFor c l))).1

/-- The outcome of the DELETE for `item` when it is the request number `j`
(from 0) of a delete of `l` started after the requests `hist`. -/
def deleteResult (net : Net) (c : Client) (l : DevObjectsAddressList) (hist : List Request)
    (j : Nat) (item : DevObjectAddress) : Except String (List UInt8) :=
  (vHttpHandleDeleteReq net c (addressItemURL c l.DeviceName l.OrganizationName item.Name)
    (envelope [item]) [] (hist ++ (l.Addresses.take j).map (deleteRequestFor c l))).1

/-- The outcome of the POST of a create of `l` started after the requests `hist`. -/
def postResult (net : Net) (c : Client) (l : DevObjectsAddressList) (hist : List Request) :
    Except String (List UInt8) :=
  (vHttpHandlePostReq net c (addressesURL c l.DeviceName l.OrganizationName)
    (envelope l.Addresses) [] hist).1

/-- A per-item loop with early exit, over any per-item call: the common shape
of `updateLoop` and `deleteLoop`. -/
def itemLoop (call : DevObjectAddress → List Request → Except String (List UInt8) × List Request) :
    List DevObjectAddress → List Request → Option String × List Request
  | [], hist => (none, hist)
  | val :: rest, hist =>
    match call val hist with
    | (Except.error err, hist1) => (some err, hist1)
    | (Except.ok _, hist1) => itemLoop call rest hist1

end vclient

namespace provider

/-! ## Address resource state (`proResAddresses.go`) -/

/-- The value states of the plugin framework's attribute values. -/
inductive valueState where
  | valueStateNull
  | valueStateUnknown
  | valueStateKnown
  deriving DecidableEq, Repr

/-- The framework's string value (`types.String`): a state and a Go string,
compared by `==` field by field. -/
structure basetypes.StringValue where
  state : valueState
  value : String
  deriving DecidableEq, Repr

/-- The constructor `types.StringValue(v)`: the known value `v`. -/
def types.StringValue (v : String) : basetypes.StringValue :=
  ⟨valueState.valueStateKnown, v⟩

/-- The constructor `types.StringNull()`. -/
def types.StringNull : basetypes.StringValue :=
  ⟨valueState.valueStateNull, ""⟩

/-- An item of the data source model (`proDataAddresses.go`). -/
structure addressDataModel where
  Name : basetypes.StringValue
  FQDN : basetypes.StringValue
  deriving DecidableEq, Repr

/-- An item of the resource model. -/
structure addressItemModel where
  Name : basetypes.StringValue
  FQDN : basetypes.StringValue
  deriving DecidableEq, Repr

/-- The Go conversion `addressItemModel(configAddrData)`. -/
def addressItemModel.ofData (d : addressDataModel) : addressItemModel :=
  ⟨d.Name, d.FQDN⟩

/-- Lines 214-221 of `Read`: the inner loop over `state.Address`, which
overwrites the first entry whose `Name` equals that of `configAddrData` and
stops there. Returns the flag `added` and the list after the loop. -/
def overwriteFirst (configAddrData : addressDataModel) :
    List addressItemModel → Bool × List addressItemModel
  | [] => (false, [])
  | stVal :: rest =>
    if stVal.Name = configAddrData.Name then
      (true, addressItemModel.ofData configAddrData :: rest)
    else
      let r := overwriteFirst configAddrData rest
      (r.1, stVal :: r.2)

/-- Lines 208-211 of `Read`: the model item built from the remote object `val`. -/
def configAddrDataOf (val : vclient.DevObjectAddress) : addressDataModel :=
  { Name := types.StringValue val.Name, FQDN := types.StringValue val.FQDN }

/-- Lines 208-224 of `Read`: the body of the loop over `addrData.Addresses`
for one remote object `val`. -/
def readMergeStep (stateAddress : List addressItemModel) (val : vclient.DevObjectAddress) :
    List addressItemModel :=
  let configAddrData := configAddrDataOf val
  let r := overwriteFirst configAddrData stateAddress
  if r.1 = false then
    r.2 ++ [addressItemModel.ofData configAddrData]
  else
    r.2

/-- Lines 207-225 of `Read`: the loop over `addrData.Addresses`, from the
prior `state.Address` to the one written back. -/
def readMerge (stateAddress : List addressItemModel)
    (addresses : List vclient.DevObjectAddress) : List addressItemModel :=
  addresses.foldl readMergeStep stateAddress

/-- The state entry `Read` builds from a remote object: both fields known. -/
def remoteItem (val : vclient.DevObjectAddress) : addressItemModel :=
  ⟨types.StringValue val.Name, types.StringValue val.FQDN⟩

/-- The remote object that replaces the desired entry `e`, if one has the name
of `e`; otherwise `e` itself. -/
def replacedBy (remote : List vclient.DevObjectAddress) (e : addressItemModel) :
    addressItemModel :=
  match remote.find? (fun o => decide (types.StringValue o.Name = e.Name)) with
  | some o => remoteItem o
  | none => e

/-- Whether the name of the remote object `o` occurs in no desired entry. -/
def absentFrom (desired : List addressItemModel) (o : vclient.DevObjectAddress) : Bool :=
  desired.all (fun e => decide (e.Name ≠ types.StringValue o.Name))

/-- The read-merge as the specification words it: every desired entry whose
name occurs in remote is replaced in place by the remote object of that name,
and the remote objects whose names do not occur in desired follow in remote
order. -/
def mergeByKey (desired : List addressItemModel)
    (remote : List vclient.DevObjectAddress) : List addressItemModel :=
  desired.map (replacedBy remote) ++ (remote.filter (absentFrom desired)).map remoteItem

/-! ## Lifecycle handlers of the address resource (`proResAddresses.go`) -/

/-- The severities of the framework's diagnostics. -/
inductive Severity where
  | SeverityError
  | SeverityWarning
  deriving DecidableEq, Repr

/-- One diagnostic of the plugin framework: severity, the attribute path it
is attached to (if any), summary and detail. -/
structure Diagnostic where
  severity : Severity
  path : Option String
  summary : String
  detail : String
  deriving DecidableEq, Repr

/-- The method `Diagnostics.HasError`. -/
def HasError (diags : List Diagnostic) : Bool :=
  diags.any (fun d => decide (d.severity = Severity.SeverityError))

/-- The method `Diagnostics.Append`: adds the diagnostics that are not already
contained. -/
def Append (diags : List Diagnostic) (more : List Diagnostic) : List Diagnostic :=
  more.foldl (fun acc d => if d ∈ acc then acc else acc ++ [d]) diags

/-- The method `Diagnostics.AddAttributeError`. -/
def AddAttributeError (diags : List Diagnostic) (path summary detail : String) :
    List Diagnostic :=
  Append diags [⟨Severity.SeverityError, some path, summary, detail⟩]

/-- The method `ValueString` of the framework's string value: its Go string
(empty for the null and unknown values the framework builds). -/
def basetypes.StringValue.ValueString (s : basetypes.StringValue) : String :=
  s.value

/-- The resource model. -/
structure addressesResourceModel where
  ID : basetypes.StringValue
  DeviceName : basetypes.StringValue
  OrganizationName : basetypes.StringValue
  LastUpdated : basetypes.StringValue
  Address : List addressItemModel
  deriving DecidableEq, Repr

/-- What the handlers take from outside the repository: the environment
variables (`os.Getenv`), the text of `time.Now().Format(time.RFC850)`, the
reading of bytes as JSON, and the diagnostics of `resp.State.Set`. -/
structure HandlerEnv where
  getenv : String → String
  now : String
  parse : List UInt8 → Except String vclient.Json
  stateSet : addressesResourceModel → List Diagnostic

/-- What a handler leaves behind: the diagnostics of the response, the value
handed to `resp.State.Set` (`none` when it is not called) and the requests
handed to the network. -/
structure HandlerResult where
  Diagnostics : List Diagnostic
  State : Option addressesResourceModel
  sent : List vclient.Request
  deriving Repr

/-- Lines 127-139, 256-268 and 299-311: the collection built from a plan or a
state. -/
def addrListDataOf (model : addressesResourceModel) : vclient.DevOjectsAddressListData :=
  { AddrList :=
    { Count := (model.Address.length : Int)
      DeviceName := model.DeviceName.ValueString
      OrganizationName := model.OrganizationName.ValueString
      Addresses := [] ++ model.Address.map (fun val =>
        ({ Name := val.Name.ValueString, FQDN := val.FQDN.ValueString } :
          vclient.DevObjectAddress)) } }

/-- The method `(r *addressResource) Create`; `getDiags` and `plan` are what
`req.Plan.Get` yields. -/
def addressResource.Create (env : HandlerEnv) (net : vclient.Net) (client : vclient.Client)
    (getDiags : List Diagnostic) (plan : addressesResourceModel)
    (hist : List vclient.Request) : HandlerResult :=
  let diags := Append [] getDiags
  if HasError diags then
    ⟨diags, none, hist⟩
  else
    let addrListData := addrListDataOf plan
    let r := vclient.CreateDevOrgServiceObjAddresses net client addrListData hist
    let plan : addressesResourceModel :=
      { plan with LastUpdated := types.StringValue env.now, ID := types.StringValue "1" }
    ⟨Append diags (env.stateSet plan), some plan, r.2⟩

/-- The text of the attribute error of `Read` for a missing name; `envName`
is the environment variable the text names. -/
def missingDeviceNameDetail (envName : String) : String :=
  "The provider cannot create the versaDirector API client as there is a missing or empty value for the versaDirector API deviceName. " ++
    "Set the username value in the configuration or use the " ++ envName ++
    " environment variable. " ++
    "If either is already set, ensure the value is not empty."

/-- Lines 172-184 of `Read`: the device name and the diagnostics after its check. -/
def readDeviceName (env : HandlerEnv) (state : addressesResourceModel)
    (diags : List Diagnostic) : String × List Diagnostic :=
  let deviceName := state.DeviceName.ValueString
  if deviceName.length ≤ 0 then
    let deviceName := env.getenv "VERSA_VOS_DEVICE_NAME"
    if deviceName.length ≤ 0 then
      (deviceName, AddAttributeError diags "deviceName"
        "Missing deviceName for versaDirector API"
        (missingDeviceNameDetail "VERSA_VOS_DEVICE_NAME"))
    else (deviceName, diags)
  else (deviceName, diags)

/-- Lines 186-198 of `Read`: the organization name and the diagnostics after
its check, which tests the device name. -/
def readOrganizationName (env : HandlerEnv) (state : addressesResourceModel)
    (deviceName : String) (diags : List Diagnostic) : String × List Diagnostic :=
  let organizationName := state.OrganizationName.ValueString
  if organizationName.length ≤ 0 then
    let organizationName := env.getenv "VERSA_VOS_ORGANIZATION_NAME"
    if deviceName.length ≤ 0 then
      (organizationName, AddAttributeError diags "deviceName"
        "Missing deviceName for versaDirector API"
        (missingDeviceNameDetail "VERSA_VOS_ORGANIZATION_NAME"))
    else (organizationName, diags)
  else (organizationName, diags)

/-- The method `(r *addressResource) Read`; `getDiags` and `state` are what
`req.State.Get` yields. -/
def addressResource.Read (env : HandlerEnv) (net : vclient.Net) (client : vclient.Client)
    (getDiags : List Diagnostic) (state : addressesResourceModel)
    (hist : List vclient.Request) : HandlerResult :=
  let diags := Append [] getDiags
  if HasError diags then
    ⟨diags, none, hist⟩
  else
    let dev := readDeviceName env state diags
    let deviceName := dev.1
    let org := readOrganizationName env state deviceName dev.2
    let organizationName := org.1
    let diags := org.2
    let r := vclient.GetDeviceOrganizationAddresses env.parse net client
      deviceName organizationName hist
    let state : addressesResourceModel :=
      match r.1 with
      | Except.error _ => state
      | Except.ok addrData =>
        { state with
          DeviceName := types.StringValue deviceName
          OrganizationName := types.StringValue organizationName
          Address := readMerge state.Address addrData.Addresses }
    let state : addressesResourceModel :=
      { state with LastUpdated := types.StringValue env.now, ID := types.StringValue "1" }
    ⟨Append diags (env.stateSet state), some state, r.2⟩

/-- The method `(r *addressResource) Update`; `getDiags` and `plan` are what
`req.Plan.Get` yields. -/
def addressResource.Update (env : HandlerEnv) (net : vclient.Net) (client : vclient.Client)
    (getDiags : List Diagnostic) (plan : addressesResourceModel)
    (hist : List vclient.Request) : HandlerResult :=
  let diags := Append [] getDiags
  if HasError diags then
    ⟨diags, none, hist⟩
  else
    let addrListData := addrListDataOf plan
    let r := vclient.UpdateDevOrgServiceObjAddresses net client addrListData hist
    let plan : addressesResourceModel :=
      { plan with LastUpdated := types.StringValue env.now, ID := types.StringValue "1" }
    ⟨Append diags (env.stateSet plan), some plan, r.2⟩

/-- The method `(r *addressResource) Delete`; `getDiags` and `state` are what
`req.State.Get` yields. It never calls `resp.State.Set`. -/
def addressResource.Delete (net : vclient.Net) (client : vclient.Client)
    (getDiags : List Diagnostic) (state : addressesResourceModel)
    (hist : List vclient.Request) : HandlerResult :=
  let diags := Append [] getDiags
  if HasError diags then
    ⟨diags, none, hist⟩
  else
    let addrListData := addrListDataOf state
    let r := vclient.DeleteDevOrgServiceObjAddresses net client addrListData hist
    ⟨diags, none, r.2⟩

/-! ## Provider configuration (`provider.go`, lines 112-323) -/

/-- The provider model: the seven settings as the configuration holds them. -/
structure versaDirectorProviderModel where
  Username : basetypes.StringValue
  Password : basetypes.StringValue
  Host : basetypes.StringValue
  Port : basetypes.StringValue
  OauthGrantType : basetypes.StringValue
  OauthClientID : basetypes.StringValue
  OauthClientSecret : basetypes.StringValue
  deriving DecidableEq, Repr

/-- The method `IsUnknown` of the framework's string value. -/
def basetypes.StringValue.IsUnknown (s : basetypes.StringValue) : Bool :=
  decide (s.state = valueState.valueStateUnknown)

/-- The method `IsNull` of the framework's string value. -/
def basetypes.StringValue.IsNull (s : basetypes.StringValue) : Bool :=
  decide (s.state = valueState.valueStateNull)

/-- The attribute error of `Configure` for an unknown value of `username`. -/
def unknownUsername : Diagnostic :=
  ⟨Severity.SeverityError, some "username",
    "Unknown versaDirector API Username",
    "The provider cannot create the versaDirector API client as there is an unknown configuration value for the versaDirector API username. " ++
      "Either target apply the source of the value first, set the value statically in the configuration, or use the VERSA_DIRECTOR_USERNAME environment variable."⟩

/-- The attribute error of `Configure` for an unknown value of `password`. -/
def unknownPassword : Diagnostic :=
  ⟨Severity.SeverityError, some "password",
    "Unknown versaDirector API Password",
    "The provider cannot create the versaDirector API client as there is an unknown configuration value for the versaDirector API password. " ++
      "Either target apply the source of the value first, set the value statically in the configuration, or use the VERSA_DIRECTOR_PASSWORD environment variable."⟩

/-- The attribute error of `Configure` for an unknown value of `host`. -/
def unknownHost : Diagnostic :=
  ⟨Severity.SeverityError, some "host",
    "Unknown versaDirector API Host",
    "The provider cannot create the versaDirector API client as there is an unknown configuration value for the versaDirector API host. " ++
      "Either target apply the source of the value first, set the value statically in the configuration, or use the VERSA_DIRECTOR_HOST environment variable."⟩

/-- The attribute error of `Configure` for an unknown value of `port`. -/
def unknownPort : Diagnostic :=
  ⟨Severity.SeverityError, some "port",
    "Unknown versaDirector API Port",
    "The provider cannot create the versaDirector API client as there is an unknown configuration value for the versaDirector API port. " ++
      "Either target apply the source of the value first, set the value statically in the configuration, or use the VERSA_DIRECTOR_PORT environment variable."⟩

/-- The attribute error of `Configure` for an unknown value of `oauth_client_id`. -/
def unknownOauthClientID : Diagnostic :=
  ⟨Severity.SeverityError, some "oauth_client_id",
    "Unknown versaDirector API OauthClientID",
    "The provider cannot create the versaDirector API client as there is an unknown configuration value for the versaDirector API oauth_client_id. " ++
      "Either target apply the source of the value first, set the value statically in the configuration, or use the VERSA_DIRECTOR_OAUTH_CLIENT_ID environment variable."⟩

/-- The attribute error of `Configure` for an unknown value of `oauth_client_secret`. -/
def unknownOauthClientSecret : Diagnostic :=
  ⟨Severity.SeverityError, some "oauth_client_secret",
    "Unknown versaDirector API OauthClientID",
    "The provider cannot create the versaDirector API client as there is an unknown configuration value for the versaDirector API oauth_client_secret. " ++
      "Either target apply the source of the value first, set the value statically in the configuration, or use the VERSA_DIRECTOR_CLIENT_OAUTH_SECRET environment variable."⟩

/-- The attribute error of `Configure` for an unknown value of `oauth_grant_type`. -/
def unknownOauthGrantType : Diagnostic :=
  ⟨Severity.SeverityError, some "oauth_grant_type",
    "Unknown versaDirector API OauthGrantType",
    "The provider cannot create the versaDirector API client as there is an unknown configuration value for the versaDirector API oauth_grant_type. " ++
      "Either target apply the source of the value first, set the value statically in the configuration, or use the VERSA_DIRECTOR_OAUTH_GRANT_TYPE environment variable."⟩

/-- The attribute error of `Configure` for an empty value of `host`. -/
def missingHost : Diagnostic :=
  ⟨Severity.SeverityError, some "host",
    "Missing HashiCups API Host",
    "The provider cannot create the versaDirector API client as there is a missing or empty value for the versaDirector API host. " ++
      "Set the host value in the configuration or use the VERSA_DIRECTOR_HOST environment variable. " ++
      "If either is already set, ensure the value is not empty."⟩

/-- The attribute error of `Configure` for an empty value of `username`. -/
def missingUsername : Diagnostic :=
  ⟨Severity.SeverityError, some "username",
    "Missing versaDirector API Username",
    "The provider cannot create the versaDirector API client as there is a missing or empty value for the versaDirector API username. " ++
      "Set the username value in the configuration or use the VERSA_DIRECTOR_USERNAME environment variable. " ++
      "If either is already set, ensure the value is not empty."⟩

/-- The attribute error of `Configure` for an empty value of `password`. -/
def missingPassword : Diagnostic :=
  ⟨Severity.SeverityError, some "password",
    "Missing versaDirector API Password",
    "The provider cannot create the versaDirector API client as there is a missing or empty value for the versaDirector API password. " ++
      "Set the password value in the configuration or use the VERSA_DIRECTOR_PASSWORD environment variable. " ++
      "If either is already set, ensure the value is not empty."⟩

/-- The attribute error of `Configure` for an empty value of `port`. -/
def missingPort : Diagnostic :=
  ⟨Severity.SeverityError, some "port",
    "Missing versaDirector API Port",
    "The provider cannot create the versaDirector API client as there is a missing or empty value for the versaDirector API port. " ++
      "Set the port value in the configuration or use the VERSA_DIRECTOR_PORT environment variable. " ++
      "If either is already set, ensure the value is not empty."⟩

/-- The attribute error of `Configure` for an empty value of `oauth_grant_type`. -/
def missingOauthGrantType : Diagnostic :=
  ⟨Severity.SeverityError, some "oauth_grant_type",
    "Missing versaDirector API OauthGrantType",
    "The provider cannot create the versaDirector API client as there is a missing or empty value for the versaDirector API oauthGrantType. " ++
      "Set the oauth_grant_type value in the configuration or use the VERSA_DIRECTOR_OAUTH_GRANT_TYPE environment variable. " ++
      "If either is already set, ensure the value is not empty."⟩

/-- The attribute error of `Configure` for an empty value of `oauth_client_id`. -/
def missingOauthClientId : Diagnostic :=
  ⟨Severity.SeverityError, some "oauth_client_id",
    "Missing versaDirector API OauthClientId",
    "The provider cannot create the versaDirector API client as there is a missing or empty value for the versaDirector API oauthClientId. " ++
      "Set the oauth_client_id value in the configuration or use the VERSA_DIRECTOR_OAUTH_CLIENT_ID environment variable. " ++
      "If either is already set, ensure the value is not empty."⟩

/-- The attribute error of `Configure` for an empty value of `oauth_client_secret`. -/
def missingOauthClientSecret : Diagnostic :=
  ⟨Severity.SeverityError, some "oauth_client_secret",
    "Missing versaDirector API OauthClientSecret",
    "The provider cannot create the versaDirector API client as there is a missing or empty value for the versaDirector API oauthClientSecret. " ++
      "Set the oauth_client_secret value in the configuration or use the VERSA_DIRECTOR_OAUTH_CLIENT_SECRET environment variable. " ++
      "If either is already set, ensure the value is not empty."⟩

/-- What `Configure` leaves behind: the diagnostics of the response, the
result of the call of `vclient.NewClient` (`none` when it is not called), and
the client stored as `resp.DataSourceData` and `resp.ResourceData`. -/
structure ConfigureResult where
  Diagnostics : List Diagnostic
  newClient : Option (vclient.NewClientOutcome × List vclient.Request ×
    List (String × List UInt8))
  ProviderData : Option vclient.Client

/-- The method `(p *versaDirectorProvider) Configure`; `getDiags` and `config`
are what `req.Config.Get` yields. Each `AddAttributeError` call is the `Append`
of its attribute error. `NewClient` never returns a non-nil error, so the
branch for it is not taken. -/
def versaDirectorProvider.Configure (getenv : String → String) (tokenEnv : vclient.TokenEnv)
    (net : vclient.Net) (getDiags : List Diagnostic) (config : versaDirectorProviderModel)
    (hist : List vclient.Request) (written : List (String × List UInt8)) : ConfigureResult :=
  let diags := Append [] getDiags
  if HasError diags then
    ⟨diags, none, none⟩
  else
    let diags := if config.Username.IsUnknown then Append diags [unknownUsername] else diags
    let diags := if config.Password.IsUnknown then Append diags [unknownPassword] else diags
    let diags := if config.Host.IsUnknown then Append diags [unknownHost] else diags
    let diags := if config.Port.IsUnknown then Append diags [unknownPort] else diags
    let diags :=
      if config.OauthClientID.IsUnknown then Append diags [unknownOauthClientID] else diags
    let diags :=
      if config.OauthClientSecret.IsUnknown then Append diags [unknownOauthClientSecret]
      else diags
    let diags :=
      if config.OauthGrantType.IsUnknown then Append diags [unknownOauthGrantType] else diags
    if HasError diags then
      ⟨diags, none, none⟩
    else
      let username := getenv "VERSA_DIRECTOR_USERNAME"
      let password := getenv "VERSA_DIRECTOR_PASSWORD"
      let host := getenv "VERSA_DIRECTOR_HOST"
      let port := getenv "VERSA_DIRECTOR_PORT"
      let oauthGrantType := getenv "VERSA_DIRECTOR_OAUTH_GRANT_TYPE"
      let oauthClientId := getenv "VERSA_DIRECTOR_OAUTH_CLIENT_ID"
      let oauthClientSecret := getenv "VERSA_DIRECTOR_OAUTH_CLIENT_SECRET"
      let username := if !config.Username.IsNull then config.Username.ValueString else username
      let password := if !config.Password.IsNull then config.Password.ValueString else password
      let host := if !config.Host.IsNull then config.Host.ValueString else host
      let port := if !config.Port.IsNull then config.Port.ValueString else port
      let oauthGrantType :=
        if !config.OauthGrantType.IsNull then config.OauthGrantType.ValueString
        else oauthGrantType
      let oauthClientId :=
        if !config.OauthClientID.IsNull then config.OauthClientID.ValueString
        else oauthClientId
      let oauthClientSecret :=
        if !config.OauthClientSecret.IsNull then config.OauthClientSecret.ValueString
        else oauthClientSecret
      let diags := if host = "" then Append diags [missingHost] else diags
      let diags := if username = "" then Append diags [missingUsername] else diags
      let diags := if password = "" then Append diags [missingPassword] else diags
      let diags := if port = "" then Append diags [missingPort] else diags
      let diags := if oauthGrantType = "" then Append diags [missingOauthGrantType] else diags
      let diags := if oauthClientId = "" then Append diags [missingOauthClientId] else diags
      let diags :=
        if oauthClientSecret = "" then Append diags [missingOauthClientSecret] else diags
      if HasError diags then
        ⟨diags, none, none⟩
      else
        let r := vclient.NewClient tokenEnv net (some host) (some username) (some password)
          (some port) (some oauthClientId) (some oauthClientSecret) (some oauthGrantType)
          hist written
        match r.1 with
        | vclient.NewClientOutcome.returned client => ⟨diags, some r, some client⟩
        | _ => ⟨diags, some r, none⟩

/-! ## The addresses data source (`proDataAddresses.go`, lines 101-182) -/

/-- The data source model; its items are `addressDataModel`. -/
structure addressesDataModel where
  ID : basetypes.StringValue
  DeviceName : basetypes.StringValue
  OrganizationName : basetypes.StringValue
  LastUpdated : basetypes.StringValue
  Address : List addressDataModel
  deriving DecidableEq, Repr

/-- What the data source takes from outside the repository: the environment
variables, the text of the current time, the reading of bytes as JSON, and the
diagnostics of `resp.State.Set`. -/
structure DataSourceEnv where
  getenv : String → String
  now : String
  parse : List UInt8 → Except String vclient.Json
  stateSet : addressesDataModel → List Diagnostic

/-- What the data source `Read` leaves behind. -/
structure DataSourceResult where
  Diagnostics : List Diagnostic
  State : Option addressesDataModel
  sent : List vclient.Request
  deriving Repr

/-- Lines 112-124 of the data source `Read`: the device name and the
diagnostics after its check. -/
def dataDeviceName (env : DataSourceEnv) (config : addressesDataModel)
    (diags : List Diagnostic) : String × List Diagnostic :=
  let deviceName := config.DeviceName.ValueString
  if deviceName.length ≤ 0 then
    let deviceName := env.getenv "VERSA_VOS_DEVICE_NAME"
    if deviceName.length ≤ 0 then
      (deviceName, AddAttributeError diags "deviceName"
        "Missing deviceName for versaDirector API"
        (missingDeviceNameDetail "VERSA_VOS_DEVICE_NAME"))
    else (deviceName, diags)
  else (deviceName, diags)

/-- Lines 126-138 of the data source `Read`: the organization name and the
diagnostics after its check, which tests the device name. -/
def dataOrganizationName (env : DataSourceEnv) (config : addressesDataModel)
    (deviceName : String) (diags : List Diagnostic) : String × List Diagnostic :=
  let organizationName := config.OrganizationName.ValueString
  if organizationName.length ≤ 0 then
    let organizationName := env.getenv "VERSA_VOS_ORGANIZATION_NAME"
    if deviceName.length ≤ 0 then
      (organizationName, AddAttributeError diags "deviceName"
        "Missing deviceName for versaDirector API"
        (missingDeviceNameDetail "VERSA_VOS_ORGANIZATION_NAME"))
    else (organizationName, diags)
  else (organizationName, diags)

/-- The method `(d *addressesDataSource) Read`; `getDiags` and `config` are
what `req.Config.Get` yields. -/
def addressesDataSource.Read (env : DataSourceEnv) (net : vclient.Net)
    (client : vclient.Client) (getDiags : List Diagnostic) (config : addressesDataModel)
    (hist : List vclient.Request) : DataSourceResult :=
  let diags := Append [] getDiags
  if HasError diags then
    ⟨diags, none, hist⟩
  else
    let dev := dataDeviceName env config diags
    let deviceName := dev.1
    let org := dataOrganizationName env config deviceName dev.2
    let organizationName := org.1
    let diags := org.2
    let r := vclient.GetDeviceOrganizationAddresses env.parse net client
      deviceName organizationName hist
    let config : addressesDataModel :=
      match r.1 with
      | Except.error _ => config
      | Except.ok addrData =>
        let config : addressesDataModel :=
          if deviceName.length > 0 then
            { config with DeviceName := types.StringValue deviceName }
          else config
        let config : addressesDataModel :=
          if organizationName.length > 0 then
            { config with OrganizationName := types.StringValue organizationName }
          else config
        let address := addrData.Addresses.foldl
          (fun address val => address ++ [configAddrDataOf val]) config.Address
        { config with Address := address }
    let config : addressesDataModel :=
      { config with LastUpdated := types.StringValue env.now, ID := types.StringValue "1" }
    ⟨Append diags (env.stateSet config), some config, r.2⟩

/-! ## The appliances data source (`proDataAppliances.go`, lines 100-143) -/

/-- One appliance of the data source state. -/
structure applianceData where
  Uuid : basetypes.StringValue
  Name : basetypes.StringValue
  ServicesStatus : basetypes.StringValue
  OverallStatus : basetypes.StringValue
  deriving DecidableEq, Repr

/-- The data source state of the appliances. -/
structure appliancesDataSourceList where
  ApplianceName : basetypes.StringValue
  OrganizatioName : basetypes.StringValue
  Appliances : List applianceData
  deriving DecidableEq, Repr

/-- How the appliances `Read` ends: it returns, with the diagnostics and the
value handed to `resp.State.Set` (`none` when it is not called), or it stops
in the run-time panic of an index out of range. -/
inductive AppliancesOutcome where
  | returned (diags : List Diagnostic) (state : Option appliancesDataSourceList)
  | indexOutOfRange (index : Nat) (length : Nat)
  deriving DecidableEq, Repr

/-- Lines 113-121 of the appliances `Read`: the loop `for i := 0; i <
TotalCount; i++`, with `remaining` the number of iterations still to run, `i`
the index and `acc` the list built so far. The indexing `Appliances[i]` panics
when `i` is not below the length of the page. -/
def appliancesLoop (appliances : vclient.VmsDirectorAppliances) :
    Nat → Nat → List applianceData → Except (Nat × Nat) (List applianceData)
  | 0, _, acc => Except.ok acc
  | remaining + 1, i, acc =>
    match appliances.Appliances[i]? with
    | none => Except.error (i, appliances.Appliances.length)
    | some a =>
      let curAppliance : applianceData :=
        { Uuid := types.StringValue a.UUID
          Name := types.StringValue a.Name
          ServicesStatus := types.StringValue a.ServicesStatus
          OverallStatus := types.StringValue a.OverallStatus }
      appliancesLoop appliances remaining (i + 1) (acc ++ [curAppliance])

/-- The method `(d *appliancesDataSource) Read`; `stateSet` gives the
diagnostics of `resp.State.Set`. Returns how the call ends and the requests
handed to the network. -/
def appliancesDataSource.Read
    (unmarshal : List UInt8 → Except String vclient.VmsDirectorAppliances)
    (stateSet : appliancesDataSourceList → List Diagnostic)
    (net : vclient.Net) (client : vclient.Client) (hist : List vclient.Request) :
    AppliancesOutcome × List vclient.Request :=
  let r := vclient.GetAllAppliances unmarshal net client hist
  match r.1 with
  | Except.error err =>
    (AppliancesOutcome.returned
      (Append [] [⟨Severity.SeverityError, none, "Error Reading FlexVNF Appliances,", err⟩])
      none, r.2)
  | Except.ok appliances =>
    match appliancesLoop appliances appliances.TotalCount.toNat 0 [] with
    | Except.error (i, n) => (AppliancesOutcome.indexOutOfRange i n, r.2)
    | Except.ok list =>
      let state : appliancesDataSourceList :=
        { ApplianceName := types.StringNull
          OrganizatioName := types.StringNull
          Appliances := list }
      (AppliancesOutcome.returned (Append [] (stateSet state)) (some state), r.2)

/-- The state entry of one appliance as the specification words it: the
projection to uuid, name, services status and overall status. -/
def applianceProjection (a : vclient.VmsDirectorAppliance) : applianceData :=
  ⟨types.StringValue a.UUID, types.StringValue a.Name,
    types.StringValue a.ServicesStatus, types.StringValue a.OverallStatus⟩

/-- A setting as the specification words it: the configuration value when it
is set (not null), otherwise the environment variable `envName`. -/
def resolved (getenv : String → String) (cfg : basetypes.StringValue) (envName : String) :
    String :=
  if cfg.state = valueState.valueStateNull then getenv envName else cfg.value

/-- The seven resolved settings. -/
structure ResolvedSettings where
  host : String
  username : String
  password : String
  port : String
  oauthGrantType : String
  oauthClientId : String
  oauthClientSecret : String
  deriving DecidableEq, Repr

/-- The seven settings of a configuration, each resolved against its
`VERSA_DIRECTOR_` environment variable. -/
def resolvedSettings (getenv : String → String) (config : versaDirectorProviderModel) :
    ResolvedSettings :=
  { host := resolved getenv config.Host "VERSA_DIRECTOR_HOST"
    username := resolved getenv config.Username "VERSA_DIRECTOR_USERNAME"
    password := resolved getenv config.Password "VERSA_DIRECTOR_PASSWORD"
    port := resolved getenv config.Port "VERSA_DIRECTOR_PORT"
    oauthGrantType := resolved getenv config.OauthGrantType "VERSA_DIRECTOR_OAUTH_GRANT_TYPE"
    oauthClientId := resolved getenv config.OauthClientID "VERSA_DIRECTOR_OAUTH_CLIENT_ID"
    oauthClientSecret :=
      resolved getenv config.OauthClientSecret "VERSA_DIRECTOR_OAUTH_CLIENT_SECRET" }

/-- Each resolved setting with the attribute error reported when it is empty,
in the order of the checks. -/
def missingChecks (r : ResolvedSettings) : List (String × Diagnostic) :=
  [(r.host, missingHost), (r.username, missingUsername), (r.password, missingPassword),
   (r.port, missingPort), (r.oauthGrantType, missingOauthGrantType),
   (r.oauthClientId, missingOauthClientId), (r.oauthClientSecret, missingOauthClientSecret)]

end provider


/-! # Theorems -/

namespace vclient

/-- C1: when the cache file decodes to a token, `vOauthReadToken` returns no
error if and only if the token's `expires_in` is the string "-1"; in that case
the client's token becomes the cached token, and for any other `expires_in` the
call returns the expiry error and leaves the client as it was, whatever the
other token fields are. -/
theorem vOauthReadToken_accepts_iff_sentinel (env : TokenEnv) (fileName : String)
    (client : Client) (fileData : List UInt8) (tokenData : vOauthServerToken)
    (hname : fileName.length > 0)
    (hfile : env.readFile fileName = FileOutcome.data fileData)
    (hjson : env.unmarshalToken fileData = Except.ok tokenData) :
    ((vOauthReadToken env fileName client).1 = none ↔ tokenData.ExpiresIn = "-1") ∧
    (tokenData.ExpiresIn = "-1" →
      vOauthReadToken env fileName client = (none, { client with Token := tokenData })) ∧
    (tokenData.ExpiresIn ≠ "-1" →
      vOauthReadToken env fileName client = (some "Token expired, Get new one", client)) := by
  have hload : loadTokenData env fileName = Except.ok tokenData := by
    simp [loadTokenData, hname, hfile, hjson]
  by_cases hexp : tokenData.ExpiresIn = "-1"
  · simp [vOauthReadToken, hload, hexp]
  · simp [vOauthReadToken, hload, hexp]

/-- C1 at a concrete cache: a file holding a token with `expires_in` "-1" and an
`issued_at` of long ago is accepted and installed. -/
theorem vOauthReadToken_accepts_iff_sentinel_witness :
    vOauthReadToken
      ⟨fun _ => FileOutcome.data [], fun _ => Except.ok
        { vOauthServerToken.zero with AccessToken := "tok", IssuedAt := "1999", ExpiresIn := "-1" }⟩
      vOauthTokenFile Client.zero
    = (none, { Client.zero with Token :=
        { vOauthServerToken.zero with AccessToken := "tok", IssuedAt := "1999", ExpiresIn := "-1" } }) :=
  (vOauthReadToken_accepts_iff_sentinel
    ⟨fun _ => FileOutcome.data [], fun _ => Except.ok
      { vOauthServerToken.zero with AccessToken := "tok", IssuedAt := "1999", ExpiresIn := "-1" }⟩
    vOauthTokenFile Client.zero []
    { vOauthServerToken.zero with AccessToken := "tok", IssuedAt := "1999", ExpiresIn := "-1" }
    (by decide) rfl rfl).2.1 rfl

end vclient

namespace provider

open vclient

/-! ## The inner loop of the read-merge -/

theorem overwriteFirst_found_iff (c : addressDataModel) (s : List addressItemModel) :
    (overwriteFirst c s).1 = true ↔ ∃ e ∈ s, e.Name = c.Name := by
  induction s with
  | nil => simp [overwriteFirst]
  | cons a s ih =>
    by_cases h : a.Name = c.Name
    · simp [overwriteFirst, h]
    · simp [overwriteFirst, h, ih]

theorem overwriteFirst_names (c : addressDataModel) (s : List addressItemModel) :
    ((overwriteFirst c s).2).map (fun e => e.Name) = s.map (fun e => e.Name) := by
  induction s with
  | nil => simp [overwriteFirst]
  | cons a s ih =>
    by_cases h : a.Name = c.Name
    · simp [overwriteFirst, h, addressItemModel.ofData]
    · simp [overwriteFirst, h, ih]

theorem overwriteFirst_length (c : addressDataModel) (s : List addressItemModel) :
    ((overwriteFirst c s).2).length = s.length := by
  have h := congrArg List.length (overwriteFirst_names c s)
  simpa using h

theorem overwriteFirst_not_found (c : addressDataModel) (s : List addressItemModel)
    (h : (overwriteFirst c s).1 = false) : (overwriteFirst c s).2 = s := by
  induction s with
  | nil => simp [overwriteFirst]
  | cons a s ih =>
    by_cases hn : a.Name = c.Name
    · simp [overwriteFirst, hn] at h
    · simp [overwriteFirst, hn] at h ⊢
      exact ih h

theorem overwriteFirst_found_after (c d : addressDataModel) (s : List addressItemModel) :
    (overwriteFirst d (overwriteFirst c s).2).1 = (overwriteFirst d s).1 := by
  have hn := overwriteFirst_names c s
  have a1 : (∃ e ∈ (overwriteFirst c s).2, e.Name = d.Name) ↔
      d.Name ∈ ((overwriteFirst c s).2).map (fun e => e.Name) := by
    simp [List.mem_map]
  have a2 : (∃ e ∈ s, e.Name = d.Name) ↔ d.Name ∈ s.map (fun e => e.Name) := by
    simp [List.mem_map]
  have key : (overwriteFirst d (overwriteFirst c s).2).1 = true ↔ (overwriteFirst d s).1 = true := by
    rw [overwriteFirst_found_iff, overwriteFirst_found_iff, a1, a2, hn]
  exact Bool.eq_iff_iff.mpr key

theorem overwriteFirst_same_name (c d : addressDataModel) (s : List addressItemModel)
    (h : d.Name = c.Name) :
    (overwriteFirst d (overwriteFirst c s).2).2 = (overwriteFirst d s).2 := by
  induction s with
  | nil => simp [overwriteFirst]
  | cons a s ih =>
    by_cases hn : a.Name = c.Name
    · simp [overwriteFirst, hn, h, addressItemModel.ofData]
    · simp [overwriteFirst, hn, h, ih]

theorem overwriteFirst_comm (c d : addressDataModel) (s : List addressItemModel)
    (h : c.Name ≠ d.Name) :
    (overwriteFirst c (overwriteFirst d s).2).2 = (overwriteFirst d (overwriteFirst c s).2).2 := by
  induction s with
  | nil => simp [overwriteFirst]
  | cons a s ih =>
    by_cases hc : a.Name = c.Name
    · have hd : ¬ a.Name = d.Name := fun hd => h (hc.symm.trans hd)
      simp [overwriteFirst, hc, hd, addressItemModel.ofData, h]
    · by_cases hd : a.Name = d.Name
      · simp [overwriteFirst, hc, hd, addressItemModel.ofData, Ne.symm h]
      · simp [overwriteFirst, hc, hd, ih]

theorem overwriteFirst_append (c : addressDataModel) (s t : List addressItemModel) :
    overwriteFirst c (s ++ t) =
      if (overwriteFirst c s).1 = true then (true, (overwriteFirst c s).2 ++ t)
      else ((overwriteFirst c t).1, s ++ (overwriteFirst c t).2) := by
  induction s with
  | nil => simp [overwriteFirst]
  | cons a s ih =>
    by_cases hn : a.Name = c.Name
    · simp [overwriteFirst, hn]
    · by_cases hf : (overwriteFirst c s).1 = true
      · simp [overwriteFirst, hn, ih, hf]
      · simp [overwriteFirst, hn, ih, hf]

/-! ## One step and the whole loop -/

theorem readMergeStep_eq (s : List addressItemModel) (o : DevObjectAddress) :
    readMergeStep s o =
      if (overwriteFirst (configAddrDataOf o) s).1 = true then
        (overwriteFirst (configAddrDataOf o) s).2
      else s ++ [remoteItem o] := by
  simp only [readMergeStep]
  by_cases h : (overwriteFirst (configAddrDataOf o) s).1 = true
  · simp [h]
  · have h2 : (overwriteFirst (configAddrDataOf o) s).1 = false := by simpa using h
    have h3 := overwriteFirst_not_found _ _ h2
    rw [h3, h2]
    simp only [Bool.false_eq_true, if_false, if_true]
    rfl

theorem readMerge_nil (s : List addressItemModel) : readMerge s [] = s := rfl

theorem readMerge_cons (s : List addressItemModel) (o : DevObjectAddress)
    (r : List DevObjectAddress) :
    readMerge s (o :: r) = readMerge (readMergeStep s o) r := rfl

theorem remoteItem_name (o : DevObjectAddress) :
    (remoteItem o).Name = (configAddrDataOf o).Name := rfl

/-- Overwriting an entry that is present commutes with one step of the merge
for a remote object of another name. -/
theorem readMergeStep_overwrite_other (c : addressDataModel) (s : List addressItemModel)
    (o : DevObjectAddress) (hc : (overwriteFirst c s).1 = true)
    (hne : (configAddrDataOf o).Name ≠ c.Name) :
    readMergeStep (overwriteFirst c s).2 o = (overwriteFirst c (readMergeStep s o)).2 ∧
    (overwriteFirst c (readMergeStep s o)).1 = true := by
  rw [readMergeStep_eq, readMergeStep_eq, overwriteFirst_found_after]
  by_cases hf : (overwriteFirst (configAddrDataOf o) s).1 = true
  · simp only [hf, if_true]
    refine ⟨overwriteFirst_comm _ _ _ hne, ?_⟩
    rw [overwriteFirst_found_after]; exact hc
  · simp only [hf, Bool.false_eq_true, if_false]
    rw [overwriteFirst_append]
    simp [hc]

/-- Overwriting an entry that is present is absorbed by one step of the merge
for a remote object of the same name. -/
theorem readMergeStep_overwrite_same (c : addressDataModel) (s : List addressItemModel)
    (o : DevObjectAddress) (hc : (overwriteFirst c s).1 = true)
    (heq : (configAddrDataOf o).Name = c.Name) :
    readMergeStep (overwriteFirst c s).2 o = readMergeStep s o := by
  have hf : (overwriteFirst (configAddrDataOf o) s).1 = true := by
    rw [overwriteFirst_found_iff] at hc ⊢
    obtain ⟨e, he, hn⟩ := hc
    exact ⟨e, he, hn.trans heq.symm⟩
  rw [readMergeStep_eq, readMergeStep_eq, overwriteFirst_found_after]
  simp only [hf, if_true]
  exact overwriteFirst_same_name c _ s heq

theorem readMerge_overwrite (r : List DevObjectAddress) :
    ∀ (c : addressDataModel) (s : List addressItemModel),
      (overwriteFirst c s).1 = true →
      ((∃ o ∈ r, (configAddrDataOf o).Name = c.Name) →
        readMerge (overwriteFirst c s).2 r = readMerge s r) ∧
      ((∀ o ∈ r, (configAddrDataOf o).Name ≠ c.Name) →
        readMerge (overwriteFirst c s).2 r = (overwriteFirst c (readMerge s r)).2) := by
  induction r with
  | nil => intro c s _; simp [readMerge_nil]
  | cons o r ih =>
    intro c s hc
    by_cases hn : (configAddrDataOf o).Name = c.Name
    · constructor
      · intro _
        rw [readMerge_cons, readMerge_cons, readMergeStep_overwrite_same c s o hc hn]
      · intro hall
        exact absurd hn (hall o (List.mem_cons_self _ _))
    · obtain ⟨hstep, hfound⟩ := readMergeStep_overwrite_other c s o hc hn
      have ih2 := ih c (readMergeStep s o) hfound
      constructor
      · intro hex
        obtain ⟨o2, ho2, hname⟩ := hex
        have ho2r : o2 ∈ r := by
          rcases List.mem_cons.mp ho2 with h | h
          · exact absurd (h ▸ hname) hn
          · exact h
        rw [readMerge_cons, readMerge_cons, hstep]
        exact ih2.1 ⟨o2, ho2r, hname⟩
      · intro hall
        rw [readMerge_cons, readMerge_cons, hstep]
        exact ih2.2 (fun o2 ho2 => hall o2 (List.mem_cons_of_mem _ ho2))

theorem readMerge_found (r : List DevObjectAddress) :
    ∀ (c : addressDataModel) (s : List addressItemModel),
      (overwriteFirst c s).1 = true → (overwriteFirst c (readMerge s r)).1 = true := by
  induction r with
  | nil => intro c s h; exact h
  | cons o r ih =>
    intro c s h
    rw [readMerge_cons]
    apply ih
    rw [readMergeStep_eq]
    by_cases hf : (overwriteFirst (configAddrDataOf o) s).1 = true
    · simp only [hf, if_true]; rw [overwriteFirst_found_after]; exact h
    · simp only [hf, Bool.false_eq_true, if_false]; rw [overwriteFirst_append]; simp [h]

/-- After its own step, a remote object is found, and overwriting with it
again changes nothing. -/
theorem readMergeStep_self (s : List addressItemModel) (o : DevObjectAddress) :
    (overwriteFirst (configAddrDataOf o) (readMergeStep s o)).1 = true ∧
    (overwriteFirst (configAddrDataOf o) (readMergeStep s o)).2 = readMergeStep s o := by
  rw [readMergeStep_eq]
  by_cases hf : (overwriteFirst (configAddrDataOf o) s).1 = true
  · simp only [hf, if_true]
    refine ⟨?_, overwriteFirst_same_name _ _ s rfl⟩
    rw [overwriteFirst_found_after]; exact hf
  · simp only [hf, Bool.false_eq_true, if_false]
    rw [overwriteFirst_append]
    simp only [hf, Bool.false_eq_true, if_false]
    have hn : (remoteItem o).Name = (configAddrDataOf o).Name := rfl
    simp only [overwriteFirst, hn, if_true]
    exact ⟨trivial, rfl⟩

theorem readMerge_idem_aux (r : List DevObjectAddress) :
    ∀ d : List addressItemModel, readMerge (readMerge d r) r = readMerge d r := by
  induction r with
  | nil => intro d; rfl
  | cons o r ih =>
    intro d
    obtain ⟨hself1, hself2⟩ := readMergeStep_self d o
    have hfound := readMerge_found r _ _ hself1
    have hov := readMerge_overwrite r _ _ hself1
    have hm : readMerge d (o :: r) = readMerge (readMergeStep d o) r := rfl
    rw [hm, readMerge_cons, readMergeStep_eq]
    simp only [hfound, if_true]
    have hov2 := readMerge_overwrite r _ _ hfound
    by_cases hex : ∃ o2 ∈ r, (configAddrDataOf o2).Name = (configAddrDataOf o).Name
    · rw [hov2.1 hex]; exact ih _
    · have hall : ∀ o2 ∈ r, (configAddrDataOf o2).Name ≠ (configAddrDataOf o).Name := by
        intro o2 ho2 hname; exact hex ⟨o2, ho2, hname⟩
      rw [hov2.2 hall, ih]
      have h3 := hov.2 hall
      rw [hself2] at h3
      exact h3.symm

/-- C2: the read-merge is idempotent: merging the same remote list a second
time into the result of the first merge changes nothing, for every desired
list and every remote list. -/
theorem readMerge_idempotent (d : List addressItemModel) (r : List DevObjectAddress) :
    readMerge (readMerge d r) r = readMerge d r :=
  readMerge_idem_aux r d

/-! ## Desired entries keep their place -/

theorem overwriteFirst_getElem (c : addressDataModel) (s : List addressItemModel) :
    ∀ (i : Nat) (e : addressItemModel), s[i]? = some e →
      ∃ e2, ((overwriteFirst c s).2)[i]? = some e2 ∧ e2.Name = e.Name ∧
        (c.Name ≠ e.Name → e2 = e) := by
  induction s with
  | nil => intro i e h; simp at h
  | cons a s ih =>
    intro i e h
    by_cases hn : a.Name = c.Name
    · cases i with
      | zero =>
        simp at h
        subst h
        refine ⟨addressItemModel.ofData c, by simp [overwriteFirst, hn], ?_, ?_⟩
        · simp [addressItemModel.ofData, hn]
        · intro hne; exact absurd hn.symm hne
      | succ j =>
        simp at h
        exact ⟨e, by simp [overwriteFirst, hn, h], rfl, fun _ => rfl⟩
    · cases i with
      | zero =>
        simp at h
        subst h
        exact ⟨a, by simp [overwriteFirst, hn], rfl, fun _ => rfl⟩
      | succ j =>
        simp at h
        obtain ⟨e2, h1, h2, h3⟩ := ih j e h
        exact ⟨e2, by simp [overwriteFirst, hn, h1], h2, h3⟩

theorem readMergeStep_getElem (s : List addressItemModel) (o : DevObjectAddress)
    (i : Nat) (e : addressItemModel) (h : s[i]? = some e) :
    ∃ e2, (readMergeStep s o)[i]? = some e2 ∧ e2.Name = e.Name ∧
      (types.StringValue o.Name ≠ e.Name → e2 = e) := by
  rw [readMergeStep_eq]
  by_cases hf : (overwriteFirst (configAddrDataOf o) s).1 = true
  · simp only [hf, if_true]
    exact overwriteFirst_getElem (configAddrDataOf o) s i e h
  · simp only [hf, Bool.false_eq_true, if_false]
    have hi : i < s.length := by
      by_contra hlt
      have : s[i]? = none := List.getElem?_eq_none (by omega)
      rw [this] at h; exact Option.noConfusion h
    refine ⟨e, ?_, rfl, fun _ => rfl⟩
    rw [List.getElem?_append_left hi]; exact h

theorem readMerge_getElem (r : List DevObjectAddress) :
    ∀ (s : List addressItemModel) (i : Nat) (e : addressItemModel), s[i]? = some e →
      ∃ e2, (readMerge s r)[i]? = some e2 ∧ e2.Name = e.Name ∧
        ((∀ o ∈ r, types.StringValue o.Name ≠ e.Name) → e2 = e) := by
  induction r with
  | nil => intro s i e h; exact ⟨e, h, rfl, fun _ => rfl⟩
  | cons o r ih =>
    intro s i e h
    obtain ⟨e1, h1, hn1, hk1⟩ := readMergeStep_getElem s o i e h
    obtain ⟨e2, h2, hn2, hk2⟩ := ih (readMergeStep s o) i e1 h1
    refine ⟨e2, ?_, hn2.trans hn1, ?_⟩
    · rw [readMerge_cons]; exact h2
    · intro hall
      have he1 : e1 = e := hk1 (hall o (List.mem_cons_self _ _))
      subst he1
      exact hk2 (fun o2 ho2 => hall o2 (List.mem_cons_of_mem _ ho2))

/-- C4: the read-merge never deletes or moves a desired entry: at every index
of the desired list the result has an entry of the same name, and when no
remote object has that name the entry is the desired one, unchanged in every
field. -/
theorem readMerge_keeps_desired (d : List addressItemModel) (r : List DevObjectAddress)
    (i : Nat) (h : i < d.length) :
    ∃ e, (readMerge d r)[i]? = some e ∧ e.Name = d[i].Name ∧
      ((∀ o ∈ r, types.StringValue o.Name ≠ d[i].Name) → e = d[i]) :=
  readMerge_getElem r d i d[i] (List.getElem?_eq_getElem h)

/-- C4 at a concrete state: the second desired entry, which no remote object
names, is still the second entry after the merge. -/
theorem readMerge_keeps_desired_witness :
    ∃ e, (readMerge [⟨types.StringValue "a", types.StringNull⟩,
                     ⟨types.StringValue "c", types.StringValue "z"⟩]
            [⟨"a", "x"⟩, ⟨"b", "y"⟩])[1]? = some e ∧
      e.Name = types.StringValue "c" ∧
      ((∀ o ∈ [(⟨"a", "x"⟩ : DevObjectAddress), ⟨"b", "y"⟩],
          types.StringValue o.Name ≠ types.StringValue "c") →
        e = ⟨types.StringValue "c", types.StringValue "z"⟩) :=
  readMerge_keeps_desired
    [⟨types.StringValue "a", types.StringNull⟩, ⟨types.StringValue "c", types.StringValue "z"⟩]
    [⟨"a", "x"⟩, ⟨"b", "y"⟩] 1 (by decide)

/-! ## The merge by key -/

theorem replacedBy_cons_of_ne (o : DevObjectAddress) (r : List DevObjectAddress)
    (e : addressItemModel) (h : e.Name ≠ types.StringValue o.Name) :
    replacedBy (o :: r) e = replacedBy r e := by
  have h2 : ¬ types.StringValue o.Name = e.Name := fun h3 => h h3.symm
  simp [replacedBy, List.find?_cons, h2]

theorem replacedBy_of_absent (r : List DevObjectAddress) (e : addressItemModel)
    (h : ∀ o ∈ r, types.StringValue o.Name ≠ e.Name) : replacedBy r e = e := by
  have hnone : r.find? (fun o => decide (types.StringValue o.Name = e.Name)) = none := by
    rw [List.find?_eq_none]
    intro o ho
    simpa using h o ho
  simp [replacedBy, hnone]

theorem replacedBy_cons_of_eq (o : DevObjectAddress) (r : List DevObjectAddress)
    (e : addressItemModel) (h : e.Name = types.StringValue o.Name) :
    replacedBy (o :: r) e = remoteItem o := by
  simp [replacedBy, List.find?_cons, h]

theorem absentFrom_eq_names (s t : List addressItemModel)
    (h : s.map (fun e => e.Name) = t.map (fun e => e.Name)) (o : DevObjectAddress) :
    absentFrom s o = absentFrom t o := by
  have hs : ∀ u : List addressItemModel, absentFrom u o =
      (u.map (fun e => e.Name)).all (fun n => decide (n ≠ types.StringValue o.Name)) := by
    intro u
    induction u with
    | nil => rfl
    | cons a u ih =>
      simp only [absentFrom, List.all_cons, List.map_cons] at ih ⊢
      rw [ih]
  rw [hs, hs, h]

theorem absentFrom_iff (s : List addressItemModel) (o : DevObjectAddress) :
    absentFrom s o = true ↔ ∀ e ∈ s, e.Name ≠ types.StringValue o.Name := by
  simp [absentFrom]

theorem StringValue_injective (a b : String) (h : types.StringValue a = types.StringValue b) :
    a = b := by
  simpa [types.StringValue] using h

/-- The in-place part: with distinct desired names and a remote object whose
name is not repeated further on, overwriting first and then replacing by the
rest is replacing by the whole remote list. -/
theorem overwriteFirst_map_replacedBy (o : DevObjectAddress) (r : List DevObjectAddress)
    (hr : ∀ o2 ∈ r, types.StringValue o2.Name ≠ types.StringValue o.Name) :
    ∀ d : List addressItemModel, (d.map (fun e => e.Name)).Nodup →
      ((overwriteFirst (configAddrDataOf o) d).2).map (replacedBy r)
        = d.map (replacedBy (o :: r)) := by
  intro d
  induction d with
  | nil => intro _; simp [overwriteFirst]
  | cons a d ih =>
    intro hnd
    have hnd2 : (d.map (fun e => e.Name)).Nodup := (List.nodup_cons.mp hnd).2
    have hnot : a.Name ∉ d.map (fun e => e.Name) := (List.nodup_cons.mp hnd).1
    by_cases hn : a.Name = (configAddrDataOf o).Name
    · have hn2 : a.Name = types.StringValue o.Name := hn
      have hrest : ∀ e ∈ d, replacedBy (o :: r) e = replacedBy r e := by
        intro e he
        apply replacedBy_cons_of_ne
        intro heq
        exact hnot (List.mem_map.mpr ⟨e, he, heq.trans hn2.symm⟩)
      have h1 : replacedBy r (addressItemModel.ofData (configAddrDataOf o)) = remoteItem o :=
        replacedBy_of_absent r _ hr
      simp only [overwriteFirst, hn, if_true, List.map_cons, h1,
        replacedBy_cons_of_eq o r a hn2]
      congr 1
      exact (List.map_congr_left hrest).symm
    · have hn2 : a.Name ≠ types.StringValue o.Name := hn
      simp only [overwriteFirst, hn, if_false, List.map_cons,
        replacedBy_cons_of_ne o r a hn2, ih hnd2]

theorem readMergeStep_names_nodup (d : List addressItemModel) (o : DevObjectAddress)
    (hd : (d.map (fun e => e.Name)).Nodup) :
    ((readMergeStep d o).map (fun e => e.Name)).Nodup := by
  rw [readMergeStep_eq]
  by_cases hf : (overwriteFirst (configAddrDataOf o) d).1 = true
  · simp only [hf, if_true]
    rw [overwriteFirst_names]; exact hd
  · simp only [hf, Bool.false_eq_true, if_false]
    have hnf : ¬ ∃ e ∈ d, e.Name = (configAddrDataOf o).Name := by
      rw [← overwriteFirst_found_iff]; exact hf
    rw [List.map_append, List.nodup_append]
    refine ⟨hd, by simp, ?_⟩
    intro n hn1 hn2
    simp only [List.map_cons, List.map_nil, List.mem_singleton] at hn2
    obtain ⟨e, he, hen⟩ := List.mem_map.mp hn1
    exact hnf ⟨e, he, hen.trans hn2⟩

theorem mergeByKey_step (d : List addressItemModel) (o : DevObjectAddress)
    (r : List DevObjectAddress) (hd : (d.map (fun e => e.Name)).Nodup)
    (hr : ∀ o2 ∈ r, types.StringValue o2.Name ≠ types.StringValue o.Name) :
    mergeByKey (readMergeStep d o) r = mergeByKey d (o :: r) := by
  rw [readMergeStep_eq]
  by_cases hf : (overwriteFirst (configAddrDataOf o) d).1 = true
  · simp only [hf, if_true]
    have hex : ∃ e ∈ d, e.Name = types.StringValue o.Name :=
      (overwriteFirst_found_iff _ d).mp hf
    have habs : absentFrom d o = false := by
      cases hb : absentFrom d o
      · rfl
      · obtain ⟨e, he, hen⟩ := hex
        exact absurd hen ((absentFrom_iff d o).mp hb e he)
    have hfil : absentFrom (overwriteFirst (configAddrDataOf o) d).2 = absentFrom d := by
      funext o2
      exact absentFrom_eq_names _ _ (overwriteFirst_names _ d) o2
    simp only [mergeByKey, overwriteFirst_map_replacedBy o r hr d hd, hfil,
      List.filter_cons, habs, Bool.false_eq_true, if_false]
  · simp only [hf, Bool.false_eq_true, if_false]
    have hnf : ∀ e ∈ d, e.Name ≠ types.StringValue o.Name := by
      intro e he hen
      exact hf ((overwriteFirst_found_iff _ d).mpr ⟨e, he, hen⟩)
    have habs : absentFrom d o = true := (absentFrom_iff d o).mpr hnf
    have hmap : d.map (replacedBy r) = d.map (replacedBy (o :: r)) :=
      List.map_congr_left (fun e he => (replacedBy_cons_of_ne o r e (hnf e he)).symm)
    have hself : replacedBy r (remoteItem o) = remoteItem o :=
      replacedBy_of_absent r _ hr
    have hfil : r.filter (absentFrom (d ++ [remoteItem o])) = r.filter (absentFrom d) := by
      apply List.filter_congr
      intro o2 ho2
      have hne : (remoteItem o).Name ≠ types.StringValue o2.Name := fun h3 => hr o2 ho2 h3.symm
      simp [absentFrom, List.all_append, hne]
    simp only [mergeByKey, List.map_append, List.map_cons, List.map_nil, hself, hfil,
      List.filter_cons, habs, if_true, hmap, List.append_assoc, List.singleton_append]

/-- The loop of `Read` computes the merge by key when names are distinct
within each list. -/
theorem readMerge_mergeByKey_of_nodup (r : List DevObjectAddress) :
    ∀ d : List addressItemModel, (d.map (fun e => e.Name)).Nodup →
      (r.map (fun o => o.Name)).Nodup → readMerge d r = mergeByKey d r := by
  induction r with
  | nil =>
    intro d _ _
    have hid : d.map (replacedBy []) = d := by
      have : ∀ e ∈ d, replacedBy [] e = e := fun e _ => by simp [replacedBy]
      simpa using List.map_congr_left this
    simp [readMerge_nil, mergeByKey, hid]
  | cons o r ih =>
    intro d hd hr
    have hr2 : (r.map (fun o => o.Name)).Nodup := (List.nodup_cons.mp hr).2
    have hnot : o.Name ∉ r.map (fun o => o.Name) := (List.nodup_cons.mp hr).1
    have hrne : ∀ o2 ∈ r, types.StringValue o2.Name ≠ types.StringValue o.Name := by
      intro o2 ho2 heq
      exact hnot (List.mem_map.mpr ⟨o2, ho2, StringValue_injective _ _ heq⟩)
    rw [readMerge_cons, ih _ (readMergeStep_names_nodup d o hd) hr2]
    exact mergeByKey_step d o r hd hrne

/-- C3: when the names are pairwise distinct within the desired list and
within the remote list, the read-merge result is the desired list with each
entry whose name occurs in remote replaced in place by that remote object,
followed by the remote objects whose names do not occur in desired, in remote
order. -/
theorem readMerge_eq_mergeByKey (d : List addressItemModel) (r : List DevObjectAddress)
    (hd : (d.map (fun e => e.Name)).Nodup) (hr : (r.map (fun o => o.Name)).Nodup) :
    readMerge d r = mergeByKey d r :=
  readMerge_mergeByKey_of_nodup r d hd hr

/-- C3 on the example of the specification: desired holds only "a" (no fqdn),
remote holds "a" with fqdn "x" and "b" with fqdn "y"; "a" is updated in place
and "b" is appended. -/
theorem readMerge_eq_mergeByKey_witness :
    readMerge [⟨types.StringValue "a", types.StringNull⟩] [⟨"a", "x"⟩, ⟨"b", "y"⟩]
      = [⟨types.StringValue "a", types.StringValue "x"⟩,
         ⟨types.StringValue "b", types.StringValue "y"⟩] :=
  (readMerge_eq_mergeByKey [⟨types.StringValue "a", types.StringNull⟩]
    [⟨"a", "x"⟩, ⟨"b", "y"⟩] (by decide) (by decide)).trans (by decide)

/-- C5 as stated fails: with an empty desired list and a remote list that
repeats the name "a", the result is the single entry of the last remote object
of that name, not the remote list. -/
theorem readMerge_duplicate_remote_counterexample :
    readMerge [] [⟨"a", "x"⟩, ⟨"a", "y"⟩] = [remoteItem ⟨"a", "y"⟩] ∧
    readMerge [] [⟨"a", "x"⟩, ⟨"a", "y"⟩]
      ≠ [(⟨"a", "x"⟩ : DevObjectAddress), ⟨"a", "y"⟩].map remoteItem := by
  decide

/-- C5, amended: when the desired list is empty and the remote names are
pairwise distinct, the read-merge result is the remote list, element for
element and in remote order. -/
theorem readMerge_empty_desired (r : List DevObjectAddress)
    (hr : (r.map (fun o => o.Name)).Nodup) :
    readMerge [] r = r.map remoteItem := by
  rw [readMerge_mergeByKey_of_nodup r [] (by simp) hr]
  have hfil : r.filter (absentFrom []) = r := List.filter_eq_self.mpr (fun _ _ => rfl)
  simp [mergeByKey, hfil]

/-- C5, amended, at a concrete remote list of two distinct names. -/
theorem readMerge_empty_desired_witness :
    readMerge [] [⟨"a", "x"⟩, ⟨"b", "y"⟩]
      = [remoteItem ⟨"a", "x"⟩, remoteItem ⟨"b", "y"⟩] :=
  readMerge_empty_desired [⟨"a", "x"⟩, ⟨"b", "y"⟩] (by decide)

end provider


namespace vclient

/-! ## Address endpoints and envelopes -/

theorem collectionURL_eq (c : Client) (device org : String) :
    "https://" ++ c.Config.ServerIP ++ ":" ++ Itoa c.Config.ServerPort ++ "/" ++
      vmsDirectorDevicesURL ++ "/" ++ device ++ "/" ++
      vmsDirectorOrgServicesURL ++ "/" ++ org ++ "/" ++
      vmsDirectorObjectsAddressesURL = addressesURL c device org := by
  have h1 : "/" ++ vmsDirectorDevicesURL ++ "/" = "/api/config/devices/device/" := by decide
  have h2 : "/" ++ vmsDirectorOrgServicesURL ++ "/" = "/config/orgs/org-services/" := by decide
  have h3 : "/" ++ vmsDirectorObjectsAddressesURL = "/objects/addresses" := by decide
  simp only [addressesURL, Itoa, ← h1, ← h2, ← h3, String.append_assoc]

theorem itemURL_eq (c : Client) (device org name : String) :
    "https://" ++ c.Config.ServerIP ++ ":" ++ Itoa c.Config.ServerPort ++ "/" ++
      vmsDirectorDevicesURL ++ "/" ++ device ++ "/" ++
      vmsDirectorOrgServicesURL ++ "/" ++ org ++ "/" ++
      vmsDirectorObjectsAddressesURL ++ "/" ++ "address" ++ "/" ++ name
      = addressItemURL c device org name := by
  have h4 : "/" ++ "address" ++ "/" = "/address/" := by decide
  rw [addressItemURL, ← collectionURL_eq, ← h4]
  simp only [String.append_assoc]

theorem marshal_single (val : DevObjectAddress) :
    DevObjectsAddressList.marshal
      { DevObjectsAddressList.zero with
        Addresses := DevObjectsAddressList.zero.Addresses ++ [val] } = envelope [val] := rfl

theorem marshal_nonempty (l : DevObjectsAddressList) (h : l.Addresses ≠ []) :
    l.marshal = envelope l.Addresses := by
  cases hl : l.Addresses with
  | nil => exact absurd hl h
  | cons a rest => simp [DevObjectsAddressList.marshal, envelope, hl, DevObjectAddress.marshal]

/-! ## The gateway records exactly one request per call -/

theorem vHttpHandlePostReq_hist (net : Net) (c : Client) (apiUrl : String) (request : Json)
    (urlData : List (String × String)) (hist : List Request) :
    (vHttpHandlePostReq net c apiUrl request urlData hist).2 =
      hist ++ [⟨"POST", apiUrl, urlData, requestHeader c, some request⟩] := by
  unfold vHttpHandlePostReq
  dsimp only
  split
  · rfl
  · split <;> rfl

theorem vHttpHandlePutReq_hist (net : Net) (c : Client) (apiUrl : String) (request : Json)
    (urlData : List (String × String)) (hist : List Request) :
    (vHttpHandlePutReq net c apiUrl request urlData hist).2 =
      hist ++ [⟨"PUT", apiUrl, urlData, requestHeader c, some request⟩] := by
  unfold vHttpHandlePutReq
  dsimp only
  split
  · rfl
  · split <;> rfl

theorem vHttpHandleDeleteReq_hist (net : Net) (c : Client) (apiUrl : String) (request : Json)
    (urlData : List (String × String)) (hist : List Request) :
    (vHttpHandleDeleteReq net c apiUrl request urlData hist).2 =
      hist ++ [⟨"DELETE", apiUrl, urlData, requestHeader c, some request⟩] := by
  unfold vHttpHandleDeleteReq
  dsimp only
  split
  · rfl
  · split <;> rfl

/-! ## Per-item loops -/

theorem itemLoop_all_ok
    (call : DevObjectAddress → List Request → Except String (List UInt8) × List Request)
    (req : DevObjectAddress → Request)
    (hreq : ∀ it h, (call it h).2 = h ++ [req it]) :
    ∀ (items : List DevObjectAddress) (hist : List Request),
      (∀ j it, items[j]? = some it →
        ∃ b, (call it (hist ++ (items.take j).map req)).1 = Except.ok b) →
      itemLoop call items hist = (none, hist ++ items.map req) := by
  intro items
  induction items with
  | nil => intro hist _; simp [itemLoop]
  | cons val rest ih =>
    intro hist hok
    obtain ⟨b, hb⟩ := hok 0 val (by simp)
    simp only [List.take_zero, List.map_nil, List.append_nil] at hb
    have hcall : call val hist = (Except.ok b, hist ++ [req val]) :=
      Prod.ext hb (hreq val hist)
    have hrest := ih (hist ++ [req val]) (by
      intro j it hj
      have := hok (j + 1) it (by simpa using hj)
      simpa using this)
    simp only [itemLoop, hcall, hrest, List.map_cons, List.append_assoc, List.singleton_append]

theorem itemLoop_first_failure
    (call : DevObjectAddress → List Request → Except String (List UInt8) × List Request)
    (req : DevObjectAddress → Request)
    (hreq : ∀ it h, (call it h).2 = h ++ [req it]) :
    ∀ (items : List DevObjectAddress) (hist : List Request) (k : Nat)
      (item : DevObjectAddress) (err : String),
      items[k]? = some item →
      (∀ j it, j < k → items[j]? = some it →
        ∃ b, (call it (hist ++ (items.take j).map req)).1 = Except.ok b) →
      (call item (hist ++ (items.take k).map req)).1 = Except.error err →
      itemLoop call items hist = (some err, hist ++ (items.take (k + 1)).map req) := by
  intro items
  induction items with
  | nil => intro hist k item err hk; simp at hk
  | cons val rest ih =>
    intro hist k item err hk hok hfail
    cases k with
    | zero =>
      simp only [List.getElem?_cons_zero, Option.some.injEq] at hk
      subst hk
      simp only [List.take_zero, List.map_nil, List.append_nil] at hfail
      have hcall : call val hist = (Except.error err, hist ++ [req val]) :=
        Prod.ext hfail (hreq val hist)
      simp [itemLoop, hcall]
    | succ k =>
      obtain ⟨b, hb⟩ := hok 0 val (Nat.succ_pos k) (by simp)
      simp only [List.take_zero, List.map_nil, List.append_nil] at hb
      have hcall : call val hist = (Except.ok b, hist ++ [req val]) :=
        Prod.ext hb (hreq val hist)
      have hrest := ih (hist ++ [req val]) k item err (by simpa using hk)
        (by
          intro j it hj hjit
          have := hok (j + 1) it (Nat.succ_lt_succ hj) (by simpa using hjit)
          simpa using this)
        (by simpa using hfail)
      simp only [itemLoop, hcall, hrest, List.take_succ_cons, List.map_cons, List.append_assoc,
        List.singleton_append]

theorem updateLoop_eq_itemLoop (net : Net) (c : Client) (httpUrl : String) :
    ∀ (items : List DevObjectAddress) (hist : List Request),
      updateLoop net c httpUrl items hist =
        itemLoop (fun val h => vHttpHandlePutReq net c (httpUrl ++ val.Name) (envelope [val]) [] h)
          items hist := by
  intro items
  induction items with
  | nil => intro hist; rfl
  | cons val rest ih =>
    intro hist
    simp only [updateLoop, itemLoop, marshal_single, ih]

theorem deleteLoop_eq_itemLoop (net : Net) (c : Client) (httpUrl : String) :
    ∀ (items : List DevObjectAddress) (hist : List Request),
      deleteLoop net c httpUrl items hist =
        itemLoop (fun val h => vHttpHandleDeleteReq net c (httpUrl ++ val.Name) (envelope [val]) [] h)
          items hist := by
  intro items
  induction items with
  | nil => intro hist; rfl
  | cons val rest ih =>
    intro hist
    simp only [deleteLoop, itemLoop, marshal_single, ih]

/-- Past the guard, update is the per-item loop over PUT calls to the item
endpoints. -/
theorem Update_eq_itemLoop (net : Net) (c : Client) (l : DevObjectsAddressList)
    (hist : List Request) (hcount : 0 < l.Count) (hne : l.Addresses ≠ []) :
    UpdateDevOrgServiceObjAddresses net c ⟨l⟩ hist =
      itemLoop (fun val h => vHttpHandlePutReq net c
        (addressItemURL c l.DeviceName l.OrganizationName val.Name) (envelope [val]) [] h)
        l.Addresses hist := by
  have hlen : ¬ ((l.Addresses.length : Int) ≤ 0) := by
    have : 0 < l.Addresses.length := List.length_pos.mpr hne
    omega
  have hguard : ¬ (l.Count ≤ 0 ∨ (l.Addresses.length : Int) ≤ 0) := by
    intro h
    rcases h with h | h
    · omega
    · exact hlen h
  simp only [UpdateDevOrgServiceObjAddresses, hguard, if_false, updateLoop_eq_itemLoop,
    itemURL_eq]

/-- Past the guard, delete is the per-item loop over DELETE calls to the item
endpoints. -/
theorem Delete_eq_itemLoop (net : Net) (c : Client) (l : DevObjectsAddressList)
    (hist : List Request) (hcount : 0 < l.Count) (hne : l.Addresses ≠ []) :
    DeleteDevOrgServiceObjAddresses net c ⟨l⟩ hist =
      itemLoop (fun val h => vHttpHandleDeleteReq net c
        (addressItemURL c l.DeviceName l.OrganizationName val.Name) (envelope [val]) [] h)
        l.Addresses hist := by
  have hlen : ¬ ((l.Addresses.length : Int) ≤ 0) := by
    have : 0 < l.Addresses.length := List.length_pos.mpr hne
    omega
  have hguard : ¬ (l.Count ≤ 0 ∨ (l.Addresses.length : Int) ≤ 0) := by
    intro h
    rcases h with h | h
    · omega
    · exact hlen h
  simp only [DeleteDevOrgServiceObjAddresses, hguard, if_false, deleteLoop_eq_itemLoop,
    itemURL_eq]

/-! ## Create, update and delete of address collections -/

/-- C6: called with an empty item list, create, update and delete each return
their validation error and hand no request to the network, whatever the other
fields of the collection are. -/
theorem empty_collection_rejected (net : Net) (c : Client) (device org : String)
    (count : Int) (hist : List Request) :
    CreateDevOrgServiceObjAddresses net c ⟨⟨device, org, count, []⟩⟩ hist
      = (some "Device Orgs Address creation failed as addresses count is 0", hist) ∧
    UpdateDevOrgServiceObjAddresses net c ⟨⟨device, org, count, []⟩⟩ hist
      = (some "Device Orgs Address update failed as addresses count is 0", hist) ∧
    DeleteDevOrgServiceObjAddresses net c ⟨⟨device, org, count, []⟩⟩ hist
      = (some "Device Orgs Address deletion failed as addresses count is 0", hist) := by
  simp [CreateDevOrgServiceObjAddresses, UpdateDevOrgServiceObjAddresses,
    DeleteDevOrgServiceObjAddresses]

/-- C7: update stops at the first failing item: when the collection passes the
guard, the PUTs for the items before index `k` succeed and the PUT for the item
at index `k` fails with `err`, the call returns `err` and the requests issued
are exactly the PUTs for the items up to and including index `k`, in order. -/
theorem Update_stops_at_first_failure (net : Net) (c : Client) (l : DevObjectsAddressList)
    (hist : List Request) (k : Nat) (item : DevObjectAddress) (err : String)
    (hcount : 0 < l.Count) (hk : l.Addresses[k]? = some item)
    (hok : ∀ j it, j < k → l.Addresses[j]? = some it →
      ∃ b, putResult net c l hist j it = Except.ok b)
    (hfail : putResult net c l hist k item = Except.error err) :
    UpdateDevOrgServiceObjAddresses net c ⟨l⟩ hist =
      (some err, hist ++ (l.Addresses.take (k + 1)).map (putRequestFor c l)) := by
  have hne : l.Addresses ≠ [] := by
    intro h; rw [h] at hk; simp at hk
  rw [Update_eq_itemLoop net c l hist hcount hne]
  exact itemLoop_first_failure _ (putRequestFor c l)
    (fun it h => vHttpHandlePutReq_hist net c _ _ [] h) l.Addresses hist k item err hk hok hfail

/-- C7 on the example of the specification: three items, the second PUT
fails; the first PUT was issued, the third never is, and the error of the
second is returned. -/
theorem Update_stops_at_first_failure_witness :
    UpdateDevOrgServiceObjAddresses
      (fun h _ => if h.length = 1 then Except.error "boom"
        else Except.ok ⟨200, "200 OK", [], none⟩)
      Client.zero ⟨⟨"d", "o", 3, [⟨"a", "x"⟩, ⟨"b", "y"⟩, ⟨"c", "z"⟩]⟩⟩ []
    = (some "boom",
        [putRequestFor Client.zero ⟨"d", "o", 3, [⟨"a", "x"⟩, ⟨"b", "y"⟩, ⟨"c", "z"⟩]⟩ ⟨"a", "x"⟩,
         putRequestFor Client.zero ⟨"d", "o", 3, [⟨"a", "x"⟩, ⟨"b", "y"⟩, ⟨"c", "z"⟩]⟩ ⟨"b", "y"⟩]) :=
  Update_stops_at_first_failure
    (fun h _ => if h.length = 1 then Except.error "boom"
      else Except.ok ⟨200, "200 OK", [], none⟩)
    Client.zero ⟨"d", "o", 3, [⟨"a", "x"⟩, ⟨"b", "y"⟩, ⟨"c", "z"⟩]⟩ [] 1 ⟨"b", "y"⟩ "boom"
    (by decide) rfl
    (by
      intro j it hj _
      have hj0 : j = 0 := by omega
      subst hj0
      exact ⟨[], by simp [putResult, vHttpHandlePutReq, readLimited]⟩)
    (by simp [putResult, vHttpHandlePutReq])

/-- C8: when the collection passes the guard and every PUT succeeds, update
issues exactly one PUT per item, in item order, each to the item endpoint
`.../objects/addresses/address/NAME` of the collection's device and
organization with the envelope of that single item as body, and returns no
error. -/
theorem Update_all_succeed (net : Net) (c : Client) (l : DevObjectsAddressList)
    (hist : List Request) (hcount : 0 < l.Count) (hne : l.Addresses ≠ [])
    (hok : ∀ j it, l.Addresses[j]? = some it →
      ∃ b, putResult net c l hist j it = Except.ok b) :
    UpdateDevOrgServiceObjAddresses net c ⟨l⟩ hist =
      (none, hist ++ l.Addresses.map (putRequestFor c l)) ∧
    ∀ i it, l.Addresses[i]? = some it →
      (hist ++ l.Addresses.map (putRequestFor c l))[hist.length + i]? =
        some ⟨"PUT",
          "https://" ++ c.Config.ServerIP ++ ":" ++ toString c.Config.ServerPort ++
            "/api/config/devices/device/" ++ l.DeviceName ++
            "/config/orgs/org-services/" ++ l.OrganizationName ++
            "/objects/addresses" ++ "/address/" ++ it.Name,
          [], requestHeader c,
          some (Json.obj [("address",
            Json.arr [Json.obj [("name", Json.str it.Name), ("fqdn", Json.str it.FQDN)]])])⟩ := by
  constructor
  · rw [Update_eq_itemLoop net c l hist hcount hne]
    exact itemLoop_all_ok _ (putRequestFor c l)
      (fun it h => vHttpHandlePutReq_hist net c _ _ [] h) l.Addresses hist hok
  · intro i it hi
    rw [List.getElem?_append_right (Nat.le_add_right _ _), Nat.add_sub_cancel_left,
      List.getElem?_map, hi]
    rfl

/-- C8 at a concrete collection of two items on a network that answers 200 to
everything: two PUTs, one per item and in item order, and no error. -/
theorem Update_all_succeed_witness :
    UpdateDevOrgServiceObjAddresses (fun _ _ => Except.ok ⟨200, "200 OK", [], none⟩)
      Client.zero ⟨⟨"d", "o", 2, [⟨"a", "x"⟩, ⟨"b", "y"⟩]⟩⟩ []
    = (none,
        [putRequestFor Client.zero ⟨"d", "o", 2, [⟨"a", "x"⟩, ⟨"b", "y"⟩]⟩ ⟨"a", "x"⟩,
         putRequestFor Client.zero ⟨"d", "o", 2, [⟨"a", "x"⟩, ⟨"b", "y"⟩]⟩ ⟨"b", "y"⟩]) :=
  (Update_all_succeed (fun _ _ => Except.ok ⟨200, "200 OK", [], none⟩)
    Client.zero ⟨"d", "o", 2, [⟨"a", "x"⟩, ⟨"b", "y"⟩]⟩ [] (by decide) (by simp)
    (by
      intro j it _
      exact ⟨[], by simp [putResult, vHttpHandlePutReq, readLimited]⟩)).1

/-- C9: when the collection passes the guard, delete iterates as update does:
if every DELETE succeeds it issues one DELETE per item, in item order, each to
the item endpoint of the collection's device and organization with the
single-item envelope as body, and returns no error; if the DELETE at index `k`
is the first to fail it issues the DELETEs up to and including index `k` and
returns that error. -/
theorem Delete_per_item (net : Net) (c : Client) (l : DevObjectsAddressList)
    (hist : List Request) (hcount : 0 < l.Count) (hne : l.Addresses ≠ []) :
    ((∀ j it, l.Addresses[j]? = some it →
        ∃ b, deleteResult net c l hist j it = Except.ok b) →
      DeleteDevOrgServiceObjAddresses net c ⟨l⟩ hist =
        (none, hist ++ l.Addresses.map (deleteRequestFor c l))) ∧
    (∀ k item err, l.Addresses[k]? = some item →
      (∀ j it, j < k → l.Addresses[j]? = some it →
        ∃ b, deleteResult net c l hist j it = Except.ok b) →
      deleteResult net c l hist k item = Except.error err →
      DeleteDevOrgServiceObjAddresses net c ⟨l⟩ hist =
        (some err, hist ++ (l.Addresses.take (k + 1)).map (deleteRequestFor c l))) ∧
    (∀ it, deleteRequestFor c l it =
      ⟨"DELETE",
        "https://" ++ c.Config.ServerIP ++ ":" ++ toString c.Config.ServerPort ++
          "/api/config/devices/device/" ++ l.DeviceName ++
          "/config/orgs/org-services/" ++ l.OrganizationName ++
          "/objects/addresses" ++ "/address/" ++ it.Name,
        [], requestHeader c,
        some (Json.obj [("address",
          Json.arr [Json.obj [("name", Json.str it.Name), ("fqdn", Json.str it.FQDN)]])])⟩) := by
  refine ⟨?_, ?_, fun _ => rfl⟩
  · intro hok
    rw [Delete_eq_itemLoop net c l hist hcount hne]
    exact itemLoop_all_ok _ (deleteRequestFor c l)
      (fun it h => vHttpHandleDeleteReq_hist net c _ _ [] h) l.Addresses hist hok
  · intro k item err hk hok hfail
    rw [Delete_eq_itemLoop net c l hist hcount hne]
    exact itemLoop_first_failure _ (deleteRequestFor c l)
      (fun it h => vHttpHandleDeleteReq_hist net c _ _ [] h) l.Addresses hist k item err
      hk hok hfail

/-- C9 at a concrete collection of three items where the second DELETE is
answered 500: the first two DELETEs are issued, the third is not, and the
status error is returned. -/
theorem Delete_per_item_witness :
    DeleteDevOrgServiceObjAddresses
      (fun h _ => if h.length = 1 then Except.ok ⟨500, "500 Internal Server Error", [], none⟩
        else Except.ok ⟨204, "204 No Content", [], none⟩)
      Client.zero ⟨⟨"d", "o", 3, [⟨"a", "x"⟩, ⟨"b", "y"⟩, ⟨"c", "z"⟩]⟩⟩ []
    = (some "http response error",
        [deleteRequestFor Client.zero ⟨"d", "o", 3, [⟨"a", "x"⟩, ⟨"b", "y"⟩, ⟨"c", "z"⟩]⟩ ⟨"a", "x"⟩,
         deleteRequestFor Client.zero ⟨"d", "o", 3, [⟨"a", "x"⟩, ⟨"b", "y"⟩, ⟨"c", "z"⟩]⟩ ⟨"b", "y"⟩]) :=
  (Delete_per_item
    (fun h _ => if h.length = 1 then Except.ok ⟨500, "500 Internal Server Error", [], none⟩
      else Except.ok ⟨204, "204 No Content", [], none⟩)
    Client.zero ⟨"d", "o", 3, [⟨"a", "x"⟩, ⟨"b", "y"⟩, ⟨"c", "z"⟩]⟩ []
    (by decide) (by simp)).2.1 1 ⟨"b", "y"⟩ "http response error" rfl
    (by
      intro j it hj _
      have hj0 : j = 0 := by omega
      subst hj0
      exact ⟨[], by simp [deleteResult, vHttpHandleDeleteReq, readLimited]⟩)
    (by simp [deleteResult, vHttpHandleDeleteReq])

/-- C10: when the collection passes the guard, create issues exactly one POST,
to the collection endpoint `.../objects/addresses` of the collection's device
and organization, whose body is the envelope with the single key `address`
holding all items in their given order; it returns the error of the POST if
the POST fails and no error otherwise. -/
theorem Create_single_post (net : Net) (c : Client) (l : DevObjectsAddressList)
    (hist : List Request) (hcount : 0 < l.Count) (hne : l.Addresses ≠ []) :
    CreateDevOrgServiceObjAddresses net c ⟨l⟩ hist =
      ((match postResult net c l hist with
        | Except.error err => some err
        | Except.ok _ => none),
       hist ++ [postRequestFor c l]) ∧
    postRequestFor c l =
      ⟨"POST",
        "https://" ++ c.Config.ServerIP ++ ":" ++ toString c.Config.ServerPort ++
          "/api/config/devices/device/" ++ l.DeviceName ++
          "/config/orgs/org-services/" ++ l.OrganizationName ++ "/objects/addresses",
        [], requestHeader c,
        some (Json.obj [("address", Json.arr (l.Addresses.map
          (fun a => Json.obj [("name", Json.str a.Name), ("fqdn", Json.str a.FQDN)])))])⟩ := by
  refine ⟨?_, rfl⟩
  have hlen : ¬ ((l.Addresses.length : Int) ≤ 0) := by
    have : 0 < l.Addresses.length := List.length_pos.mpr hne
    omega
  have hguard : ¬ (l.Count ≤ 0 ∨ (l.Addresses.length : Int) ≤ 0) := by
    intro h
    rcases h with h | h
    · omega
    · exact hlen h
  have h2 := vHttpHandlePostReq_hist net c (addressesURL c l.DeviceName l.OrganizationName)
    (envelope l.Addresses) [] hist
  simp only [CreateDevOrgServiceObjAddresses, hguard, if_false, collectionURL_eq,
    marshal_nonempty l hne, postResult]
  rcases hres : vHttpHandlePostReq net c (addressesURL c l.DeviceName l.OrganizationName)
    (envelope l.Addresses) [] hist with ⟨res, hist1⟩
  rw [hres] at h2
  simp only at h2
  subst h2
  cases res <;> rfl

/-- C10 at a concrete collection of two items on a network that answers 201:
one POST carrying both items, and no error. -/
theorem Create_single_post_witness :
    CreateDevOrgServiceObjAddresses (fun _ _ => Except.ok ⟨201, "201 Created", [], none⟩)
      Client.zero ⟨⟨"d", "o", 2, [⟨"a", "x"⟩, ⟨"b", "y"⟩]⟩⟩ []
    = (none, [postRequestFor Client.zero ⟨"d", "o", 2, [⟨"a", "x"⟩, ⟨"b", "y"⟩]⟩]) :=
  (Create_single_post (fun _ _ => Except.ok ⟨201, "201 Created", [], none⟩)
    Client.zero ⟨"d", "o", 2, [⟨"a", "x"⟩, ⟨"b", "y"⟩]⟩ [] (by decide) (by simp)).1

end vclient

namespace vclient

/-! ## Status validation and the body limit of the gateway -/

theorem readLimited_of_readable (resp : Response)
    (h : resp.BodyErr = none ∨ 65536 ≤ resp.Body.length) :
    readLimited resp = Except.ok (resp.Body.take 65536) := by
  unfold readLimited
  by_cases hlen : resp.Body.length ≥ 0x10000
  · simp [hlen]
  · have hlt : resp.Body.length < 65536 := by omega
    have herr : resp.BodyErr = none := by
      rcases h with h | h
      · exact h
      · omega
    have htake : resp.Body.take 65536 = resp.Body := List.take_of_length_le (by omega)
    simp [hlen, herr, htake]

theorem vHttpHandleGetReq_result (net : Net) (c : Client) (apiUrl : String)
    (urlData : List (String × String)) (hist : List Request) (resp : Response)
    (hnet : ∀ req, net hist req = Except.ok resp) :
    (vHttpHandleGetReq net c apiUrl urlData hist).1 =
      if resp.StatusCode ≠ 200 then Except.error "http response error"
      else readLimited resp := by
  simp only [vHttpHandleGetReq, hnet]
  split <;> rfl

theorem vHttpHandlePostReq_result (net : Net) (c : Client) (apiUrl : String) (request : Json)
    (urlData : List (String × String)) (hist : List Request) (resp : Response)
    (hnet : ∀ req, net hist req = Except.ok resp) :
    (vHttpHandlePostReq net c apiUrl request urlData hist).1 =
      if resp.StatusCode ≠ 201 then Except.error "http response error"
      else readLimited resp := by
  simp only [vHttpHandlePostReq, hnet]
  split <;> rfl

theorem vHttpHandlePutReq_result (net : Net) (c : Client) (apiUrl : String) (request : Json)
    (urlData : List (String × String)) (hist : List Request) (resp : Response)
    (hnet : ∀ req, net hist req = Except.ok resp) :
    (vHttpHandlePutReq net c apiUrl request urlData hist).1 =
      if resp.StatusCode ≠ 200 ∧ resp.StatusCode ≠ 204 then Except.error "http response error"
      else readLimited resp := by
  simp only [vHttpHandlePutReq, hnet]
  split <;> rfl

theorem vHttpHandleDeleteReq_result (net : Net) (c : Client) (apiUrl : String) (request : Json)
    (urlData : List (String × String)) (hist : List Request) (resp : Response)
    (hnet : ∀ req, net hist req = Except.ok resp) :
    (vHttpHandleDeleteReq net c apiUrl request urlData hist).1 =
      if resp.StatusCode ≠ 200 ∧ resp.StatusCode ≠ 204 then Except.error "http response error"
      else readLimited resp := by
  simp only [vHttpHandleDeleteReq, hnet]
  split <;> rfl

/-- C11: status validation per verb: for a response whose body is delivered
without a read error, GET succeeds exactly on status 200, POST exactly on 201,
PUT and DELETE exactly on 200 or 204. -/
theorem status_validation_per_verb (net : Net) (c : Client) (apiUrl : String)
    (request : Json) (urlData : List (String × String)) (hist : List Request)
    (resp : Response) (hnet : ∀ req, net hist req = Except.ok resp)
    (hbody : resp.BodyErr = none) :
    ((∃ b, (vHttpHandleGetReq net c apiUrl urlData hist).1 = Except.ok b)
      ↔ resp.StatusCode = 200) ∧
    ((∃ b, (vHttpHandlePostReq net c apiUrl request urlData hist).1 = Except.ok b)
      ↔ resp.StatusCode = 201) ∧
    ((∃ b, (vHttpHandlePutReq net c apiUrl request urlData hist).1 = Except.ok b)
      ↔ (resp.StatusCode = 200 ∨ resp.StatusCode = 204)) ∧
    ((∃ b, (vHttpHandleDeleteReq net c apiUrl request urlData hist).1 = Except.ok b)
      ↔ (resp.StatusCode = 200 ∨ resp.StatusCode = 204)) := by
  have hread := readLimited_of_readable resp (Or.inl hbody)
  rw [vHttpHandleGetReq_result net c apiUrl urlData hist resp hnet,
    vHttpHandlePostReq_result net c apiUrl request urlData hist resp hnet,
    vHttpHandlePutReq_result net c apiUrl request urlData hist resp hnet,
    vHttpHandleDeleteReq_result net c apiUrl request urlData hist resp hnet, hread]
  refine ⟨?_, ?_, ?_, ?_⟩
  · by_cases h : resp.StatusCode = 200 <;> simp [h]
  · by_cases h : resp.StatusCode = 201 <;> simp [h]
  · by_cases h1 : resp.StatusCode = 200
    · simp [h1]
    · by_cases h2 : resp.StatusCode = 204 <;> simp [h1, h2]
  · by_cases h1 : resp.StatusCode = 200
    · simp [h1]
    · by_cases h2 : resp.StatusCode = 204 <;> simp [h1, h2]

/-- C11 on the examples of the specification: a GET answered 201 is an error,
a POST answered 200 is an error, a PUT answered 204 is a success. -/
theorem status_validation_per_verb_witness :
    (¬ ∃ b, (vHttpHandleGetReq (fun _ _ => Except.ok ⟨201, "201 Created", [], none⟩)
        Client.zero "u" [] []).1 = Except.ok b) ∧
    (¬ ∃ b, (vHttpHandlePostReq (fun _ _ => Except.ok ⟨200, "200 OK", [], none⟩)
        Client.zero "u" Json.null [] []).1 = Except.ok b) ∧
    (∃ b, (vHttpHandlePutReq (fun _ _ => Except.ok ⟨204, "204 No Content", [], none⟩)
        Client.zero "u" Json.null [] []).1 = Except.ok b) :=
  ⟨fun h => absurd ((status_validation_per_verb
      (fun _ _ => Except.ok ⟨201, "201 Created", [], none⟩) Client.zero "u" Json.null [] []
      ⟨201, "201 Created", [], none⟩ (fun _ => rfl) rfl).1.mp h) (by decide),
   fun h => absurd ((status_validation_per_verb
      (fun _ _ => Except.ok ⟨200, "200 OK", [], none⟩) Client.zero "u" Json.null [] []
      ⟨200, "200 OK", [], none⟩ (fun _ => rfl) rfl).2.1.mp h) (by decide),
   (status_validation_per_verb
      (fun _ _ => Except.ok ⟨204, "204 No Content", [], none⟩) Client.zero "u" Json.null [] []
      ⟨204, "204 No Content", [], none⟩ (fun _ => rfl) rfl).2.2.1.mpr (Or.inr rfl)⟩

/-- C12 as stated fails: a GET answered "404 Not Found" and a GET answered
"500 Internal Server Error" return the very same error, the fixed text
"http response error", so the error does not tell which status was received. -/
theorem rejected_status_counterexample :
    (vHttpHandleGetReq (fun _ _ => Except.ok ⟨404, "404 Not Found", [], none⟩)
        Client.zero "u" [] []).1 = Except.error "http response error" ∧
    (vHttpHandleGetReq (fun _ _ => Except.ok ⟨500, "500 Internal Server Error", [], none⟩)
        Client.zero "u" [] []).1 = Except.error "http response error" ∧
    (vHttpHandleGetReq (fun _ _ => Except.ok ⟨404, "404 Not Found", [], none⟩)
        Client.zero "u" [] []).1 =
    (vHttpHandleGetReq (fun _ _ => Except.ok ⟨500, "500 Internal Server Error", [], none⟩)
        Client.zero "u" [] []).1 := by
  refine ⟨?_, ?_, ?_⟩ <;> simp [vHttpHandleGetReq]

/-- C12, amended: for every verb and every response whose status the verb does
not accept, the returned error is the fixed text "http response error",
whatever the status code, the status line and the body are. -/
theorem rejected_status_fixed_error (net : Net) (c : Client) (apiUrl : String)
    (request : Json) (urlData : List (String × String)) (hist : List Request)
    (resp : Response) (hnet : ∀ req, net hist req = Except.ok resp) :
    (resp.StatusCode ≠ 200 →
      (vHttpHandleGetReq net c apiUrl urlData hist).1
        = Except.error "http response error") ∧
    (resp.StatusCode ≠ 201 →
      (vHttpHandlePostReq net c apiUrl request urlData hist).1
        = Except.error "http response error") ∧
    (resp.StatusCode ≠ 200 ∧ resp.StatusCode ≠ 204 →
      (vHttpHandlePutReq net c apiUrl request urlData hist).1
        = Except.error "http response error") ∧
    (resp.StatusCode ≠ 200 ∧ resp.StatusCode ≠ 204 →
      (vHttpHandleDeleteReq net c apiUrl request urlData hist).1
        = Except.error "http response error") := by
  rw [vHttpHandleGetReq_result net c apiUrl urlData hist resp hnet,
    vHttpHandlePostReq_result net c apiUrl request urlData hist resp hnet,
    vHttpHandlePutReq_result net c apiUrl request urlData hist resp hnet,
    vHttpHandleDeleteReq_result net c apiUrl request urlData hist resp hnet]
  refine ⟨?_, ?_, ?_, ?_⟩ <;> intro h <;> simp [h]

/-- C12, amended, at a DELETE answered "403 Forbidden". -/
theorem rejected_status_fixed_error_witness :
    (vHttpHandleDeleteReq (fun _ _ => Except.ok ⟨403, "403 Forbidden", [], none⟩)
        Client.zero "u" Json.null [] []).1 = Except.error "http response error" :=
  (rejected_status_fixed_error (fun _ _ => Except.ok ⟨403, "403 Forbidden", [], none⟩)
    Client.zero "u" Json.null [] [] ⟨403, "403 Forbidden", [], none⟩
    (fun _ => rfl)).2.2.2 (by decide)

/-- C13: for every accepted response whose body is delivered without a read
error (or is at least 65536 bytes long), each of GET, POST, PUT and DELETE
returns the first 65536 bytes of the body and no error: min(n, 65536) bytes of
an n-byte body, the whole body when n is at most 65536. -/
theorem body_capped_at_64KiB (net : Net) (c : Client) (apiUrl : String)
    (request : Json) (urlData : List (String × String)) (hist : List Request)
    (resp : Response) (hnet : ∀ req, net hist req = Except.ok resp)
    (hread : resp.BodyErr = none ∨ 65536 ≤ resp.Body.length) :
    (resp.StatusCode = 200 →
      (vHttpHandleGetReq net c apiUrl urlData hist).1
        = Except.ok (resp.Body.take 65536)) ∧
    (resp.StatusCode = 201 →
      (vHttpHandlePostReq net c apiUrl request urlData hist).1
        = Except.ok (resp.Body.take 65536)) ∧
    (resp.StatusCode = 200 ∨ resp.StatusCode = 204 →
      (vHttpHandlePutReq net c apiUrl request urlData hist).1
        = Except.ok (resp.Body.take 65536)) ∧
    (resp.StatusCode = 200 ∨ resp.StatusCode = 204 →
      (vHttpHandleDeleteReq net c apiUrl request urlData hist).1
        = Except.ok (resp.Body.take 65536)) ∧
    (resp.Body.take 65536).length = min resp.Body.length 65536 ∧
    (resp.Body.length ≤ 65536 → resp.Body.take 65536 = resp.Body) := by
  have hr := readLimited_of_readable resp hread
  rw [vHttpHandleGetReq_result net c apiUrl urlData hist resp hnet,
    vHttpHandlePostReq_result net c apiUrl request urlData hist resp hnet,
    vHttpHandlePutReq_result net c apiUrl request urlData hist resp hnet,
    vHttpHandleDeleteReq_result net c apiUrl request urlData hist resp hnet, hr]
  refine ⟨?_, ?_, ?_, ?_, ?_, ?_⟩
  · intro h; simp [h]
  · intro h; simp [h]
  · intro h
    rcases h with h | h <;> simp [h]
  · intro h
    rcases h with h | h <;> simp [h]
  · rw [List.length_take, Nat.min_comm]
  · intro h; exact List.take_of_length_le h

/-- C13 at a GET answered 200 with a body of three bytes: the three bytes are
returned. -/
theorem body_capped_at_64KiB_witness :
    (vHttpHandleGetReq (fun _ _ => Except.ok ⟨200, "200 OK", [1, 2, 3], none⟩)
        Client.zero "u" [] []).1 = Except.ok ([1, 2, 3] : List UInt8) :=
  (body_capped_at_64KiB (fun _ _ => Except.ok ⟨200, "200 OK", [1, 2, 3], none⟩)
    Client.zero "u" Json.null [] [] ⟨200, "200 OK", [1, 2, 3], none⟩
    (fun _ => rfl) (Or.inl rfl)).1 rfl

end vclient

namespace vclient

/-! ## The wire shape of address collections -/

theorem unmarshalInto_marshal_item (base a : DevObjectAddress) :
    DevObjectAddress.unmarshalInto base a.marshal = Except.ok a := by
  have h1 : keyMatches "name" "name" = true := by decide
  have h2 : keyMatches "name" "fqdn" = false := by decide
  have h3 : keyMatches "fqdn" "fqdn" = true := by decide
  simp [DevObjectAddress.unmarshalInto, DevObjectAddress.marshal,
    DevObjectAddress.unmarshalFields, unmarshalString, h1, h2, h3]

theorem unmarshalAddresses_marshal (backing items : List DevObjectAddress) :
    unmarshalAddresses backing (items.map DevObjectAddress.marshal) = Except.ok items := by
  induction items generalizing backing with
  | nil => rfl
  | cons a rest ih =>
    simp [unmarshalAddresses, unmarshalInto_marshal_item, ih]

theorem envelope_eq_map_marshal (items : List DevObjectAddress) :
    envelope items = Json.obj [("address", Json.arr (items.map DevObjectAddress.marshal))] := rfl

theorem unmarshalInto_envelope (l : DevObjectsAddressList) (items : List DevObjectAddress) :
    l.unmarshalInto (envelope items) = Except.ok { l with Addresses := items } := by
  have h1 : keyMatches "address" "address" = true := by decide
  rw [envelope_eq_map_marshal]
  cases items with
  | nil =>
    simp [DevObjectsAddressList.unmarshalInto, DevObjectsAddressList.unmarshalFields, h1]
  | cons a rest =>
    have h2 := unmarshalAddresses_marshal (l.Addresses ++ []) (a :: rest)
    rw [List.map_cons] at h2
    simp only [DevObjectsAddressList.unmarshalInto, DevObjectsAddressList.unmarshalFields, h1,
      if_true, List.map_cons, h2]

theorem unmarshalInto_marshal (l0 l : DevObjectsAddressList) :
    l0.unmarshalInto l.marshal = Except.ok { l0 with Addresses := l.Addresses } := by
  cases hl : l.Addresses with
  | nil =>
    have h1 : keyMatches "address" "address" = true := by decide
    simp [DevObjectsAddressList.marshal, hl, DevObjectsAddressList.unmarshalInto,
      DevObjectsAddressList.unmarshalFields, h1]
  | cons a rest =>
    have hne : l.Addresses ≠ [] := by rw [hl]; exact List.cons_ne_nil _ _
    rw [marshal_nonempty l hne, unmarshalInto_envelope, hl]

/-- The decoder honours existing elements: when the key `address` comes twice,
the elements of the second array are decoded into those of the first. -/
theorem unmarshalInto_repeated_key :
    DevObjectsAddressList.zero.unmarshalInto
      (Json.obj [("address", Json.arr [Json.obj [("name", Json.str "a"), ("fqdn", Json.str "x")]]),
                 ("address", Json.arr [Json.obj [("name", Json.str "b")]])])
      = Except.ok ⟨"", "", 0, [⟨"b", "x"⟩]⟩ := by
  rfl

/-- A number under the key `address` is rejected with the type error of the
struct field. -/
theorem unmarshalInto_number_under_address :
    DevObjectsAddressList.zero.unmarshalInto (Json.obj [("address", Json.num 5)])
      = Except.error ("json: cannot unmarshal number into Go struct field " ++
          "DevObjectsAddressList.address of type []vclient.DevObjectAddress") := by
  rfl

/-- A number under the key `name` of an element is rejected with the type
error of the field, named by its path from the top of the document. -/
theorem unmarshalInto_number_under_name :
    DevObjectsAddressList.zero.unmarshalInto
      (Json.obj [("address", Json.arr [Json.obj [("name", Json.num 5)]])])
      = Except.error ("json: cannot unmarshal number into Go struct field " ++
          "DevObjectAddress.address.name of type string") := by
  rfl

/-! ## Go strings as bytes -/

theorem toNat_ofNat_lt (n : Nat) (h : n < 256) : (UInt8.ofNat n).toNat = n := by
  simp [UInt8.toNat, UInt8.ofNat, Fin.ofNat]; omega

theorem char_valid (c : Char) : c.toNat < 0xD800 ∨ (0xDFFF < c.toNat ∧ c.toNat < 0x110000) :=
  c.valid

theorem DecodeRune_one (s0 : Nat) (tail : List Nat) (h0 : s0 < 0x80) :
    DecodeRune (s0 :: tail) = (Char.ofNat s0, 1) := by
  unfold DecodeRune
  simp only [if_pos h0]

theorem DecodeRune_two (s0 s1 : Nat) (tail : List Nat) (h0 : 0xC2 ≤ s0 ∧ s0 ≤ 0xDF)
    (h1 : 0x80 ≤ s1 ∧ s1 ≤ 0xBF) :
    DecodeRune (s0 :: s1 :: tail) = (Char.ofNat (s0 % 32 * 64 + s1 % 64), 2) := by
  have hsz : (if s0 < 0xE0 then 2 else if s0 < 0xF0 then 3 else 4) = 2 := by
    rw [if_pos (by omega)]
  have hlo : acceptLo s0 = 0x80 := by
    unfold acceptLo; rw [if_neg (by omega), if_neg (by omega)]
  have hhi : acceptHi s0 = 0xBF := by
    unfold acceptHi; rw [if_neg (by omega), if_neg (by omega)]
  unfold DecodeRune
  simp only [hsz, hlo, hhi, List.length_cons, List.getD_cons_zero]
  rw [if_neg (by omega), if_neg (by omega), if_neg (by omega), if_neg (by omega),
    if_pos (by omega)]

theorem DecodeRune_three (s0 s1 s2 : Nat) (tail : List Nat) (h0 : 0xE0 ≤ s0 ∧ s0 ≤ 0xEF)
    (h1 : acceptLo s0 ≤ s1 ∧ s1 ≤ acceptHi s0) (h2 : 0x80 ≤ s2 ∧ s2 ≤ 0xBF) :
    DecodeRune (s0 :: s1 :: s2 :: tail)
      = (Char.ofNat (s0 % 16 * 4096 + s1 % 64 * 64 + s2 % 64), 3) := by
  have hsz : (if s0 < 0xE0 then 2 else if s0 < 0xF0 then 3 else 4) = 3 := by
    rw [if_neg (by omega), if_pos (by omega)]
  unfold DecodeRune
  simp only [hsz, List.length_cons, List.getD_cons_zero, List.getD_cons_succ]
  rw [if_neg (by omega), if_neg (by omega), if_neg (by omega), if_neg (by omega),
    if_neg (by omega), if_neg (by omega), if_pos (by omega)]

theorem DecodeRune_four (s0 s1 s2 s3 : Nat) (tail : List Nat) (h0 : 0xF0 ≤ s0 ∧ s0 ≤ 0xF4)
    (h1 : acceptLo s0 ≤ s1 ∧ s1 ≤ acceptHi s0) (h2 : 0x80 ≤ s2 ∧ s2 ≤ 0xBF)
    (h3 : 0x80 ≤ s3 ∧ s3 ≤ 0xBF) :
    DecodeRune (s0 :: s1 :: s2 :: s3 :: tail)
      = (Char.ofNat (s0 % 8 * 262144 + s1 % 64 * 4096 + s2 % 64 * 64 + s3 % 64), 4) := by
  have hsz : (if s0 < 0xE0 then 2 else if s0 < 0xF0 then 3 else 4) = 4 := by
    rw [if_neg (by omega), if_neg (by omega)]
  unfold DecodeRune
  simp only [hsz, List.length_cons, List.getD_cons_zero, List.getD_cons_succ]
  rw [if_neg (by omega), if_neg (by omega), if_neg (by omega), if_neg (by omega),
    if_neg (by omega), if_neg (by omega), if_neg (by omega), if_neg (by omega)]

theorem acceptLo_eq (s0 : Nat) :
    acceptLo s0 = if s0 = 0xE0 then 0xA0 else if s0 = 0xF0 then 0x90 else 0x80 := rfl

theorem acceptHi_eq (s0 : Nat) :
    acceptHi s0 = if s0 = 0xED then 0x9F else if s0 = 0xF4 then 0x8F else 0xBF := rfl

theorem DecodeRune_EncodeRune (c : Char) (tail : List Nat) :
    DecodeRune (EncodeRune c ++ tail) = (c, (EncodeRune c).length) := by
  have hv := char_valid c
  have hc := Char.ofNat_toNat c
  unfold EncodeRune
  simp only []
  generalize c.toNat = n at hv hc
  by_cases h1 : n < 0x80
  · rw [if_pos h1]
    exact (DecodeRune_one n tail h1).trans (by rw [hc]; rfl)
  · rw [if_neg h1]
    by_cases h2 : n < 0x800
    · rw [if_pos h2]
      have e : (0xC0 + n / 64) % 32 * 64 + (0x80 + n % 64) % 64 = n := by omega
      refine (DecodeRune_two _ _ tail (by omega) (by omega)).trans ?_
      rw [e, hc]; rfl
    · rw [if_neg h2]
      by_cases h3 : n < 0x10000
      · rw [if_pos h3]
        have e : (0xE0 + n / 4096) % 16 * 4096 + (0x80 + n / 64 % 64) % 64 * 64
            + (0x80 + n % 64) % 64 = n := by omega
        have hlo := acceptLo_eq (0xE0 + n / 4096)
        have hhi := acceptHi_eq (0xE0 + n / 4096)
        refine (DecodeRune_three _ _ _ tail (by omega) ?_ (by omega)).trans ?_
        · constructor
          · rw [hlo]; split_ifs <;> omega
          · rw [hhi]; split_ifs <;> omega
        rw [e, hc]; rfl
      · rw [if_neg h3]
        have e : (0xF0 + n / 262144) % 8 * 262144 + (0x80 + n / 4096 % 64) % 64 * 4096
            + (0x80 + n / 64 % 64) % 64 * 64 + (0x80 + n % 64) % 64 = n := by omega
        have hlo := acceptLo_eq (0xF0 + n / 262144)
        have hhi := acceptHi_eq (0xF0 + n / 262144)
        refine (DecodeRune_four _ _ _ _ tail (by omega) ?_ (by omega) (by omega)).trans ?_
        · constructor
          · rw [hlo]; split_ifs <;> omega
          · rw [hhi]; split_ifs <;> omega
        rw [e, hc]; rfl

theorem EncodeRune_length_pos (c : Char) : 0 < (EncodeRune c).length := by
  unfold EncodeRune
  simp only []
  split_ifs <;> simp

theorem EncodeRune_ne_nil (c : Char) : ∃ b bs, EncodeRune c = b :: bs := by
  unfold EncodeRune
  simp only []
  split_ifs <;> exact ⟨_, _, rfl⟩

theorem decodeRunesFuel_encodeRunes (cs : List Char) (fuel : Nat)
    (hfuel : (encodeRunes cs).length ≤ fuel) :
    decodeRunesFuel fuel (encodeRunes cs) = cs := by
  induction cs generalizing fuel with
  | nil => cases fuel <;> rfl
  | cons c cs ih =>
    obtain ⟨b, bs, hb⟩ := EncodeRune_ne_nil c
    have hd := DecodeRune_EncodeRune c (encodeRunes cs)
    simp only [encodeRunes, hb, List.cons_append, List.length_cons, List.length_append] at hfuel hd ⊢
    cases fuel with
    | zero => omega
    | succ f =>
      have hdrop : (b :: (bs ++ encodeRunes cs)).drop (bs.length + 1) = encodeRunes cs := by
        rw [List.drop_succ_cons, List.drop_left]
      simp only [decodeRunesFuel, hd, hdrop]
      rw [ih f (by omega)]

theorem decodeRunes_encodeRunes (cs : List Char) : decodeRunes (encodeRunes cs) = cs :=
  decodeRunesFuel_encodeRunes cs _ (Nat.le_refl _)

theorem DecodeRune_size_pos (s0 : Nat) (rest : List Nat) :
    1 ≤ (DecodeRune (s0 :: rest)).2 := by
  unfold DecodeRune
  simp only []
  split_ifs <;> simp

theorem decodeRunesFuel_of_le (fuel fuel2 : Nat) (s : List Nat) (h : s.length ≤ fuel)
    (h2 : s.length ≤ fuel2) : decodeRunesFuel fuel s = decodeRunesFuel fuel2 s := by
  induction fuel generalizing fuel2 s with
  | zero =>
    cases s with
    | nil => cases fuel2 <;> rfl
    | cons s0 rest => simp at h
  | succ f ih =>
    cases s with
    | nil => cases fuel2 <;> rfl
    | cons s0 rest =>
      cases fuel2 with
      | zero => simp at h2
      | succ f2 =>
        have hpos := DecodeRune_size_pos s0 rest
        simp only [List.length_cons] at h h2
        have hlen : ((s0 :: rest).drop (DecodeRune (s0 :: rest)).2).length ≤ rest.length := by
          rw [List.length_drop, List.length_cons]; omega
        simp only [decodeRunesFuel]
        rw [ih f2 _ (by omega) (by omega)]

theorem EncodeRune_lt (c : Char) : ∀ b ∈ EncodeRune c, b < 256 := by
  have hv := char_valid c
  unfold EncodeRune
  simp only []
  generalize c.toNat = n at hv
  split_ifs <;> simp <;> omega

theorem encodeRunes_lt (cs : List Char) : ∀ b ∈ encodeRunes cs, b < 256 := by
  induction cs with
  | nil => simp [encodeRunes]
  | cons c cs ih =>
    intro b hb
    simp only [encodeRunes, List.mem_append] at hb
    rcases hb with hb | hb
    · exact EncodeRune_lt c b hb
    · exact ih b hb

theorem map_toNat_ofNat (l : List Nat) (h : ∀ b ∈ l, b < 256) :
    (l.map UInt8.ofNat).map UInt8.toNat = l := by
  induction l with
  | nil => rfl
  | cons b l ih =>
    simp only [List.map_cons]
    rw [toNat_ofNat_lt b (h b (List.mem_cons_self _ _)),
      ih (fun x hx => h x (List.mem_cons_of_mem _ hx))]

theorem jsonText_goBytes (t : String) : jsonText (goBytes t) = t := by
  unfold jsonText goBytes
  rw [map_toNat_ofNat _ (encodeRunes_lt _), decodeRunes_encodeRunes]
  cases t
  rfl


theorem written_stored (a : DevObjectAddress) :
    DevObjectAddressBytes.written (DevObjectAddressBytes.stored a) = a := by
  cases a
  simp [DevObjectAddressBytes.written, DevObjectAddressBytes.stored, jsonText_goBytes]

theorem wireRoundTrip_eq (addresses : List DevObjectAddressBytes) :
    wireRoundTrip addresses = Except.ok
      (addresses.map (fun a => DevObjectAddressBytes.stored (DevObjectAddressBytes.written a))) := by
  simp only [wireRoundTrip, unmarshalInto_marshal, List.map_map]
  rfl

theorem stored_written_of_valid (a : DevObjectAddressBytes)
    (h : validUTF8 a.Name ∧ validUTF8 a.FQDN) :
    DevObjectAddressBytes.stored (DevObjectAddressBytes.written a) = a := by
  obtain ⟨⟨n, hn⟩, ⟨f, hf⟩⟩ := h
  cases a with
  | mk Name FQDN =>
    simp only at hn hf
    subst hn
    subst hf
    simp only [DevObjectAddressBytes.stored, DevObjectAddressBytes.written, jsonText_goBytes]

/-- C14 as stated fails: a Go string need not be valid UTF-8, and
`json.Marshal` writes every byte that starts no UTF-8 encoded character as
U+FFFD. The collection of the one address whose name is the single byte 0xFF
and whose fqdn is empty comes back from the wire round trip with the name of
three bytes EF BF BD, the encoding of U+FFFD; the byte 0xFF is not valid
UTF-8. -/
theorem wire_round_trip_invalid_utf8_counterexample :
    wireRoundTrip [⟨[0xFF], []⟩] = Except.ok [⟨[0xEF, 0xBF, 0xBD], []⟩] ∧
    wireRoundTrip [⟨[0xFF], []⟩] ≠ Except.ok [⟨[0xFF], []⟩] ∧
    ¬ validUTF8 [0xFF] := by
  have h1 : wireRoundTrip [⟨[0xFF], []⟩] = Except.ok [⟨[0xEF, 0xBF, 0xBD], []⟩] := by
    rw [wireRoundTrip_eq]
    exact congrArg Except.ok (by decide)
  refine ⟨h1, ?_, ?_⟩
  · rw [h1]
    intro h
    injection h with h
    revert h
    decide
  · rintro ⟨t, ht⟩
    have h2 := jsonText_goBytes t
    rw [ht] at h2
    rw [← h2] at ht
    revert ht
    decide

/-- C14, amended: the wire round trip for addresses whose names and fqdn
values are valid UTF-8. Encoding such a collection as create, update and delete
do and decoding the document as the fetch does yields the same addresses: same
length, same names and fqdn values in the same order, an empty fqdn included.
On the text the structures hold this reads: decoding the document written for
a collection gives its address list, also for the envelope of one item that
update and delete write. -/
theorem wire_round_trip_valid_utf8 (addresses : List DevObjectAddressBytes)
    (hvalid : ∀ a ∈ addresses, validUTF8 a.Name ∧ validUTF8 a.FQDN) :
    wireRoundTrip addresses = Except.ok addresses ∧
    (∀ l : DevObjectsAddressList,
      DevObjectsAddressList.zero.unmarshalInto l.marshal
        = Except.ok { DevObjectsAddressList.zero with Addresses := l.Addresses }) ∧
    (∀ val : DevObjectAddress,
      DevObjectsAddressList.zero.unmarshalInto
        (DevObjectsAddressList.marshal { DevObjectsAddressList.zero with
          Addresses := DevObjectsAddressList.zero.Addresses ++ [val] })
      = Except.ok { DevObjectsAddressList.zero with Addresses := [val] }) := by
  refine ⟨?_, fun l => unmarshalInto_marshal _ l, fun val => unmarshalInto_marshal _ _⟩
  rw [wireRoundTrip_eq]
  congr 1
  have hmap : ∀ (l : List DevObjectAddressBytes),
      (∀ a ∈ l, validUTF8 a.Name ∧ validUTF8 a.FQDN) →
      l.map (fun a => DevObjectAddressBytes.stored (DevObjectAddressBytes.written a)) = l := by
    intro l
    induction l with
    | nil => intro _; rfl
    | cons a rest ih =>
      intro h
      rw [List.map_cons, stored_written_of_valid a (h a (List.mem_cons_self _ _)),
        ih (fun x hx => h x (List.mem_cons_of_mem _ hx))]
  exact hmap addresses hvalid

/-- C14, amended, at a collection of two items: the name of the first is the
two bytes C3 A9 of a small e with acute accent and its fqdn is empty. -/
theorem wire_round_trip_valid_utf8_witness :
    wireRoundTrip [⟨[0xC3, 0xA9], []⟩, ⟨[0x62], [0x79]⟩]
      = Except.ok [⟨[0xC3, 0xA9], []⟩, ⟨[0x62], [0x79]⟩] :=
  (wire_round_trip_valid_utf8 [⟨[0xC3, 0xA9], []⟩, ⟨[0x62], [0x79]⟩]
    (by
      intro a ha
      simp only [List.mem_cons, List.mem_singleton, List.not_mem_nil, or_false] at ha
      rcases ha with rfl | rfl
      · exact ⟨⟨"é", by decide⟩, ⟨"", by decide⟩⟩
      · exact ⟨⟨"b", by decide⟩, ⟨"y", by decide⟩⟩)).1

/-! ## Fetching the address collection -/

/-- The GET that fetches the addresses of a device and organization. -/
theorem GetDeviceOrganizationAddresses_eq (parse : List UInt8 → Except String Json)
    (net : Net) (c : Client) (device org : String) (hist : List Request) :
    GetDeviceOrganizationAddresses parse net c device org hist =
      (match (vHttpHandleGetReq net c (addressesURL c device org ++ "/address") [] hist).1 with
        | Except.error err => Except.error err
        | Except.ok data => jsonUnmarshalAddressList parse data DevObjectsAddressList.zero,
       hist ++ [⟨"GET", addressesURL c device org ++ "/address", [], requestHeader c, none⟩]) := by
  have hurl : "https://" ++ c.Config.ServerIP ++ ":" ++ Itoa c.Config.ServerPort ++ "/" ++
      vmsDirectorDevicesURL ++ "/" ++ device ++ "/" ++
      vmsDirectorOrgServicesURL ++ "/" ++ org ++ "/" ++
      vmsDirectorObjectsAddressesURL ++ "/" ++ "address"
      = addressesURL c device org ++ "/address" := by
    have h4 : "/" ++ "address" = "/address" := by decide
    rw [← collectionURL_eq, ← h4]
    simp only [String.append_assoc]
  have hhist : (vHttpHandleGetReq net c (addressesURL c device org ++ "/address") [] hist).2 =
      hist ++ [⟨"GET", addressesURL c device org ++ "/address", [], requestHeader c, none⟩] := by
    unfold vHttpHandleGetReq
    dsimp only
    split
    · rfl
    · split <;> rfl
  simp only [GetDeviceOrganizationAddresses, hurl]
  rcases hres : vHttpHandleGetReq net c (addressesURL c device org ++ "/address") [] hist
    with ⟨res, hist1⟩
  rw [hres] at hhist
  simp only at hhist
  subst hhist
  cases res with
  | error err => rfl
  | ok data =>
    simp only
    cases jsonUnmarshalAddressList parse data DevObjectsAddressList.zero <;> rfl

/-- A 200 response whose body is the JSON text of the empty object (the two
bytes of an opening and a closing brace) is decoded without error into an empty
collection. -/
theorem fetch_empty_object :
    (GetDeviceOrganizationAddresses
      (fun data => if data = [123, 125] then Except.ok (Json.obj [])
        else Except.error "invalid character")
      (fun _ _ => Except.ok ⟨200, "200 OK", [123, 125], none⟩)
      Client.zero "Branch-1" "ACME" []).1 = Except.ok DevObjectsAddressList.zero := by
  rw [GetDeviceOrganizationAddresses_eq]
  simp [vHttpHandleGetReq, readLimited, jsonUnmarshalAddressList,
    DevObjectsAddressList.unmarshalInto, DevObjectsAddressList.unmarshalFields]

theorem paddedEnvelopeBody_length : paddedEnvelopeBody.length = 65544 := by
  rw [paddedEnvelopeBody, List.length_append, List.length_replicate]
  rfl

theorem paddedEnvelopeBody_take_ne :
    paddedEnvelopeBody.take 65536 ≠ paddedEnvelopeBody := by
  intro h
  have h2 := congrArg List.length h
  rw [List.length_take, paddedEnvelopeBody_length] at h2
  omega

theorem paddedEnvelopeBody_long :
    65536 ≤ (⟨200, "200 OK", paddedEnvelopeBody, none⟩ : Response).Body.length := by
  show 65536 ≤ paddedEnvelopeBody.length
  rw [paddedEnvelopeBody_length]; omega

/-- On a 200 response whose body is readable, the fetch is the decoding of the
first 65536 bytes of the body. -/
theorem fetch_of_response (parse : List UInt8 → Except String Json) (net : Net) (c : Client)
    (device org : String) (hist : List Request) (resp : Response)
    (hnet : ∀ req, net hist req = Except.ok resp) (hstatus : resp.StatusCode = 200)
    (hread : resp.BodyErr = none ∨ 65536 ≤ resp.Body.length) :
    (GetDeviceOrganizationAddresses parse net c device org hist).1 =
      jsonUnmarshalAddressList parse (resp.Body.take 65536) DevObjectsAddressList.zero := by
  have hget : (vHttpHandleGetReq net c (addressesURL c device org ++ "/address") [] hist).1
      = Except.ok (resp.Body.take 65536) := by
    rw [vHttpHandleGetReq_result net c _ [] hist resp hnet,
      readLimited_of_readable resp hread]
    simp [hstatus]
  rw [GetDeviceOrganizationAddresses_eq]
  simp only [hget]

theorem jsonUnmarshalAddressList_error (parse : List UInt8 → Except String Json)
    (data : List UInt8) (l : DevObjectsAddressList) (err : String)
    (h : parse data = Except.error err) :
    jsonUnmarshalAddressList parse data l = Except.error err := by
  simp only [jsonUnmarshalAddressList, h]

/-- C15 as stated fails: a 200 response whose body is an envelope, here the
envelope of the empty list after 65530 spaces, 65544 bytes in all, is cut at
65536 bytes before it is decoded, and the fetch returns the error of the
reading of the cut bytes instead of the items. -/
theorem fetch_long_body_counterexample :
    (fun data => if data = paddedEnvelopeBody then Except.ok (envelope [])
        else Except.error "unexpected end of JSON input" :
      List UInt8 → Except String Json) paddedEnvelopeBody = Except.ok (envelope []) ∧
    (GetDeviceOrganizationAddresses
      (fun data => if data = paddedEnvelopeBody then Except.ok (envelope [])
        else Except.error "unexpected end of JSON input")
      (fun _ _ => Except.ok ⟨200, "200 OK", paddedEnvelopeBody, none⟩)
      Client.zero "Branch-1" "ACME" []).1
      = Except.error "unexpected end of JSON input" :=
  ⟨if_pos rfl,
   (fetch_of_response _ _ Client.zero "Branch-1" "ACME" []
      ⟨200, "200 OK", paddedEnvelopeBody, none⟩ (fun _ => rfl) rfl
      (Or.inr paddedEnvelopeBody_long)).trans
    (jsonUnmarshalAddressList_error _ _ _ _ (if_neg paddedEnvelopeBody_take_ne))⟩

/-- C15, amended: the fetch issues exactly one GET, without query parameters,
to the endpoint `.../objects/addresses/address` of the device and
organization, and returns the error of the gateway if the GET fails. On a 200
response whose body is readable, with `data` the first 65536 bytes of the
body: if `data` reads as the envelope of the items, the items are returned in
order; if `data` does not read as JSON, or reads as a document the decoding
rejects, that error is returned with no collection; a document the decoding
accepts, of whatever shape, gives the decoded collection. -/
theorem fetch_addresses (parse : List UInt8 → Except String Json) (net : Net) (c : Client)
    (device org : String) (hist : List Request) :
    (GetDeviceOrganizationAddresses parse net c device org hist).2 =
      hist ++ [⟨"GET",
        "https://" ++ c.Config.ServerIP ++ ":" ++ toString c.Config.ServerPort ++
          "/api/config/devices/device/" ++ device ++
          "/config/orgs/org-services/" ++ org ++ "/objects/addresses" ++ "/address",
        [], requestHeader c, none⟩] ∧
    (∀ err, (vHttpHandleGetReq net c (addressesURL c device org ++ "/address") [] hist).1
        = Except.error err →
      (GetDeviceOrganizationAddresses parse net c device org hist).1 = Except.error err) ∧
    (∀ resp, (∀ req, net hist req = Except.ok resp) → resp.StatusCode = 200 →
      (resp.BodyErr = none ∨ 65536 ≤ resp.Body.length) →
      (∀ items, parse (resp.Body.take 65536) = Except.ok (envelope items) →
        (GetDeviceOrganizationAddresses parse net c device org hist).1
          = Except.ok { DevObjectsAddressList.zero with Addresses := items }) ∧
      (∀ err, parse (resp.Body.take 65536) = Except.error err →
        (GetDeviceOrganizationAddresses parse net c device org hist).1 = Except.error err) ∧
      (∀ doc, parse (resp.Body.take 65536) = Except.ok doc →
        (GetDeviceOrganizationAddresses parse net c device org hist).1
          = DevObjectsAddressList.zero.unmarshalInto doc)) := by
  rw [GetDeviceOrganizationAddresses_eq]
  refine ⟨rfl, ?_, ?_⟩
  · intro err herr
    simp only [herr]
  · intro resp hnet hstatus hread
    have hfetch := fetch_of_response parse net c device org hist resp hnet hstatus hread
    rw [GetDeviceOrganizationAddresses_eq] at hfetch
    rw [hfetch]
    simp only [jsonUnmarshalAddressList]
    refine ⟨?_, ?_, ?_⟩
    · intro items hparse
      simp only [hparse, unmarshalInto_envelope]
    · intro err hparse
      simp only [hparse]
    · intro doc hparse
      simp only [hparse]

/-- C15, amended, at a 200 response whose body reads as the envelope of two
items: the two items are returned in order. -/
theorem fetch_addresses_witness :
    (GetDeviceOrganizationAddresses
      (fun _ => Except.ok (envelope [⟨"a", "x"⟩, ⟨"b", ""⟩]))
      (fun _ _ => Except.ok ⟨200, "200 OK", [1], none⟩)
      Client.zero "Branch-1" "ACME" []).1
      = Except.ok ⟨"", "", 0, [⟨"a", "x"⟩, ⟨"b", ""⟩]⟩ :=
  ((fetch_addresses (fun _ => Except.ok (envelope [⟨"a", "x"⟩, ⟨"b", ""⟩]))
    (fun _ _ => Except.ok ⟨200, "200 OK", [1], none⟩)
    Client.zero "Branch-1" "ACME" []).2.2 ⟨200, "200 OK", [1], none⟩
    (fun _ => rfl) rfl (Or.inl rfl)).1 [⟨"a", "x"⟩, ⟨"b", ""⟩] rfl

end vclient


namespace vclient

/-! ## Token acquisition and client construction -/

theorem vOauthGetToken_request (config : vOauthConfig) :
    (⟨"POST", "https://" ++ config.ServerIP ++ ":" ++ Itoa config.ServerPort ++ "/" ++
        vOauthServerTokenPath, [], [("Content-Type", "application/json")],
      some (oauthParamsJson config)⟩ : Request) = tokenRequest config := by
  have h : "/" ++ vOauthServerTokenPath = "/auth/token" := by decide
  simp only [tokenRequest, oauthParamsJson, Itoa, ← h, String.append_assoc]

theorem vOauthGetToken_eq (env : TokenEnv) (net : Net) (client : Client)
    (hist : List Request) (written : List (String × List UInt8)) :
    vOauthGetToken env net client hist written =
      match net hist (tokenRequest client.Config) with
      | Except.error err => (some err, ⟨client, hist ++ [tokenRequest client.Config], written⟩)
      | Except.ok resp =>
        match readAll resp with
        | Except.error err =>
          (some err, ⟨client, hist ++ [tokenRequest client.Config], written⟩)
        | Except.ok body =>
          match env.unmarshalToken body with
          | Except.error err =>
            (some err, ⟨client, hist ++ [tokenRequest client.Config], written⟩)
          | Except.ok tokenData =>
            (none, ⟨{ client with Token := tokenData },
              hist ++ [tokenRequest client.Config], written ++ [(vOauthTokenFile, body)]⟩) := by
  simp only [vOauthGetToken, vOauthGetToken_request]

theorem vOauthGetToken_sent (env : TokenEnv) (net : Net) (client : Client)
    (hist : List Request) (written : List (String × List UInt8)) :
    (vOauthGetToken env net client hist written).2.sent =
      hist ++ [tokenRequest client.Config] := by
  rw [vOauthGetToken_eq]
  cases net hist (tokenRequest client.Config) with
  | error err => rfl
  | ok resp =>
    simp only
    cases readAll resp with
    | error err => rfl
    | ok body =>
      simp only
      cases env.unmarshalToken body <;> rfl

/-- C16: `vOauthGetToken` hands exactly one request to the network, a POST to
`https://ServerIP:ServerPort/auth/token` whose JSON body is the object with
exactly the five keys client_id, client_secret, grant_type, password and
username bound to the configured values; when the response body is read and
decodes to a token, whatever the status, the call returns no error and the
client's token is the decoded token, all fields replaced. -/
theorem vOauthGetToken_single_post (env : TokenEnv) (net : Net) (client : Client)
    (hist : List Request) (written : List (String × List UInt8)) :
    (vOauthGetToken env net client hist written).2.sent =
      hist ++ [⟨"POST",
        "https://" ++ client.Config.ServerIP ++ ":" ++ toString client.Config.ServerPort ++
          "/auth/token",
        [], [("Content-Type", "application/json")],
        some (Json.obj [("client_id", Json.str client.Config.ClientID),
                        ("client_secret", Json.str client.Config.ClientSecret),
                        ("grant_type", Json.str client.Config.GrantType),
                        ("password", Json.str client.Config.Password),
                        ("username", Json.str client.Config.UserName)])⟩] ∧
    (∀ resp tokenData, net hist (tokenRequest client.Config) = Except.ok resp →
      resp.BodyErr = none → env.unmarshalToken resp.Body = Except.ok tokenData →
      (vOauthGetToken env net client hist written).1 = none ∧
      (vOauthGetToken env net client hist written).2.client
        = { client with Token := tokenData }) := by
  refine ⟨vOauthGetToken_sent env net client hist written, ?_⟩
  intro resp tokenData hnet hbody hjson
  rw [vOauthGetToken_eq]
  simp [hnet, readAll, hbody, hjson]

/-- C16 at a concrete client and a server that answers with a decodable token. -/
theorem vOauthGetToken_single_post_witness :
    (vOauthGetToken
      ⟨fun _ => FileOutcome.openError "no such file", fun _ => Except.ok
        { vOauthServerToken.zero with AccessToken := "tok", ExpiresIn := "-1" }⟩
      (fun _ _ => Except.ok ⟨200, "200 OK", [], none⟩)
      (configuredClient "h" "u" "p" "9182" "id" "sec" "password") [] []).2.client
    = { configuredClient "h" "u" "p" "9182" "id" "sec" "password" with
        Token := { vOauthServerToken.zero with AccessToken := "tok", ExpiresIn := "-1" } } :=
  ((vOauthGetToken_single_post
    ⟨fun _ => FileOutcome.openError "no such file", fun _ => Except.ok
      { vOauthServerToken.zero with AccessToken := "tok", ExpiresIn := "-1" }⟩
    (fun _ _ => Except.ok ⟨200, "200 OK", [], none⟩)
    (configuredClient "h" "u" "p" "9182" "id" "sec" "password") [] []).2
    ⟨200, "200 OK", [], none⟩
    { vOauthServerToken.zero with AccessToken := "tok", ExpiresIn := "-1" } rfl rfl rfl).2

theorem NewClient_eq (env : TokenEnv) (net : Net)
    (host username password port oauthClientId oauthClientSecret oauthGrantType : String)
    (hist : List Request) (written : List (String × List UInt8)) :
    NewClient env net (some host) (some username) (some password) (some port)
        (some oauthClientId) (some oauthClientSecret) (some oauthGrantType) hist written =
      match vOauthReadToken env vOauthTokenFile
          (configuredClient host username password port oauthClientId oauthClientSecret
            oauthGrantType) with
      | (none, c1) => (NewClientOutcome.returned c1, hist, written)
      | (some _, c1) =>
        match vOauthGetToken env net c1 hist written with
        | (some _, st) =>
          (NewClientOutcome.fatal "Authentication token isn't available, aborting",
            st.sent, st.written)
        | (none, st) => (NewClientOutcome.returned st.client, st.sent, st.written) := rfl

theorem vOauthReadToken_eq (env : TokenEnv) (fileName : String) (client : Client) :
    vOauthReadToken env fileName client =
      match loadTokenData env fileName with
      | Except.error err => (some err, client)
      | Except.ok tokenData =>
        if tokenData.ExpiresIn ≠ "-1" then (some "Token expired, Get new one", client)
        else (none, { client with Token := tokenData }) := rfl

theorem vOauthReadToken_failure (env : TokenEnv) (fileName : String) (client : Client)
    (h : (vOauthReadToken env fileName client).1 ≠ none) :
    ∃ err, vOauthReadToken env fileName client = (some err, client) := by
  rw [vOauthReadToken_eq] at h ⊢
  cases hl : loadTokenData env fileName with
  | error err => exact ⟨err, rfl⟩
  | ok tok =>
    rw [hl] at h
    by_cases hexp : tok.ExpiresIn = "-1"
    · simp [hexp] at h
    · exact ⟨"Token expired, Get new one", by simp [hexp]⟩

theorem loadTokenData_error_iff (env : TokenEnv) :
    (∃ e, loadTokenData env vOauthTokenFile = Except.error e) ↔
      ((∃ e, env.readFile vOauthTokenFile = FileOutcome.openError e) ∨
       (∃ e, env.readFile vOauthTokenFile = FileOutcome.readError e) ∨
       (∃ d e, env.readFile vOauthTokenFile = FileOutcome.data d ∧
          env.unmarshalToken d = Except.error e)) := by
  have hlen : vOauthTokenFile.length > 0 := by decide
  unfold loadTokenData
  simp only [hlen, if_true]
  cases hf : env.readFile vOauthTokenFile with
  | openError e => simp
  | readError e => simp
  | data d =>
    cases hu : env.unmarshalToken d with
    | error e => simp [hu]
    | ok tok => simp [hu]

/-- C17: `NewClient` called with all seven arguments. If the token cache
decodes to a token whose `expires_in` is "-1", the returned client holds that
token and no request is handed to the network. If reading the cache fails,
exactly the token request is handed to the network. Reading fails exactly when
the file cannot be opened, cannot be read, does not decode, or decodes to a
token whose `expires_in` is not "-1"; and no request is sent exactly when
reading succeeds. -/
theorem NewClient_cache_then_token (env : TokenEnv) (net : Net)
    (host username password port oauthClientId oauthClientSecret oauthGrantType : String)
    (hist : List Request) (written : List (String × List UInt8)) :
    (∀ tok, loadTokenData env vOauthTokenFile = Except.ok tok → tok.ExpiresIn = "-1" →
      NewClient env net (some host) (some username) (some password) (some port)
          (some oauthClientId) (some oauthClientSecret) (some oauthGrantType) hist written
        = (NewClientOutcome.returned
            { configuredClient host username password port oauthClientId oauthClientSecret
                oauthGrantType with Token := tok }, hist, written)) ∧
    ((vOauthReadToken env vOauthTokenFile
        (configuredClient host username password port oauthClientId oauthClientSecret
          oauthGrantType)).1 ≠ none →
      (NewClient env net (some host) (some username) (some password) (some port)
          (some oauthClientId) (some oauthClientSecret) (some oauthGrantType) hist written).2.1
        = hist ++ [tokenRequest
            (configuredClient host username password port oauthClientId oauthClientSecret
              oauthGrantType).Config]) ∧
    ((vOauthReadToken env vOauthTokenFile
        (configuredClient host username password port oauthClientId oauthClientSecret
          oauthGrantType)).1 ≠ none ↔
      ((∃ e, env.readFile vOauthTokenFile = FileOutcome.openError e) ∨
       (∃ e, env.readFile vOauthTokenFile = FileOutcome.readError e) ∨
       (∃ d e, env.readFile vOauthTokenFile = FileOutcome.data d ∧
          env.unmarshalToken d = Except.error e) ∨
       (∃ tok, loadTokenData env vOauthTokenFile = Except.ok tok ∧ tok.ExpiresIn ≠ "-1"))) ∧
    ((NewClient env net (some host) (some username) (some password) (some port)
          (some oauthClientId) (some oauthClientSecret) (some oauthGrantType) hist written).2.1
        = hist ↔
      (vOauthReadToken env vOauthTokenFile
        (configuredClient host username password port oauthClientId oauthClientSecret
          oauthGrantType)).1 = none) := by
  have hsent : (vOauthReadToken env vOauthTokenFile
        (configuredClient host username password port oauthClientId oauthClientSecret
          oauthGrantType)).1 ≠ none →
      (NewClient env net (some host) (some username) (some password) (some port)
          (some oauthClientId) (some oauthClientSecret) (some oauthGrantType) hist written).2.1
        = hist ++ [tokenRequest
            (configuredClient host username password port oauthClientId oauthClientSecret
              oauthGrantType).Config] := by
    intro hfail
    obtain ⟨err, herr⟩ := vOauthReadToken_failure env _ _ hfail
    rw [NewClient_eq, herr]
    simp only
    have hs := vOauthGetToken_sent env net
      (configuredClient host username password port oauthClientId oauthClientSecret
        oauthGrantType) hist written
    rcases hg : vOauthGetToken env net
      (configuredClient host username password port oauthClientId oauthClientSecret
        oauthGrantType) hist written with ⟨e, st⟩
    rw [hg] at hs
    cases e <;> exact hs
  refine ⟨?_, hsent, ?_, ?_⟩
  · intro tok hload hexp
    rw [NewClient_eq, vOauthReadToken_eq, hload]
    simp [hexp]
  · rw [vOauthReadToken_eq]
    constructor
    · intro hfail
      cases hl : loadTokenData env vOauthTokenFile with
      | error e =>
        rcases (loadTokenData_error_iff env).mp ⟨e, hl⟩ with h | h | h
        · exact Or.inl h
        · exact Or.inr (Or.inl h)
        · exact Or.inr (Or.inr (Or.inl h))
      | ok tok =>
        rw [hl] at hfail
        by_cases hexp : tok.ExpiresIn = "-1"
        · simp [hexp] at hfail
        · exact Or.inr (Or.inr (Or.inr ⟨tok, rfl, hexp⟩))
    · intro h
      have hcases : (∃ e, loadTokenData env vOauthTokenFile = Except.error e) ∨
          (∃ tok, loadTokenData env vOauthTokenFile = Except.ok tok ∧ tok.ExpiresIn ≠ "-1") := by
        rcases h with h | h | h | h
        · exact Or.inl ((loadTokenData_error_iff env).mpr (Or.inl h))
        · exact Or.inl ((loadTokenData_error_iff env).mpr (Or.inr (Or.inl h)))
        · exact Or.inl ((loadTokenData_error_iff env).mpr (Or.inr (Or.inr h)))
        · exact Or.inr h
      rcases hcases with ⟨e, he⟩ | ⟨tok, htok, hexp⟩
      · rw [he]; simp
      · rw [htok]; simp [hexp]
  · constructor
    · intro hsame
      by_contra hfail
      have h2 := hsent hfail
      rw [hsame] at h2
      have h3 := congrArg List.length h2
      simp at h3
    · intro hok
      rw [NewClient_eq]
      rcases hr : vOauthReadToken env vOauthTokenFile
        (configuredClient host username password port oauthClientId oauthClientSecret
          oauthGrantType) with ⟨e, c1⟩
      rw [hr] at hok
      simp only at hok
      subst hok
      rfl

/-- C17 at a cache that holds a token with `expires_in` "-1": the client is
returned with that token and nothing is sent, although the network would
refuse every request. -/
theorem NewClient_cache_then_token_witness :
    NewClient
      ⟨fun _ => FileOutcome.data [], fun _ => Except.ok
        { vOauthServerToken.zero with AccessToken := "tok", ExpiresIn := "-1" }⟩
      (fun _ _ => Except.error "connection refused")
      (some "h") (some "u") (some "p") (some "9182") (some "id") (some "sec")
      (some "password") [] []
    = (NewClientOutcome.returned
        { configuredClient "h" "u" "p" "9182" "id" "sec" "password" with
          Token := { vOauthServerToken.zero with AccessToken := "tok", ExpiresIn := "-1" } },
        [], []) :=
  (NewClient_cache_then_token
    ⟨fun _ => FileOutcome.data [], fun _ => Except.ok
      { vOauthServerToken.zero with AccessToken := "tok", ExpiresIn := "-1" }⟩
    (fun _ _ => Except.error "connection refused")
    "h" "u" "p" "9182" "id" "sec" "password" [] []).1
    { vOauthServerToken.zero with AccessToken := "tok", ExpiresIn := "-1" } rfl rfl

/-- C18: a bad token exchange is fatal: `vOauthGetToken` returns the error
when the POST fails, when the response body cannot be read and when the body
does not decode to a token; and when `NewClient`, after a failed cache read,
gets an error from `vOauthGetToken`, it ends in `log.Fatal` instead of
returning a client. -/
theorem token_exchange_failure_fatal (env : TokenEnv) (net : Net)
    (host username password port oauthClientId oauthClientSecret oauthGrantType : String)
    (hist : List Request) (written : List (String × List UInt8)) :
    (∀ (client : Client) (err : String),
      net hist (tokenRequest client.Config) = Except.error err →
      (vOauthGetToken env net client hist written).1 = some err) ∧
    (∀ (client : Client) (resp : Response) (err : String),
      net hist (tokenRequest client.Config) = Except.ok resp →
      resp.BodyErr = some err →
      (vOauthGetToken env net client hist written).1 = some err) ∧
    (∀ (client : Client) (resp : Response) (err : String),
      net hist (tokenRequest client.Config) = Except.ok resp →
      resp.BodyErr = none → env.unmarshalToken resp.Body = Except.error err →
      (vOauthGetToken env net client hist written).1 = some err) ∧
    ((vOauthReadToken env vOauthTokenFile
        (configuredClient host username password port oauthClientId oauthClientSecret
          oauthGrantType)).1 ≠ none →
      (vOauthGetToken env net
        (configuredClient host username password port oauthClientId oauthClientSecret
          oauthGrantType) hist written).1 ≠ none →
      (NewClient env net (some host) (some username) (some password) (some port)
          (some oauthClientId) (some oauthClientSecret) (some oauthGrantType) hist written).1
        = NewClientOutcome.fatal "Authentication token isn't available, aborting") := by
  refine ⟨?_, ?_, ?_, ?_⟩
  · intro client err hnet
    rw [vOauthGetToken_eq]
    simp [hnet]
  · intro client resp err hnet hbody
    rw [vOauthGetToken_eq]
    simp [hnet, readAll, hbody]
  · intro client resp err hnet hbody hjson
    rw [vOauthGetToken_eq]
    simp [hnet, readAll, hbody, hjson]
  · intro hread hget
    obtain ⟨err, herr⟩ := vOauthReadToken_failure env _ _ hread
    rw [NewClient_eq, herr]
    simp only
    rcases hg : vOauthGetToken env net
      (configuredClient host username password port oauthClientId oauthClientSecret
        oauthGrantType) hist written with ⟨e, st⟩
    rw [hg] at hget
    cases e with
    | none => exact absurd rfl hget
    | some e2 => rfl

/-- C18 at an absent cache file and a server whose answer is not token JSON:
`NewClient` ends in `log.Fatal`. -/
theorem token_exchange_failure_fatal_witness :
    (NewClient
      ⟨fun _ => FileOutcome.openError "no such file", fun _ => Except.error "invalid character"⟩
      (fun _ _ => Except.ok ⟨200, "200 OK", [60], none⟩)
      (some "h") (some "u") (some "p") (some "9182") (some "id") (some "sec")
      (some "password") [] []).1
    = NewClientOutcome.fatal "Authentication token isn't available, aborting" :=
  (token_exchange_failure_fatal
    ⟨fun _ => FileOutcome.openError "no such file", fun _ => Except.error "invalid character"⟩
    (fun _ _ => Except.ok ⟨200, "200 OK", [60], none⟩)
    "h" "u" "p" "9182" "id" "sec" "password" [] []).2.2.2
    (by
      have hlen : vOauthTokenFile.length > 0 := by decide
      simp [vOauthReadToken, loadTokenData, hlen])
    (by simp [vOauthGetToken, readAll])

end vclient


namespace provider

open vclient

/-! ## Errors of the client in the lifecycle handlers -/

/-- C19, the handlers at a failing input: on a network that refuses every
request the client's create, update and delete and the fetch return an error,
and with an empty address list create returns its validation error; yet none
of the handlers Create, Update, Delete and Read adds a diagnostic, and Create,
Update and Read hand a state to the framework as after a success. -/
theorem handlers_swallow_client_error :
    (CreateDevOrgServiceObjAddresses (fun _ _ => Except.error "connection refused")
        Client.zero
        (addrListDataOf ⟨types.StringNull, types.StringValue "Branch-1",
          types.StringValue "Customer-1", types.StringNull,
          [⟨types.StringValue "a", types.StringValue "x"⟩]⟩) []).1
      = some "connection refused" ∧
    (addressResource.Create ⟨fun _ => "", "now", fun _ => Except.error "bad", fun _ => []⟩
        (fun _ _ => Except.error "connection refused") Client.zero []
        ⟨types.StringNull, types.StringValue "Branch-1", types.StringValue "Customer-1",
          types.StringNull, [⟨types.StringValue "a", types.StringValue "x"⟩]⟩ []).Diagnostics
      = [] ∧
    (addressResource.Create ⟨fun _ => "", "now", fun _ => Except.error "bad", fun _ => []⟩
        (fun _ _ => Except.error "connection refused") Client.zero []
        ⟨types.StringNull, types.StringValue "Branch-1", types.StringValue "Customer-1",
          types.StringNull, [⟨types.StringValue "a", types.StringValue "x"⟩]⟩ []).State
      = some ⟨types.StringValue "1", types.StringValue "Branch-1",
          types.StringValue "Customer-1", types.StringValue "now",
          [⟨types.StringValue "a", types.StringValue "x"⟩]⟩ ∧
    (CreateDevOrgServiceObjAddresses (fun _ _ => Except.error "connection refused")
        Client.zero
        (addrListDataOf ⟨types.StringNull, types.StringValue "Branch-1",
          types.StringValue "Customer-1", types.StringNull, []⟩) []).1
      = some "Device Orgs Address creation failed as addresses count is 0" ∧
    (addressResource.Create ⟨fun _ => "", "now", fun _ => Except.error "bad", fun _ => []⟩
        (fun _ _ => Except.error "connection refused") Client.zero []
        ⟨types.StringNull, types.StringValue "Branch-1", types.StringValue "Customer-1",
          types.StringNull, []⟩ []).Diagnostics
      = [] ∧
    (UpdateDevOrgServiceObjAddresses (fun _ _ => Except.error "connection refused")
        Client.zero
        (addrListDataOf ⟨types.StringNull, types.StringValue "Branch-1",
          types.StringValue "Customer-1", types.StringNull,
          [⟨types.StringValue "a", types.StringValue "x"⟩]⟩) []).1
      = some "connection refused" ∧
    (addressResource.Update ⟨fun _ => "", "now", fun _ => Except.error "bad", fun _ => []⟩
        (fun _ _ => Except.error "connection refused") Client.zero []
        ⟨types.StringNull, types.StringValue "Branch-1", types.StringValue "Customer-1",
          types.StringNull, [⟨types.StringValue "a", types.StringValue "x"⟩]⟩ []).Diagnostics
      = [] ∧
    (DeleteDevOrgServiceObjAddresses (fun _ _ => Except.error "connection refused")
        Client.zero
        (addrListDataOf ⟨types.StringNull, types.StringValue "Branch-1",
          types.StringValue "Customer-1", types.StringNull,
          [⟨types.StringValue "a", types.StringValue "x"⟩]⟩) []).1
      = some "connection refused" ∧
    (addressResource.Delete (fun _ _ => Except.error "connection refused") Client.zero []
        ⟨types.StringNull, types.StringValue "Branch-1", types.StringValue "Customer-1",
          types.StringNull, [⟨types.StringValue "a", types.StringValue "x"⟩]⟩ []).Diagnostics
      = [] ∧
    (GetDeviceOrganizationAddresses (fun _ => Except.error "bad")
        (fun _ _ => Except.error "connection refused") Client.zero
        "Branch-1" "Customer-1" []).1
      = Except.error "connection refused" ∧
    (addressResource.Read ⟨fun _ => "", "now", fun _ => Except.error "bad", fun _ => []⟩
        (fun _ _ => Except.error "connection refused") Client.zero []
        ⟨types.StringNull, types.StringValue "Branch-1", types.StringValue "Customer-1",
          types.StringNull, [⟨types.StringValue "a", types.StringValue "x"⟩]⟩ []).Diagnostics
      = [] := by
  refine ⟨?_, ?_, ?_, ?_, ?_, ?_, ?_, ?_, ?_, ?_, ?_⟩
  · rfl
  · rfl
  · rfl
  · rfl
  · rfl
  · rfl
  · rfl
  · rfl
  · rfl
  · rfl
  · rfl

/-! ## A failed read -/

/-- C20: a failed read leaves the prior state untouched except for
bookkeeping: when reading the prior state gives no error diagnostic and the
fetch of `Read` returns an error, the state written back has the device name,
the organization name and the address list of the prior state, item for item;
only `last_updated` (the time of the call) and `id` ("1") are set anew. -/
theorem Read_failed_fetch_keeps_state (env : HandlerEnv) (net : Net) (client : Client)
    (getDiags : List Diagnostic) (state : addressesResourceModel) (hist : List Request)
    (hget : HasError (Append [] getDiags) = false)
    (hfetch : ∃ err,
      (GetDeviceOrganizationAddresses env.parse net client
        (readDeviceName env state (Append [] getDiags)).1
        (readOrganizationName env state (readDeviceName env state (Append [] getDiags)).1
          (readDeviceName env state (Append [] getDiags)).2).1 hist).1 = Except.error err) :
    (addressResource.Read env net client getDiags state hist).State =
      some { state with LastUpdated := types.StringValue env.now, ID := types.StringValue "1" } ∧
    ∃ st, (addressResource.Read env net client getDiags state hist).State = some st ∧
      st.DeviceName = state.DeviceName ∧
      st.OrganizationName = state.OrganizationName ∧
      st.Address = state.Address ∧
      st.LastUpdated = types.StringValue env.now ∧
      st.ID = types.StringValue "1" := by
  obtain ⟨err, herr⟩ := hfetch
  have hstate : (addressResource.Read env net client getDiags state hist).State =
      some { state with LastUpdated := types.StringValue env.now,
                        ID := types.StringValue "1" } := by
    simp only [addressResource.Read, hget, Bool.false_eq_true, if_false, herr]
  exact ⟨hstate, _, hstate, rfl, rfl, rfl, rfl, rfl⟩

/-- C20 at a concrete state and a network that refuses every request. -/
theorem Read_failed_fetch_keeps_state_witness :
    (addressResource.Read ⟨fun _ => "", "now", fun _ => Except.error "bad", fun _ => []⟩
        (fun _ _ => Except.error "connection refused") Client.zero []
        ⟨types.StringValue "0", types.StringValue "Branch-1", types.StringValue "Customer-1",
          types.StringValue "then", [⟨types.StringValue "a", types.StringNull⟩]⟩ []).State
      = some ⟨types.StringValue "1", types.StringValue "Branch-1",
          types.StringValue "Customer-1", types.StringValue "now",
          [⟨types.StringValue "a", types.StringNull⟩]⟩ :=
  (Read_failed_fetch_keeps_state ⟨fun _ => "", "now", fun _ => Except.error "bad", fun _ => []⟩
    (fun _ _ => Except.error "connection refused") Client.zero []
    ⟨types.StringValue "0", types.StringValue "Branch-1", types.StringValue "Customer-1",
      types.StringValue "then", [⟨types.StringValue "a", types.StringNull⟩]⟩ []
    rfl ⟨"connection refused", rfl⟩).1

end provider


namespace vclient

/-! ## The validation guard and the separate count -/

theorem itemLoop_sent_le
    (call : DevObjectAddress → List Request → Except String (List UInt8) × List Request)
    (req : DevObjectAddress → Request)
    (hreq : ∀ it h, (call it h).2 = h ++ [req it]) :
    ∀ (items : List DevObjectAddress) (hist : List Request),
      hist.length ≤ (itemLoop call items hist).2.length := by
  intro items
  induction items with
  | nil => intro hist; simp [itemLoop]
  | cons val rest ih =>
    intro hist
    have h2 := hreq val hist
    rcases hc : call val hist with ⟨res, hist1⟩
    rw [hc] at h2
    simp only at h2
    subst h2
    cases res with
    | error err => simp [itemLoop, hc]
    | ok b =>
      have h3 := ih (hist ++ [req val])
      simp only [itemLoop, hc]
      simp only [List.length_append, List.length_singleton] at h3
      omega

theorem itemLoop_sent_lt
    (call : DevObjectAddress → List Request → Except String (List UInt8) × List Request)
    (req : DevObjectAddress → Request)
    (hreq : ∀ it h, (call it h).2 = h ++ [req it])
    (items : List DevObjectAddress) (hist : List Request) (hne : items ≠ []) :
    hist.length < (itemLoop call items hist).2.length := by
  cases items with
  | nil => exact absurd rfl hne
  | cons val rest =>
    have h2 := hreq val hist
    rcases hc : call val hist with ⟨res, hist1⟩
    rw [hc] at h2
    simp only at h2
    subst h2
    cases res with
    | error err => simp [itemLoop, hc]
    | ok b =>
      have h3 := itemLoop_sent_le call req hreq rest (hist ++ [req val])
      simp only [itemLoop, hc]
      simp only [List.length_append, List.length_singleton] at h3
      omega

theorem guard_iff (count : Int) (items : List DevObjectAddress) :
    (count ≤ 0 ∨ (items.length : Int) ≤ 0) ↔ (count ≤ 0 ∨ items = []) := by
  constructor
  · intro h
    rcases h with h | h
    · exact Or.inl h
    · right
      cases items with
      | nil => rfl
      | cons a rest => simp at h; omega
  · intro h
    rcases h with h | h
    · exact Or.inl h
    · right; rw [h]; simp

theorem Create_sent_of_valid (net : Net) (c : Client) (l : DevObjectsAddressList)
    (hist : List Request) (hvalid : ¬ (l.Count ≤ 0 ∨ l.Addresses = [])) :
    (CreateDevOrgServiceObjAddresses net c ⟨l⟩ hist).2 = hist ++ [postRequestFor c l] := by
  have hguard : ¬ (l.Count ≤ 0 ∨ (l.Addresses.length : Int) ≤ 0) :=
    fun h => hvalid ((guard_iff _ _).mp h)
  have hne : l.Addresses ≠ [] := fun h => hvalid (Or.inr h)
  have h2 := vHttpHandlePostReq_hist net c (addressesURL c l.DeviceName l.OrganizationName)
    (envelope l.Addresses) [] hist
  simp only [CreateDevOrgServiceObjAddresses, hguard, if_false, collectionURL_eq,
    marshal_nonempty l hne]
  rcases hres : vHttpHandlePostReq net c (addressesURL c l.DeviceName l.OrganizationName)
    (envelope l.Addresses) [] hist with ⟨res, hist1⟩
  rw [hres] at h2
  simp only at h2
  subst h2
  cases res <;> rfl

/-- C28: the validation guard of create, update and delete depends on the
separate `Count` as well as on the items: each operation returns its
validation error with the request history unchanged if and only if `Count` is
at most 0 or the item list is empty; so a collection with items and `Count` 0
is rejected. -/
theorem guard_depends_on_count (net : Net) (c : Client) (l : DevObjectsAddressList)
    (hist : List Request) :
    (CreateDevOrgServiceObjAddresses net c ⟨l⟩ hist
        = (some "Device Orgs Address creation failed as addresses count is 0", hist)
      ↔ (l.Count ≤ 0 ∨ l.Addresses = [])) ∧
    (UpdateDevOrgServiceObjAddresses net c ⟨l⟩ hist
        = (some "Device Orgs Address update failed as addresses count is 0", hist)
      ↔ (l.Count ≤ 0 ∨ l.Addresses = [])) ∧
    (DeleteDevOrgServiceObjAddresses net c ⟨l⟩ hist
        = (some "Device Orgs Address deletion failed as addresses count is 0", hist)
      ↔ (l.Count ≤ 0 ∨ l.Addresses = [])) ∧
    (∀ device org items,
      CreateDevOrgServiceObjAddresses net c ⟨⟨device, org, 0, items⟩⟩ hist
        = (some "Device Orgs Address creation failed as addresses count is 0", hist) ∧
      UpdateDevOrgServiceObjAddresses net c ⟨⟨device, org, 0, items⟩⟩ hist
        = (some "Device Orgs Address update failed as addresses count is 0", hist) ∧
      DeleteDevOrgServiceObjAddresses net c ⟨⟨device, org, 0, items⟩⟩ hist
        = (some "Device Orgs Address deletion failed as addresses count is 0", hist)) := by
  refine ⟨⟨?_, ?_⟩, ⟨?_, ?_⟩, ⟨?_, ?_⟩, ?_⟩
  · intro h
    by_contra hvalid
    have hs := Create_sent_of_valid net c l hist hvalid
    rw [h] at hs
    have hl := congrArg List.length hs
    simp at hl
  · intro h
    have hguard := (guard_iff l.Count l.Addresses).mpr h
    unfold CreateDevOrgServiceObjAddresses
    exact if_pos hguard
  · intro h
    by_contra hvalid
    have hcount : 0 < l.Count := by
      by_contra hc
      exact hvalid (Or.inl (by omega))
    have hne : l.Addresses ≠ [] := fun hn => hvalid (Or.inr hn)
    have hlt := itemLoop_sent_lt _ (putRequestFor c l)
      (fun it h => vHttpHandlePutReq_hist net c _ _ [] h) l.Addresses hist hne
    rw [← Update_eq_itemLoop net c l hist hcount hne, h] at hlt
    exact absurd hlt (Nat.lt_irrefl _)
  · intro h
    have hguard := (guard_iff l.Count l.Addresses).mpr h
    unfold UpdateDevOrgServiceObjAddresses
    exact if_pos hguard
  · intro h
    by_contra hvalid
    have hcount : 0 < l.Count := by
      by_contra hc
      exact hvalid (Or.inl (by omega))
    have hne : l.Addresses ≠ [] := fun hn => hvalid (Or.inr hn)
    have hlt := itemLoop_sent_lt _ (deleteRequestFor c l)
      (fun it h => vHttpHandleDeleteReq_hist net c _ _ [] h) l.Addresses hist hne
    rw [← Delete_eq_itemLoop net c l hist hcount hne, h] at hlt
    exact absurd hlt (Nat.lt_irrefl _)
  · intro h
    have hguard := (guard_iff l.Count l.Addresses).mpr h
    unfold DeleteDevOrgServiceObjAddresses
    exact if_pos hguard
  · intro device org items
    simp [CreateDevOrgServiceObjAddresses, UpdateDevOrgServiceObjAddresses,
      DeleteDevOrgServiceObjAddresses]

/-- C28 at a collection with one item and `Count` 0: update rejects it and
sends nothing. -/
theorem guard_depends_on_count_witness :
    UpdateDevOrgServiceObjAddresses (fun _ _ => Except.ok ⟨200, "200 OK", [], none⟩)
        Client.zero ⟨⟨"d", "o", 0, [⟨"a", "x"⟩]⟩⟩ []
      = (some "Device Orgs Address update failed as addresses count is 0", []) :=
  (guard_depends_on_count (fun _ _ => Except.ok ⟨200, "200 OK", [], none⟩)
    Client.zero ⟨"d", "o", 0, [⟨"a", "x"⟩]⟩ []).2.1.mpr (Or.inl (by decide))

/-! ## The token and the status of its response -/

/-- C30: token acquisition does not depend on the HTTP status of the token
response: two responses with the same readable body, whatever their status
codes and status lines, give the same result; when the body decodes to a token
the call returns no error and the client's token is the decoded token, which
does not depend on the token the client held before. -/
theorem token_independent_of_status (env : TokenEnv) (net1 net2 : Net) (client : Client)
    (hist : List Request) (written : List (String × List UInt8))
    (resp1 resp2 : Response) (tokenData : vOauthServerToken)
    (h1 : net1 hist (tokenRequest client.Config) = Except.ok resp1)
    (h2 : net2 hist (tokenRequest client.Config) = Except.ok resp2)
    (hbody : resp1.Body = resp2.Body)
    (herr1 : resp1.BodyErr = none) (herr2 : resp2.BodyErr = none)
    (hjson : env.unmarshalToken resp1.Body = Except.ok tokenData) :
    vOauthGetToken env net1 client hist written = vOauthGetToken env net2 client hist written ∧
    (vOauthGetToken env net1 client hist written).1 = none ∧
    (vOauthGetToken env net1 client hist written).2.client = { client with Token := tokenData } ∧
    (∀ previous : vOauthServerToken,
      (vOauthGetToken env net1 { client with Token := previous } hist written).2.client.Token
        = tokenData) := by
  have hjson2 : env.unmarshalToken resp2.Body = Except.ok tokenData := by rw [← hbody]; exact hjson
  refine ⟨?_, ?_, ?_, ?_⟩
  · rw [vOauthGetToken_eq, vOauthGetToken_eq]
    simp [h1, h2, readAll, herr1, herr2, hjson, hjson2, hbody]
  · rw [vOauthGetToken_eq]
    simp [h1, readAll, herr1, hjson]
  · rw [vOauthGetToken_eq]
    simp [h1, readAll, herr1, hjson]
  · intro previous
    rw [vOauthGetToken_eq]
    simp [h1, readAll, herr1, hjson]

/-- C30 at a server that answers 401 and one that answers 200, both with the
same body: the results are equal. -/
theorem token_independent_of_status_witness :
    vOauthGetToken
      ⟨fun _ => FileOutcome.openError "no such file", fun _ => Except.ok
        { vOauthServerToken.zero with AccessToken := "tok" }⟩
      (fun _ _ => Except.ok ⟨401, "401 Unauthorized", [1], none⟩) Client.zero [] []
    = vOauthGetToken
      ⟨fun _ => FileOutcome.openError "no such file", fun _ => Except.ok
        { vOauthServerToken.zero with AccessToken := "tok" }⟩
      (fun _ _ => Except.ok ⟨200, "200 OK", [1], none⟩) Client.zero [] [] :=
  (token_independent_of_status
    ⟨fun _ => FileOutcome.openError "no such file", fun _ => Except.ok
      { vOauthServerToken.zero with AccessToken := "tok" }⟩
    (fun _ _ => Except.ok ⟨401, "401 Unauthorized", [1], none⟩)
    (fun _ _ => Except.ok ⟨200, "200 OK", [1], none⟩) Client.zero [] []
    ⟨401, "401 Unauthorized", [1], none⟩ ⟨200, "200 OK", [1], none⟩
    { vOauthServerToken.zero with AccessToken := "tok" } rfl rfl rfl rfl rfl rfl).1

end vclient

namespace provider

open vclient

/-! ## What the handlers hand to the client and write back -/

/-- C24: the write set is the whole desired collection: the collection built
from a plan or a state has its device and organization name, an item list
that is the address list mapped element by element (name, fqdn) in the same
order, and `Count` equal to the length of that list; when reading the plan or
state gives no error, Create, Update and Delete hand exactly this collection
to the client operation, whatever any prior state was. -/
theorem write_set_is_whole_collection (env : HandlerEnv) (net : Net) (client : Client)
    (getDiags : List Diagnostic) (model : addressesResourceModel) (hist : List Request)
    (hget : HasError (Append [] getDiags) = false) :
    addrListDataOf model =
      ⟨⟨model.DeviceName.value, model.OrganizationName.value, (model.Address.length : Int),
        model.Address.map (fun val => ⟨val.Name.value, val.FQDN.value⟩)⟩⟩ ∧
    (addrListDataOf model).AddrList.Addresses.length = model.Address.length ∧
    (∀ i (h : i < model.Address.length),
      (addrListDataOf model).AddrList.Addresses[i]? =
        some ⟨model.Address[i].Name.value, model.Address[i].FQDN.value⟩) ∧
    (addressResource.Create env net client getDiags model hist).sent =
      (CreateDevOrgServiceObjAddresses net client (addrListDataOf model) hist).2 ∧
    (addressResource.Update env net client getDiags model hist).sent =
      (UpdateDevOrgServiceObjAddresses net client (addrListDataOf model) hist).2 ∧
    (addressResource.Delete net client getDiags model hist).sent =
      (DeleteDevOrgServiceObjAddresses net client (addrListDataOf model) hist).2 := by
  refine ⟨?_, ?_, ?_, ?_, ?_, ?_⟩
  · simp [addrListDataOf, basetypes.StringValue.ValueString]
  · simp [addrListDataOf]
  · intro i h
    simp [addrListDataOf, basetypes.StringValue.ValueString, h]
  · simp only [addressResource.Create, hget, Bool.false_eq_true, if_false]
  · simp only [addressResource.Update, hget, Bool.false_eq_true, if_false]
  · simp only [addressResource.Delete, hget, Bool.false_eq_true, if_false]

/-- C24 at a plan of two addresses: the create request carries both, in plan
order. -/
theorem write_set_is_whole_collection_witness :
    addrListDataOf ⟨types.StringNull, types.StringValue "Branch-1",
        types.StringValue "Customer-1", types.StringNull,
        [⟨types.StringValue "a", types.StringValue "x"⟩,
         ⟨types.StringValue "b", types.StringNull⟩]⟩
      = ⟨⟨"Branch-1", "Customer-1", 2, [⟨"a", "x"⟩, ⟨"b", ""⟩]⟩⟩ :=
  (write_set_is_whole_collection ⟨fun _ => "", "now", fun _ => Except.error "bad", fun _ => []⟩
    (fun _ _ => Except.error "connection refused") Client.zero []
    ⟨types.StringNull, types.StringValue "Branch-1", types.StringValue "Customer-1",
      types.StringNull,
      [⟨types.StringValue "a", types.StringValue "x"⟩,
       ⟨types.StringValue "b", types.StringNull⟩]⟩ [] rfl).1

/-- C26: when reading the plan gives no error, the state that Create writes,
and the state that Update writes, is the plan with `id` set to "1" and
`last_updated` set to the known value of the current time: device name,
organization name and address list are those of the plan, item for item. -/
theorem Create_Update_write_plan (env : HandlerEnv) (net : Net) (client : Client)
    (getDiags : List Diagnostic) (plan : addressesResourceModel) (hist : List Request)
    (hget : HasError (Append [] getDiags) = false) :
    (addressResource.Create env net client getDiags plan hist).State =
      some { plan with LastUpdated := types.StringValue env.now, ID := types.StringValue "1" } ∧
    (addressResource.Update env net client getDiags plan hist).State =
      some { plan with LastUpdated := types.StringValue env.now, ID := types.StringValue "1" } ∧
    (∀ st, st = ({ plan with LastUpdated := types.StringValue env.now,
                             ID := types.StringValue "1" } : addressesResourceModel) →
      st.DeviceName = plan.DeviceName ∧ st.OrganizationName = plan.OrganizationName ∧
      st.Address = plan.Address ∧ st.ID = types.StringValue "1" ∧
      st.LastUpdated.IsNull = false ∧ st.LastUpdated.IsUnknown = false) := by
  refine ⟨?_, ?_, ?_⟩
  · simp only [addressResource.Create, hget, Bool.false_eq_true, if_false]
  · simp only [addressResource.Update, hget, Bool.false_eq_true, if_false]
  · intro st hst
    subst hst
    exact ⟨rfl, rfl, rfl, rfl, rfl, rfl⟩

/-- C26 at the plan of the acceptance test: one address. -/
theorem Create_Update_write_plan_witness :
    (addressResource.Create ⟨fun _ => "", "now", fun _ => Except.error "bad", fun _ => []⟩
        (fun _ _ => Except.ok ⟨201, "201 Created", [], none⟩) Client.zero []
        ⟨types.StringNull, types.StringValue "Branch-1", types.StringValue "Customer-1",
          types.StringNull,
          [⟨types.StringValue "versa-networks-addresses-1",
            types.StringValue "versa-networks.com/addresses-1"⟩]⟩ []).State
      = some ⟨types.StringValue "1", types.StringValue "Branch-1",
          types.StringValue "Customer-1", types.StringValue "now",
          [⟨types.StringValue "versa-networks-addresses-1",
            types.StringValue "versa-networks.com/addresses-1"⟩]⟩ :=
  (Create_Update_write_plan ⟨fun _ => "", "now", fun _ => Except.error "bad", fun _ => []⟩
    (fun _ _ => Except.ok ⟨201, "201 Created", [], none⟩) Client.zero []
    ⟨types.StringNull, types.StringValue "Branch-1", types.StringValue "Customer-1",
      types.StringNull,
      [⟨types.StringValue "versa-networks-addresses-1",
        types.StringValue "versa-networks.com/addresses-1"⟩]⟩ [] rfl).1

/-! ## Name uniqueness under the read-merge -/

theorem readMerge_names_nodup (r : List DevObjectAddress) :
    ∀ d : List addressItemModel, (d.map (fun e => e.Name)).Nodup →
      ((readMerge d r).map (fun e => e.Name)).Nodup := by
  induction r with
  | nil => intro d hd; exact hd
  | cons o r ih =>
    intro d hd
    rw [readMerge_cons]
    exact ih _ (readMergeStep_names_nodup d o hd)

theorem readMerge_append (d : List addressItemModel) (r1 r2 : List DevObjectAddress) :
    readMerge d (r1 ++ r2) = readMerge (readMerge d r1) r2 := by
  simp [readMerge, List.foldl_append]

theorem overwriteFirst_mem (c : addressDataModel) (s : List addressItemModel)
    (h : (overwriteFirst c s).1 = true) :
    addressItemModel.ofData c ∈ (overwriteFirst c s).2 := by
  induction s with
  | nil => simp [overwriteFirst] at h
  | cons a s ih =>
    by_cases hn : a.Name = c.Name
    · simp [overwriteFirst, hn]
    · simp only [overwriteFirst, hn, if_false] at h ⊢
      exact List.mem_cons_of_mem _ (ih h)

theorem remoteItem_mem_readMergeStep (s : List addressItemModel) (o : DevObjectAddress) :
    remoteItem o ∈ readMergeStep s o := by
  rw [readMergeStep_eq]
  by_cases hf : (overwriteFirst (configAddrDataOf o) s).1 = true
  · simp only [hf, if_true]
    exact overwriteFirst_mem _ s hf
  · simp only [hf, Bool.false_eq_true, if_false]
    simp

/-- C27: the read-merge preserves name uniqueness: when the desired names are
pairwise distinct, the names of the merged list are pairwise distinct for
every remote list, also one that repeats a name; and the last remote object
of each remote name is in the merged list and is its only entry of that name. -/
theorem readMerge_unique_names (d : List addressItemModel) (r : List DevObjectAddress)
    (hd : (d.map (fun e => e.Name)).Nodup) :
    ((readMerge d r).map (fun e => e.Name)).Nodup ∧
    ∀ (r1 : List DevObjectAddress) (o : DevObjectAddress) (r2 : List DevObjectAddress),
      r = r1 ++ o :: r2 → (∀ x ∈ r2, x.Name ≠ o.Name) →
      remoteItem o ∈ readMerge d r ∧
      ∀ e ∈ readMerge d r, e.Name = types.StringValue o.Name → e = remoteItem o := by
  have hnd := readMerge_names_nodup r d hd
  refine ⟨hnd, ?_⟩
  intro r1 o r2 hr hlast
  have hmem : remoteItem o ∈ readMerge d r := by
    rw [hr, readMerge_append, readMerge_cons]
    obtain ⟨i, hi⟩ := List.mem_iff_getElem?.mp
      (remoteItem_mem_readMergeStep (readMerge d r1) o)
    obtain ⟨e2, h2, _, hkeep⟩ :=
      readMerge_getElem r2 (readMergeStep (readMerge d r1) o) i (remoteItem o) hi
    have he2 : e2 = remoteItem o := by
      apply hkeep
      intro x hx heq
      exact hlast x hx (StringValue_injective _ _ heq)
    rw [he2] at h2
    exact List.mem_iff_getElem?.mpr ⟨i, h2⟩
  refine ⟨hmem, ?_⟩
  intro e he hname
  exact List.inj_on_of_nodup_map hnd he hmem hname

/-- C27 at an empty desired list and a remote list that names "a" twice: the
merged names are distinct. -/
theorem readMerge_unique_names_witness :
    ((readMerge [] [⟨"a", "x"⟩, ⟨"a", "y"⟩]).map (fun e => e.Name)).Nodup :=
  (readMerge_unique_names [] [⟨"a", "x"⟩, ⟨"a", "y"⟩] List.nodup_nil).1

/-! ## Missing scope values in the reads -/

/-- C21, the reads at a failing input: the device name is empty in the state
(or configuration) and in the environment, the organization is "ACME". The
resource `Read` and the data source `Read` both report the attribute error,
and both still hand the GET of the fetch, with an empty device segment, to the
network. -/
theorem reads_fetch_without_device_name :
    (addressResource.Read ⟨fun _ => "", "now", fun _ => Except.error "bad", fun _ => []⟩
        (fun _ _ => Except.error "connection refused") Client.zero []
        ⟨types.StringNull, types.StringNull, types.StringValue "ACME", types.StringNull, []⟩
        []).Diagnostics
      = [⟨Severity.SeverityError, some "deviceName", "Missing deviceName for versaDirector API",
          missingDeviceNameDetail "VERSA_VOS_DEVICE_NAME"⟩] ∧
    (addressResource.Read ⟨fun _ => "", "now", fun _ => Except.error "bad", fun _ => []⟩
        (fun _ _ => Except.error "connection refused") Client.zero []
        ⟨types.StringNull, types.StringNull, types.StringValue "ACME", types.StringNull, []⟩
        []).sent
      = [⟨"GET",
          "https://:0/api/config/devices/device//config/orgs/org-services/ACME/objects/addresses/address",
          [], requestHeader Client.zero, none⟩] ∧
    (addressesDataSource.Read ⟨fun _ => "", "now", fun _ => Except.error "bad", fun _ => []⟩
        (fun _ _ => Except.error "connection refused") Client.zero []
        ⟨types.StringNull, types.StringNull, types.StringValue "ACME", types.StringNull, []⟩
        []).Diagnostics
      = [⟨Severity.SeverityError, some "deviceName", "Missing deviceName for versaDirector API",
          missingDeviceNameDetail "VERSA_VOS_DEVICE_NAME"⟩] ∧
    (addressesDataSource.Read ⟨fun _ => "", "now", fun _ => Except.error "bad", fun _ => []⟩
        (fun _ _ => Except.error "connection refused") Client.zero []
        ⟨types.StringNull, types.StringNull, types.StringValue "ACME", types.StringNull, []⟩
        []).sent
      = [⟨"GET",
          "https://:0/api/config/devices/device//config/orgs/org-services/ACME/objects/addresses/address",
          [], requestHeader Client.zero, none⟩] := by
  refine ⟨?_, ?_, ?_, ?_⟩
  · rfl
  · rfl
  · rfl
  · rfl

/-- C22, the reads at a failing input: the device name is "Branch-1", the
organization name is empty in the state (or configuration) and in the
environment. Neither the resource `Read` nor the data source `Read` reports
any diagnostic, and both fetch with an empty organization segment. -/
theorem reads_miss_empty_organization :
    (addressResource.Read ⟨fun _ => "", "now", fun _ => Except.error "bad", fun _ => []⟩
        (fun _ _ => Except.error "connection refused") Client.zero []
        ⟨types.StringNull, types.StringValue "Branch-1", types.StringNull, types.StringNull, []⟩
        []).Diagnostics = [] ∧
    (addressResource.Read ⟨fun _ => "", "now", fun _ => Except.error "bad", fun _ => []⟩
        (fun _ _ => Except.error "connection refused") Client.zero []
        ⟨types.StringNull, types.StringValue "Branch-1", types.StringNull, types.StringNull, []⟩
        []).sent
      = [⟨"GET",
          "https://:0/api/config/devices/device/Branch-1/config/orgs/org-services//objects/addresses/address",
          [], requestHeader Client.zero, none⟩] ∧
    (addressesDataSource.Read ⟨fun _ => "", "now", fun _ => Except.error "bad", fun _ => []⟩
        (fun _ _ => Except.error "connection refused") Client.zero []
        ⟨types.StringNull, types.StringValue "Branch-1", types.StringNull, types.StringNull, []⟩
        []).Diagnostics = [] ∧
    (addressesDataSource.Read ⟨fun _ => "", "now", fun _ => Except.error "bad", fun _ => []⟩
        (fun _ _ => Except.error "connection refused") Client.zero []
        ⟨types.StringNull, types.StringValue "Branch-1", types.StringNull, types.StringNull, []⟩
        []).sent
      = [⟨"GET",
          "https://:0/api/config/devices/device/Branch-1/config/orgs/org-services//objects/addresses/address",
          [], requestHeader Client.zero, none⟩] := by
  refine ⟨?_, ?_, ?_, ?_⟩
  · rfl
  · rfl
  · rfl
  · rfl

/-! ## The addresses data source -/

theorem foldl_append_singleton_eq_map (f : DevObjectAddress → addressDataModel)
    (l : List DevObjectAddress) :
    ∀ init : List addressDataModel,
      l.foldl (fun address val => address ++ [f val]) init = init ++ l.map f := by
  induction l with
  | nil => intro init; simp
  | cons a l ih => intro init; simp [ih]

theorem dataDeviceName_of_set (env : DataSourceEnv) (config : addressesDataModel)
    (diags : List Diagnostic) (h : 0 < config.DeviceName.value.length) :
    dataDeviceName env config diags = (config.DeviceName.value, diags) := by
  have h2 : ¬ config.DeviceName.value.length ≤ 0 := by omega
  simp [dataDeviceName, basetypes.StringValue.ValueString, h2]

theorem dataOrganizationName_of_set (env : DataSourceEnv) (config : addressesDataModel)
    (deviceName : String) (diags : List Diagnostic)
    (h : 0 < config.OrganizationName.value.length) :
    dataOrganizationName env config deviceName diags = (config.OrganizationName.value, diags) := by
  have h2 : ¬ config.OrganizationName.value.length ≤ 0 := by omega
  simp [dataOrganizationName, basetypes.StringValue.ValueString, h2]

/-- C25: the data source read: for a configuration with a non-empty device
name and organization name and no address entries, when reading the
configuration gives no error and the fetch succeeds, the state written has the
configured device name and organization name as known values and an address
list that is the remote list, item for item in remote order. -/
theorem dataSource_read_lists_remote (env : DataSourceEnv) (net : Net) (client : Client)
    (getDiags : List Diagnostic) (config : addressesDataModel) (hist : List Request)
    (addrData : DevObjectsAddressList)
    (hget : HasError (Append [] getDiags) = false)
    (hdev : 0 < config.DeviceName.value.length)
    (horg : 0 < config.OrganizationName.value.length)
    (haddr : config.Address = [])
    (hfetch : (GetDeviceOrganizationAddresses env.parse net client config.DeviceName.value
      config.OrganizationName.value hist).1 = Except.ok addrData) :
    (addressesDataSource.Read env net client getDiags config hist).State =
      some ⟨types.StringValue "1", types.StringValue config.DeviceName.value,
        types.StringValue config.OrganizationName.value, types.StringValue env.now,
        addrData.Addresses.map
          (fun o => ⟨types.StringValue o.Name, types.StringValue o.FQDN⟩)⟩ ∧
    (config.DeviceName.state = valueState.valueStateKnown →
      types.StringValue config.DeviceName.value = config.DeviceName) ∧
    (config.OrganizationName.state = valueState.valueStateKnown →
      types.StringValue config.OrganizationName.value = config.OrganizationName) := by
  refine ⟨?_, ?_, ?_⟩
  · have hd2 : ¬ config.DeviceName.value.length ≤ 0 := by omega
    have ho2 : ¬ config.OrganizationName.value.length ≤ 0 := by omega
    simp only [addressesDataSource.Read, hget, Bool.false_eq_true, if_false,
      dataDeviceName_of_set env config _ hdev,
      dataOrganizationName_of_set env config _ _ horg, hfetch, gt_iff_lt, hdev, horg,
      if_true, haddr, foldl_append_singleton_eq_map, List.nil_append]
    rfl
  · intro hk
    cases hc : config.DeviceName with
    | mk st v =>
      rw [hc] at hk
      simp only at hk
      subst hk
      rfl
  · intro hk
    cases hc : config.OrganizationName with
    | mk st v =>
      rw [hc] at hk
      simp only at hk
      subst hk
      rfl

/-- C25 on the configuration of the acceptance test, device "Branch-1" and
organization "ACME", with a remote list of two objects: `address.0` is the
first remote object and `address.1` the second. -/
theorem dataSource_read_lists_remote_witness :
    (addressesDataSource.Read
        ⟨fun _ => "", "now",
          fun _ => Except.ok (envelope [⟨"cisco-systems-addresses", "cisco.com"⟩,
            ⟨"jnupier-networks-addresses", "juniper.net"⟩]),
          fun _ => []⟩
        (fun _ _ => Except.ok ⟨200, "200 OK", [1], none⟩) Client.zero []
        ⟨types.StringNull, types.StringValue "Branch-1", types.StringValue "ACME",
          types.StringNull, []⟩ []).State
      = some ⟨types.StringValue "1", types.StringValue "Branch-1", types.StringValue "ACME",
          types.StringValue "now",
          [⟨types.StringValue "cisco-systems-addresses", types.StringValue "cisco.com"⟩,
           ⟨types.StringValue "jnupier-networks-addresses",
            types.StringValue "juniper.net"⟩]⟩ :=
  (dataSource_read_lists_remote
    ⟨fun _ => "", "now",
      fun _ => Except.ok (envelope [⟨"cisco-systems-addresses", "cisco.com"⟩,
        ⟨"jnupier-networks-addresses", "juniper.net"⟩]),
      fun _ => []⟩
    (fun _ _ => Except.ok ⟨200, "200 OK", [1], none⟩) Client.zero []
    ⟨types.StringNull, types.StringValue "Branch-1", types.StringValue "ACME",
      types.StringNull, []⟩ []
    ⟨"", "", 0, [⟨"cisco-systems-addresses", "cisco.com"⟩,
      ⟨"jnupier-networks-addresses", "juniper.net"⟩]⟩
    rfl (by decide) (by decide) rfl
    (by
      rw [GetDeviceOrganizationAddresses_eq]
      simp [vHttpHandleGetReq, readLimited, jsonUnmarshalAddressList,
        unmarshalInto_envelope, DevObjectsAddressList.zero])).1

/-! ## The appliances data source -/

theorem appliancesLoop_ok (a : VmsDirectorAppliances) :
    ∀ (n i : Nat) (acc : List applianceData), i + n ≤ a.Appliances.length →
      appliancesLoop a n i acc =
        Except.ok (acc ++ ((a.Appliances.drop i).take n).map applianceProjection) := by
  intro n
  induction n with
  | zero => intro i acc _; simp [appliancesLoop]
  | succ n ih =>
    intro i acc h
    have hi : i < a.Appliances.length := by omega
    have hget : a.Appliances[i]? = some a.Appliances[i] := List.getElem?_eq_getElem hi
    have hdrop : a.Appliances.drop i = a.Appliances[i] :: a.Appliances.drop (i + 1) :=
      List.drop_eq_getElem_cons hi
    simp only [appliancesLoop, hget]
    rw [ih (i + 1) _ (by omega), hdrop, List.take_succ_cons, List.map_cons, List.append_assoc,
      List.singleton_append]
    rfl

theorem appliancesLoop_panics (a : VmsDirectorAppliances) :
    ∀ (n i : Nat) (acc : List applianceData), i ≤ a.Appliances.length →
      a.Appliances.length < i + n →
      appliancesLoop a n i acc = Except.error (a.Appliances.length, a.Appliances.length) := by
  intro n
  induction n with
  | zero => intro i acc h1 h2; omega
  | succ n ih =>
    intro i acc h1 h2
    by_cases hi : i < a.Appliances.length
    · have hget : a.Appliances[i]? = some a.Appliances[i] := List.getElem?_eq_getElem hi
      simp only [appliancesLoop, hget]
      exact ih (i + 1) _ (by omega) (by omega)
    · have hieq : i = a.Appliances.length := by omega
      subst hieq
      have hget : a.Appliances[a.Appliances.length]? = none :=
        List.getElem?_eq_none (Nat.le_refl _)
      simp only [appliancesLoop, hget]

/-- C29: the appliances read indexes the page by the reported total: the loop
runs without an index out of range if and only if `TotalCount` is at most the
number of appliances of the page; under that condition the list built has
max(TotalCount, 0) entries, the projections of the first `TotalCount`
appliances in page order, and `Read` hands it to the state; otherwise the
loop stops in the panic at the index that equals the length of the page. -/
theorem appliances_indexed_by_total (a : VmsDirectorAppliances) :
    ((∃ l, appliancesLoop a a.TotalCount.toNat 0 [] = Except.ok l)
      ↔ a.TotalCount ≤ (a.Appliances.length : Int)) ∧
    (a.TotalCount ≤ (a.Appliances.length : Int) →
      appliancesLoop a a.TotalCount.toNat 0 [] =
        Except.ok ((a.Appliances.take a.TotalCount.toNat).map applianceProjection) ∧
      (((a.Appliances.take a.TotalCount.toNat).map applianceProjection).length : Int)
        = max a.TotalCount 0 ∧
      ∀ unmarshal stateSet net client hist,
        (GetAllAppliances unmarshal net client hist).1 = Except.ok a →
        (appliancesDataSource.Read unmarshal stateSet net client hist).1 =
          AppliancesOutcome.returned
            (Append [] (stateSet ⟨types.StringNull, types.StringNull,
              (a.Appliances.take a.TotalCount.toNat).map applianceProjection⟩))
            (some ⟨types.StringNull, types.StringNull,
              (a.Appliances.take a.TotalCount.toNat).map applianceProjection⟩)) ∧
    (¬ a.TotalCount ≤ (a.Appliances.length : Int) →
      appliancesLoop a a.TotalCount.toNat 0 [] =
        Except.error (a.Appliances.length, a.Appliances.length) ∧
      ∀ unmarshal stateSet net client hist,
        (GetAllAppliances unmarshal net client hist).1 = Except.ok a →
        (appliancesDataSource.Read unmarshal stateSet net client hist).1 =
          AppliancesOutcome.indexOutOfRange a.Appliances.length a.Appliances.length) := by
  have hok : a.TotalCount ≤ (a.Appliances.length : Int) →
      appliancesLoop a a.TotalCount.toNat 0 [] =
        Except.ok ((a.Appliances.take a.TotalCount.toNat).map applianceProjection) := by
    intro h
    have h2 : 0 + a.TotalCount.toNat ≤ a.Appliances.length := by omega
    rw [appliancesLoop_ok a _ 0 [] h2]
    simp
  have hbad : ¬ a.TotalCount ≤ (a.Appliances.length : Int) →
      appliancesLoop a a.TotalCount.toNat 0 [] =
        Except.error (a.Appliances.length, a.Appliances.length) := by
    intro h
    exact appliancesLoop_panics a _ 0 [] (Nat.zero_le _) (by omega)
  refine ⟨⟨?_, ?_⟩, ?_, ?_⟩
  · intro hex
    by_contra hn
    obtain ⟨l, hl⟩ := hex
    rw [hbad hn] at hl
    exact Except.noConfusion hl
  · intro h
    exact ⟨_, hok h⟩
  · intro h
    refine ⟨hok h, ?_, ?_⟩
    · rw [List.length_map, List.length_take]
      omega
    · intro unmarshal stateSet net client hist hfetch
      simp only [appliancesDataSource.Read, hfetch, hok h]
  · intro h
    refine ⟨hbad h, ?_⟩
    intro unmarshal stateSet net client hist hfetch
    simp only [appliancesDataSource.Read, hfetch, hbad h]

/-- C29 at a page of two appliances: with a reported total of 2 both are
listed. -/
theorem appliances_indexed_by_total_witness :
    appliancesLoop ⟨2, [⟨"n1", "u1", "GOOD", "OK"⟩, ⟨"n2", "u2", "BAD", "DOWN"⟩]⟩ 2 0 [] =
      Except.ok [applianceProjection ⟨"n1", "u1", "GOOD", "OK"⟩,
                 applianceProjection ⟨"n2", "u2", "BAD", "DOWN"⟩] :=
  ((appliances_indexed_by_total
    ⟨2, [⟨"n1", "u1", "GOOD", "OK"⟩, ⟨"n2", "u2", "BAD", "DOWN"⟩]⟩).2.1 (by decide)).1

end provider





namespace provider

open vclient

/-! ## Provider configuration -/

theorem Append_singleton (diags : List Diagnostic) (d : Diagnostic) :
    Append diags [d] = if d ∈ diags then diags else diags ++ [d] := by
  simp [Append]

theorem not_mem_of_no_error (diags : List Diagnostic) (d : Diagnostic)
    (h : HasError diags = false) (hd : d.severity = Severity.SeverityError) : d ∉ diags := by
  intro hmem
  have : HasError diags = true := by
    simp only [HasError, List.any_eq_true, decide_eq_true_eq]
    exact ⟨d, hmem, hd⟩
  rw [h] at this
  exact Bool.noConfusion this

theorem foldl_checks (checks : List (String × Diagnostic)) :
    ∀ acc : List Diagnostic, (∀ c ∈ checks, c.2 ∉ acc) →
      (checks.map (fun c => c.2)).Nodup →
      checks.foldl (fun acc c => if c.1 = "" then Append acc [c.2] else acc) acc =
        acc ++ (checks.filter (fun c => decide (c.1 = ""))).map (fun c => c.2) := by
  induction checks with
  | nil => intro acc _ _; simp
  | cons c rest ih =>
    intro acc hnot hnd
    have hc : c.2 ∉ acc := hnot c (List.mem_cons_self _ _)
    have hnd2 : (rest.map (fun c => c.2)).Nodup := (List.nodup_cons.mp hnd).2
    have hfresh : c.2 ∉ rest.map (fun c => c.2) := (List.nodup_cons.mp hnd).1
    by_cases hv : c.1 = ""
    · have hrest : ∀ c2 ∈ rest, c2.2 ∉ acc ++ [c.2] := by
        intro c2 hc2 hmem
        rcases List.mem_append.mp hmem with h | h
        · exact hnot c2 (List.mem_cons_of_mem _ hc2) h
        · have heq : c2.2 = c.2 := by simpa using h
          exact hfresh (List.mem_map.mpr ⟨c2, hc2, heq⟩)
      have hstep : (if c.1 = "" then Append acc [c.2] else acc) = acc ++ [c.2] := by
        rw [if_pos hv, Append_singleton, if_neg hc]
      rw [List.foldl_cons, hstep, ih _ hrest hnd2]
      simp [hv]
    · have hrest : ∀ c2 ∈ rest, c2.2 ∉ acc := fun c2 hc2 =>
        hnot c2 (List.mem_cons_of_mem _ hc2)
      have hstep : (if c.1 = "" then Append acc [c.2] else acc) = acc := if_neg hv
      rw [List.foldl_cons, hstep, ih _ hrest hnd2]
      simp [hv]

theorem missingChecks_errors (r : ResolvedSettings) :
    ∀ c ∈ missingChecks r, c.2.severity = Severity.SeverityError := by
  intro c hc
  simp only [missingChecks, List.mem_cons, List.mem_singleton, List.not_mem_nil, or_false] at hc
  rcases hc with h | h | h | h | h | h | h <;> (rw [h]; rfl)

theorem missingChecks_nodup (r : ResolvedSettings) :
    ((missingChecks r).map (fun c => c.2)).Nodup := by
  have hpaths : (((missingChecks r).map (fun c => c.2)).map (fun d => d.path)).Nodup := by
    simp only [missingChecks, List.map_cons, List.map_nil]
    decide
  exact List.Nodup.of_map _ hpaths

theorem resolve_eq (getenv : String → String) (cfg : basetypes.StringValue)
    (envName : String) :
    (if (!cfg.IsNull) = true then cfg.ValueString else getenv envName)
      = resolved getenv cfg envName := by
  unfold resolved basetypes.StringValue.IsNull basetypes.StringValue.ValueString
  by_cases h : cfg.state = valueState.valueStateNull
  · simp [h]
  · simp [h]

theorem Configure_known (getenv : String → String) (tokenEnv : TokenEnv) (net : Net)
    (getDiags : List Diagnostic) (config : versaDirectorProviderModel)
    (hist : List Request) (written : List (String × List UInt8))
    (hget : HasError (Append [] getDiags) = false)
    (h1 : config.Username.IsUnknown = false) (h2 : config.Password.IsUnknown = false)
    (h3 : config.Host.IsUnknown = false) (h4 : config.Port.IsUnknown = false)
    (h5 : config.OauthClientID.IsUnknown = false)
    (h6 : config.OauthClientSecret.IsUnknown = false)
    (h7 : config.OauthGrantType.IsUnknown = false) :
    versaDirectorProvider.Configure getenv tokenEnv net getDiags config hist written =
      if HasError ((missingChecks (resolvedSettings getenv config)).foldl
          (fun acc c => if c.1 = "" then Append acc [c.2] else acc) (Append [] getDiags)) then
        ⟨(missingChecks (resolvedSettings getenv config)).foldl
          (fun acc c => if c.1 = "" then Append acc [c.2] else acc) (Append [] getDiags),
          none, none⟩
      else
        match (NewClient tokenEnv net
            (some (resolvedSettings getenv config).host)
            (some (resolvedSettings getenv config).username)
            (some (resolvedSettings getenv config).password)
            (some (resolvedSettings getenv config).port)
            (some (resolvedSettings getenv config).oauthClientId)
            (some (resolvedSettings getenv config).oauthClientSecret)
            (some (resolvedSettings getenv config).oauthGrantType) hist written).1 with
        | NewClientOutcome.returned client =>
          ⟨(missingChecks (resolvedSettings getenv config)).foldl
            (fun acc c => if c.1 = "" then Append acc [c.2] else acc) (Append [] getDiags),
            some (NewClient tokenEnv net
              (some (resolvedSettings getenv config).host)
              (some (resolvedSettings getenv config).username)
              (some (resolvedSettings getenv config).password)
              (some (resolvedSettings getenv config).port)
              (some (resolvedSettings getenv config).oauthClientId)
              (some (resolvedSettings getenv config).oauthClientSecret)
              (some (resolvedSettings getenv config).oauthGrantType) hist written),
            some client⟩
        | _ =>
          ⟨(missingChecks (resolvedSettings getenv config)).foldl
            (fun acc c => if c.1 = "" then Append acc [c.2] else acc) (Append [] getDiags),
            some (NewClient tokenEnv net
              (some (resolvedSettings getenv config).host)
              (some (resolvedSettings getenv config).username)
              (some (resolvedSettings getenv config).password)
              (some (resolvedSettings getenv config).port)
              (some (resolvedSettings getenv config).oauthClientId)
              (some (resolvedSettings getenv config).oauthClientSecret)
              (some (resolvedSettings getenv config).oauthGrantType) hist written),
            none⟩ := by
  simp only [versaDirectorProvider.Configure, hget, h1, h2, h3, h4, h5, h6, h7,
    Bool.false_eq_true, if_false, resolve_eq]
  rfl

theorem HasError_append_checks (diags : List Diagnostic) (r : ResolvedSettings)
    (h : HasError diags = false) :
    HasError (diags ++ ((missingChecks r).filter (fun c => decide (c.1 = ""))).map
        (fun c => c.2)) = true ↔ ∃ c ∈ missingChecks r, c.1 = "" := by
  simp only [HasError, List.any_append, List.any_eq_true, decide_eq_true_eq,
    Bool.or_eq_true] at h ⊢
  constructor
  · intro hex
    rcases hex with ⟨d, hd, hsev⟩ | ⟨d, hd, _⟩
    · have hfalse : (diags.any fun d => decide (d.severity = Severity.SeverityError)) = true := by
        simp only [List.any_eq_true, decide_eq_true_eq]
        exact ⟨d, hd, hsev⟩
      rw [h] at hfalse
      exact Bool.noConfusion hfalse
    · obtain ⟨c, hc, _⟩ := List.mem_map.mp hd
      have hc2 := List.mem_filter.mp hc
      exact ⟨c, hc2.1, by simpa using hc2.2⟩
  · intro hex
    obtain ⟨c, hc, hv⟩ := hex
    right
    refine ⟨c.2, List.mem_map.mpr ⟨c, List.mem_filter.mpr ⟨hc, by simpa using hv⟩, rfl⟩, ?_⟩
    exact missingChecks_errors r c hc

/-- C23: `Configure` when reading the configuration gives no error and none of
the seven values is unknown. Each setting resolves to the configuration value
when it is not null and to its `VERSA_DIRECTOR_` environment variable
otherwise. The diagnostics gain exactly one attribute error for each resolved
value that is empty, in the order of the checks. `vclient.NewClient` is called,
with the seven resolved values, if and only if none of them is empty; when one
is empty it is not called and no client is stored. -/
theorem Configure_resolves_then_creates (getenv : String → String) (tokenEnv : TokenEnv)
    (net : Net) (getDiags : List Diagnostic) (config : versaDirectorProviderModel)
    (hist : List Request) (written : List (String × List UInt8))
    (hget : HasError (Append [] getDiags) = false)
    (h1 : config.Username.IsUnknown = false) (h2 : config.Password.IsUnknown = false)
    (h3 : config.Host.IsUnknown = false) (h4 : config.Port.IsUnknown = false)
    (h5 : config.OauthClientID.IsUnknown = false)
    (h6 : config.OauthClientSecret.IsUnknown = false)
    (h7 : config.OauthGrantType.IsUnknown = false) :
    (versaDirectorProvider.Configure getenv tokenEnv net getDiags config hist written).Diagnostics
      = Append [] getDiags ++
        ((missingChecks (resolvedSettings getenv config)).filter
          (fun c => decide (c.1 = ""))).map (fun c => c.2) ∧
    ((∀ c ∈ missingChecks (resolvedSettings getenv config), c.1 ≠ "") →
      (versaDirectorProvider.Configure getenv tokenEnv net getDiags config hist written).newClient
        = some (NewClient tokenEnv net
            (some (resolvedSettings getenv config).host)
            (some (resolvedSettings getenv config).username)
            (some (resolvedSettings getenv config).password)
            (some (resolvedSettings getenv config).port)
            (some (resolvedSettings getenv config).oauthClientId)
            (some (resolvedSettings getenv config).oauthClientSecret)
            (some (resolvedSettings getenv config).oauthGrantType) hist written)) ∧
    ((∃ c ∈ missingChecks (resolvedSettings getenv config), c.1 = "") →
      (versaDirectorProvider.Configure getenv tokenEnv net getDiags config hist written).newClient
        = none ∧
      (versaDirectorProvider.Configure getenv tokenEnv net getDiags config hist
        written).ProviderData = none) ∧
    ((versaDirectorProvider.Configure getenv tokenEnv net getDiags config hist
        written).newClient.isSome = true
      ↔ ∀ c ∈ missingChecks (resolvedSettings getenv config), c.1 ≠ "") := by
  have hnot : ∀ c ∈ missingChecks (resolvedSettings getenv config),
      c.2 ∉ Append [] getDiags := fun c hc =>
    not_mem_of_no_error _ _ hget (missingChecks_errors _ c hc)
  have hfold := foldl_checks (missingChecks (resolvedSettings getenv config))
    (Append [] getDiags) hnot (missingChecks_nodup _)
  have herr := HasError_append_checks (Append [] getDiags) (resolvedSettings getenv config) hget
  rw [Configure_known getenv tokenEnv net getDiags config hist written hget h1 h2 h3 h4 h5 h6 h7,
    hfold]
  by_cases hex : ∃ c ∈ missingChecks (resolvedSettings getenv config), c.1 = ""
  · have hE := herr.mpr hex
    have hnall : ¬ ∀ c ∈ missingChecks (resolvedSettings getenv config), c.1 ≠ "" := by
      intro hall
      obtain ⟨c, hc, hv⟩ := hex
      exact hall c hc hv
    simp only [hE, if_true]
    refine ⟨trivial, fun hall => absurd hall hnall, fun _ => ⟨trivial, trivial⟩, ?_⟩
    constructor
    · intro h; exact absurd h (by simp)
    · intro hall; exact absurd hall hnall
  · have hE : HasError (Append [] getDiags ++
        ((missingChecks (resolvedSettings getenv config)).filter
          (fun c => decide (c.1 = ""))).map (fun c => c.2)) = false := by
      cases hb : HasError (Append [] getDiags ++
        ((missingChecks (resolvedSettings getenv config)).filter
          (fun c => decide (c.1 = ""))).map (fun c => c.2))
      · rfl
      · exact absurd (herr.mp hb) hex
    have hall : ∀ c ∈ missingChecks (resolvedSettings getenv config), c.1 ≠ "" :=
      fun c hc hv => hex ⟨c, hc, hv⟩
    simp only [hE, Bool.false_eq_true, if_false]
    refine ⟨?_, ?_, fun h => absurd h hex, ?_⟩
    · split <;> rfl
    · intro _
      split <;> rfl
    · constructor
      · intro _; exact hall
      · intro _
        split <;> rfl

/-- C23 on the provider configuration of the acceptance test, all seven
values set: `NewClient` is called with exactly these values. -/
theorem Configure_resolves_then_creates_witness :
    (versaDirectorProvider.Configure (fun _ => "")
        ⟨fun _ => FileOutcome.data [], fun _ => Except.ok
          { vOauthServerToken.zero with AccessToken := "tok", ExpiresIn := "-1" }⟩
        (fun _ _ => Except.error "connection refused") []
        ⟨types.StringValue "Administrator", types.StringValue "Versa123#",
          types.StringValue "10.40.73.242", types.StringValue "9182",
          types.StringValue "password",
          types.StringValue "CA736092A7221051EA93B4447A259744",
          types.StringValue "6bafb4e78e909775a377eedf022610a6"⟩ [] []).newClient
      = some (NewClient
          ⟨fun _ => FileOutcome.data [], fun _ => Except.ok
            { vOauthServerToken.zero with AccessToken := "tok", ExpiresIn := "-1" }⟩
          (fun _ _ => Except.error "connection refused")
          (some "10.40.73.242") (some "Administrator") (some "Versa123#") (some "9182")
          (some "CA736092A7221051EA93B4447A259744")
          (some "6bafb4e78e909775a377eedf022610a6") (some "password") [] []) :=
  (Configure_resolves_then_creates (fun _ => "")
    ⟨fun _ => FileOutcome.data [], fun _ => Except.ok
      { vOauthServerToken.zero with AccessToken := "tok", ExpiresIn := "-1" }⟩
    (fun _ _ => Except.error "connection refused") []
    ⟨types.StringValue "Administrator", types.StringValue "Versa123#",
      types.StringValue "10.40.73.242", types.StringValue "9182",
      types.StringValue "password",
      types.StringValue "CA736092A7221051EA93B4447A259744",
      types.StringValue "6bafb4e78e909775a377eedf022610a6"⟩ [] []
    rfl rfl rfl rfl rfl rfl rfl rfl).2.1 (by decide)

end provider



